import Mathlib

/-!
# broom: BSP visibility traversal and line-of-sight resolver

Shallow embedding of `src/render/r_bsp.c` and `src/playsim/p_sight.c`.

Conventions used throughout:

* C `int` / `fixed_t` values are `Int`; `angle_t` values are `Nat` reduced
  modulo `2^32` after every operation.
* A C array reached through a pointer is a function from the index to the cell
  (`solidsegs`) or a `List` read with a bounds check (level tables).
* `while` loops whose trip count is not bounded by the code itself take a
  `fuel` argument and return `none` when it runs out.
* Calls to functions that live in other translation units
  (`R_RenderWallRange`, `R_PointToAngle`, `FixedDiv`, ...) are either recorded
  in a call log or supplied as parameters.
-/

namespace Broom

/-! ## r_bsp.c : the clip list (`solidsegs`, `newend`) -/

/-- The `cliprange_t` struct of r_bsp.c: a closed range of screen columns. -/
structure cliprange_t where
  first : Int
  last : Int
deriving DecidableEq, Repr

/-- Largest value of a C `int`, the `0x7fffffff` literal of `R_ClearClipSegs`. -/
def INT_MAX : Int := 0x7fffffff

/-- The file-static variables `solidsegs` and `newend` of r_bsp.c, together with
the log of the `R_RenderWallRange(start, stop)` calls issued so far.
`solidsegs i` is the cell `solidsegs[i]`; `newend` is the pointer `newend`
as an offset from `solidsegs`. The array is not cut off at `MAXSEGS`: cells
from `MAXSEGS` on stand for the memory behind it, and whether the code stays
below that index is a property of its own. Column arithmetic (`first-1`,
`next->last + 1`, ...) is done in `Int`; on a well-formed list with
`0 <= first <= last < viewwidth` every such value lies between `-0x80000000`
and `0x7fffffff`, so nothing wraps. -/
structure ClipState where
  solidsegs : Nat → cliprange_t
  newend : Nat
  rendered : List (Int × Int)

/-- Store `v` into cell `i` of an array. -/
def poke (a : Nat → cliprange_t) (i : Nat) (v : cliprange_t) : Nat → cliprange_t :=
  fun j => if j = i then v else a j

/-- The loop `while (start->last < first-1) start++;` of
`R_ClipSolidWallSegment`, entered with `start` at the given index. The
bound `first - 1` is an `Int`: it is the value the C `int` subtraction
computes for every `first` above `-0x80000000`, and the theorems about this
scan take `first` in that range (for `first = -0x80000000` the C subtraction
overflows and this definition says nothing about the program). -/
def solidScanStart (a : Nat → cliprange_t) (first : Int) : Nat → Nat → Option Nat
  | 0, _ => none
  | fuel + 1, start =>
    if (a start).last < first - 1 then solidScanStart a first fuel (start + 1)
    else some start

/-- The loop `while (next != start) { *next = *(next-1); next--; }` that opens
a hole for a new clippost. Stepping below `solidsegs[0]` gives no result. -/
def shiftUp (start : Nat) : Nat → (Nat → cliprange_t) → Nat → Option (Nat → cliprange_t)
  | 0, _, _ => none
  | fuel + 1, a, next =>
    if next ≠ start then
      if next = 0 then none
      else shiftUp start fuel (poke a next (a (next - 1))) (next - 1)
    else some a

/-- The loop `while (last >= (next+1)->first - 1) { ... }` of
`R_ClipSolidWallSegment`. Returns the final `next`, the call log, and whether
the loop left through `goto crunch` (bottom contained in `next`). -/
def solidMergeScan (a : Nat → cliprange_t) (last : Int) :
    Nat → Nat → List (Int × Int) → Option (Nat × List (Int × Int) × Bool)
  | 0, _, _ => none
  | fuel + 1, next, out =>
    if last ≥ (a (next + 1)).first - 1 then
      let out1 := out ++ [((a next).last + 1, (a (next + 1)).first - 1)]
      if last ≤ (a (next + 1)).last then some (next + 1, out1, true)
      else solidMergeScan a last fuel (next + 1) out1
    else some (next, out, false)

/-- The loop `while (next++ != newend) { *++start = *next; }` after the
`crunch:` label. Returns the array and the final `start`. -/
def crunchLoop (newend : Nat) :
    Nat → (Nat → cliprange_t) → Nat → Nat → Option ((Nat → cliprange_t) × Nat)
  | 0, _, _, _ => none
  | fuel + 1, a, start, next =>
    if next ≠ newend then
      crunchLoop newend fuel (poke a (start + 1) (a (next + 1))) (start + 1) (next + 1)
    else some (a, start)

/-- The code of `R_ClipSolidWallSegment` from the `crunch:` label on:
`if (next == start) return;`, the removal loop, `newend = start+1;`. -/
def solidCrunch (fuel : Nat) (s : ClipState) (start next : Nat) : Option ClipState :=
  if next = start then some s
  else
    match crunchLoop s.newend fuel s.solidsegs start next with
    | none => none
    | some (a2, start2) => some { s with solidsegs := a2, newend := start2 + 1 }

/-- The part of `R_ClipSolidWallSegment` from the comment
`// Bottom contained in start?` to the end of the function. -/
def solidTail (fuel : Nat) (s : ClipState) (start : Nat) (last : Int) : Option ClipState :=
  if last ≤ (s.solidsegs start).last then some s
  else
    match solidMergeScan s.solidsegs last fuel start s.rendered with
    | none => none
    | some (next, out, true) =>
      -- start->last = next->last; goto crunch;
      solidCrunch fuel
        { s with
          solidsegs := poke s.solidsegs start
            { first := (s.solidsegs start).first, last := (s.solidsegs next).last }
          rendered := out }
        start next
    | some (next, out, false) =>
      -- R_RenderWallRange(next->last + 1, last); start->last = last;
      solidCrunch fuel
        { s with
          solidsegs := poke s.solidsegs start
            { first := (s.solidsegs start).first, last := last }
          rendered := out ++ [((s.solidsegs next).last + 1, last)] }
        start next

/-- Function `R_ClipSolidWallSegment(first, last)` of r_bsp.c. -/
def R_ClipSolidWallSegment (fuel : Nat) (s : ClipState) (first last : Int) :
    Option ClipState :=
  match solidScanStart s.solidsegs first fuel 0 with
  | none => none
  | some start =>
    if first < (s.solidsegs start).first then
      if last < (s.solidsegs start).first - 1 then
        -- Post is entirely visible (above start), so insert a new clippost.
        match shiftUp start fuel s.solidsegs s.newend with
        | none => none
        | some a1 =>
          some { solidsegs := poke a1 start { first := first, last := last }
                 newend := s.newend + 1
                 rendered := s.rendered ++ [(first, last)] }
      else
        -- There is a fragment above *start.
        solidTail fuel
          { s with
            solidsegs := poke s.solidsegs start
              { first := first, last := (s.solidsegs start).last }
            rendered := s.rendered ++ [(first, (s.solidsegs start).first - 1)] }
          start last
    else solidTail fuel s start last

/-- The loop `while (start->last < first-1) start++;` of
`R_ClipPassWallSegment`. As in `solidScanStart`, `first - 1` is the value of
the C subtraction for every `first` above `-0x80000000`, the range in which
the theorems about this scan take `first`. -/
def passScanStart (a : Nat → cliprange_t) (first : Int) : Nat → Nat → Option Nat
  | 0, _ => none
  | fuel + 1, start =>
    if (a start).last < first - 1 then passScanStart a first fuel (start + 1)
    else some start

/-- The loop `while (last >= (start+1)->first-1) { ... }` of
`R_ClipPassWallSegment` followed by the final
`R_RenderWallRange(start->last + 1, last)`; returns the call log. -/
def passMergeScan (a : Nat → cliprange_t) (last : Int) :
    Nat → Nat → List (Int × Int) → Option (List (Int × Int))
  | 0, _, _ => none
  | fuel + 1, start, out =>
    if last ≥ (a (start + 1)).first - 1 then
      let out1 := out ++ [((a start).last + 1, (a (start + 1)).first - 1)]
      if last ≤ (a (start + 1)).last then some out1
      else passMergeScan a last fuel (start + 1) out1
    else some (out ++ [((a start).last + 1, last)])

/-- Function `R_ClipPassWallSegment(first, last)` of r_bsp.c. The list is only read
(`const cliprange_t* start`). -/
def R_ClipPassWallSegment (fuel : Nat) (s : ClipState) (first last : Int) :
    Option ClipState :=
  match passScanStart s.solidsegs first fuel 0 with
  | none => none
  | some start =>
    if first < (s.solidsegs start).first then
      if last < (s.solidsegs start).first - 1 then
        some { s with rendered := s.rendered ++ [(first, last)] }
      else
        let out := s.rendered ++ [(first, (s.solidsegs start).first - 1)]
        if last ≤ (s.solidsegs start).last then some { s with rendered := out }
        else
          match passMergeScan s.solidsegs last fuel start out with
          | none => none
          | some out1 => some { s with rendered := out1 }
    else
      if last ≤ (s.solidsegs start).last then some s
      else
        match passMergeScan s.solidsegs last fuel start s.rendered with
        | none => none
        | some out1 => some { s with rendered := out1 }

/-- Function `R_ClearClipSegs()` of r_bsp.c; `viewwidth` is the global of that name. -/
def R_ClearClipSegs (viewwidth : Int) (s : ClipState) : ClipState :=
  { s with
    solidsegs := poke (poke s.solidsegs 0 { first := -0x7fffffff, last := -1 }) 1
      { first := viewwidth, last := 0x7fffffff }
    newend := 2 }

/-- Run a sequence of `R_ClipSolidWallSegment(first, last)` calls. -/
def runSolid (fuel : Nat) : ClipState → List (Int × Int) → Option ClipState
  | s, [] => some s
  | s, (first, last) :: rest =>
    match R_ClipSolidWallSegment fuel s first last with
    | none => none
    | some s1 => runSolid fuel s1 rest

/-- Cell `k` of the array is the right sentinel: the first entry whose `last`
is `0x7fffffff`. -/
def IsRightSentinel (a : Nat → cliprange_t) (k : Nat) : Prop :=
  (a k).last = INT_MAX ∧ ∀ i, i < k → (a i).last ≠ INT_MAX

instance (a : Nat → cliprange_t) (k : Nat) : Decidable (IsRightSentinel a k) := by
  unfold IsRightSentinel; infer_instance

/-- Column `c` lies in one of the ranges held in cells `0..k`. -/
def CoveredBy (a : Nat → cliprange_t) (k : Nat) (c : Int) : Prop :=
  ∃ i, i < k + 1 ∧ (a i).first ≤ c ∧ c ≤ (a i).last

instance (a : Nat → cliprange_t) (k : Nat) (c : Int) : Decidable (CoveredBy a k c) := by
  unfold CoveredBy; infer_instance

/-- Column `c` is covered by the Occlusion Interval List: it lies in one of the
entries from `solidsegs[0]` up to and including the right sentinel. -/
def Covered (s : ClipState) (c : Int) : Prop :=
  ∃ k, k < s.newend ∧ IsRightSentinel s.solidsegs k ∧ CoveredBy s.solidsegs k c

instance (s : ClipState) (c : Int) : Decidable (Covered s c) := by
  unfold Covered; infer_instance

/-- The cells `0..k` are a well-formed list for a view of `vw` columns:
cell `k` is the right sentinel and covers every column from `vw` on, cell 0 is
the left sentinel and covers every column below 0, each range is non-empty, and
consecutive ranges leave at least one free column between them. -/
def WellFormedAt (vw : Int) (a : Nat → cliprange_t) (k : Nat) : Prop :=
  IsRightSentinel a k ∧
  (a 0).first = -INT_MAX ∧ -1 ≤ (a 0).last ∧ (a k).first ≤ vw ∧
  (∀ i, i < k + 1 → (a i).first ≤ (a i).last) ∧
  (∀ i, i < k → (a i).last + 1 < (a (i + 1)).first)

instance (vw : Int) (a : Nat → cliprange_t) (k : Nat) : Decidable (WellFormedAt vw a k) := by
  unfold WellFormedAt; infer_instance

/-- Well-formed Occlusion Interval List: sorted, disjoint, non-adjacent ranges
between the two sentinels, the right sentinel lying below `newend`. -/
def WellFormed (vw : Int) (s : ClipState) : Prop :=
  ∃ k, k < s.newend ∧ WellFormedAt vw s.solidsegs k

instance (vw : Int) (s : ClipState) : Decidable (WellFormed vw s) := by
  unfold WellFormed; infer_instance

/-- The gaps between the `n` consecutive pairs of entries starting at `i`:
the arguments of the `R_RenderWallRange(next->last + 1, (next+1)->first - 1)`
calls of one merge scan. -/
def gapsFrom (a : Nat → cliprange_t) : Nat → Nat → List (Int × Int)
  | _, 0 => []
  | i, n + 1 => ((a i).last + 1, (a (i + 1)).first - 1) :: gapsFrom a (i + 1) n

/-- A call of one of the two clipping functions, as made by `R_RenderLine`. -/
inductive ClipCall where
  | solid (first last : Int)
  | pass (first last : Int)
deriving DecidableEq, Repr

/-- Execute one clipping call. -/
def ClipCall.run (fuel : Nat) (s : ClipState) : ClipCall → Option ClipState
  | .solid first last => R_ClipSolidWallSegment fuel s first last
  | .pass first last => R_ClipPassWallSegment fuel s first last

/-- The argument range of the call is `0 <= first <= last < viewwidth`. -/
def ClipCall.InView (vw : Int) : ClipCall → Prop
  | .solid first last => 0 ≤ first ∧ first ≤ last ∧ last < vw
  | .pass first last => 0 ≤ first ∧ first ≤ last ∧ last < vw

instance (vw : Int) (q : ClipCall) : Decidable (q.InView vw) := by
  cases q <;> (unfold ClipCall.InView; infer_instance)

/-- Column `c` lies in the range `[first, last]` of a solid call. -/
def ClipCall.Occludes : ClipCall → Int → Prop
  | .solid first last, c => first ≤ c ∧ c ≤ last
  | .pass _ _, _ => False

instance (q : ClipCall) (c : Int) : Decidable (q.Occludes c) := by
  cases q <;> (unfold ClipCall.Occludes; infer_instance)

/-- Run a sequence of clipping calls, in order. -/
def runCalls (fuel : Nat) : ClipState → List ClipCall → Option ClipState
  | s, [] => some s
  | s, q :: rest =>
    match q.run fuel s with
    | none => none
    | some s1 => runCalls fuel s1 rest

/-- A concrete frame start used to instantiate the theorems: stale cells all
`[7, 3]`, cleared for a view 10 columns wide. -/
def exampleCleared : ClipState :=
  R_ClearClipSegs 10 { solidsegs := fun _ => { first := 7, last := 3 }, newend := 0, rendered := [] }

/-! ## Level data (the structs of r_defs.h that the two files read) -/

/-- The fields of `sector_t` read by r_bsp.c and p_sight.c. -/
structure sector_t where
  floorheight : Int
  ceilingheight : Int
  floorpic : Int
  ceilingpic : Int
  lightlevel : Int
deriving DecidableEq, Repr

/-- A map vertex, `vertex_t`. -/
structure vertex_t where
  x : Int
  y : Int
deriving DecidableEq, Repr

/-- The field of `side_t` read by `R_IsEmptyLine`. -/
structure side_t where
  midtexture : Int
deriving DecidableEq, Repr

/-- The fields of `line_t` read by p_sight.c. A `sector_t*` is the index of the
sector in `sectors`; `NULL` is `none`. The `validcount` mark of a line is kept
in the sight state, keyed by the line's index. -/
structure line_t where
  v1 : vertex_t
  v2 : vertex_t
  flags : Int
  frontsector : Nat
  backsector : Option Nat
deriving DecidableEq, Repr

/-- The fields of `seg_t` read by the two files. `linedef` is the index of the
line in `lines`, `frontsector` / `backsector` are sector indices. -/
structure seg_t where
  v1 : vertex_t
  v2 : vertex_t
  sidedef : side_t
  linedef : Nat
  frontsector : Nat
  backsector : Option Nat
deriving DecidableEq, Repr

/-- A BSP leaf, `subsector_t`. -/
structure subsector_t where
  sector : Nat
  numlines : Int
  firstline : Int
deriving DecidableEq, Repr

/-- A BSP node, `node_t`: partition line, `bbox[side][coord]`,
`children[side]`. -/
structure node_t where
  x : Int
  y : Int
  dx : Int
  dy : Int
  bbox : Nat → Nat → Int
  children : Nat → Int

/-- The level tables. `segs`, `subsectors` and `nodes` are indexed with
computed integers and are read with a bounds check; `sectors` and `lines` are
only reached through pointers. `NF_SUBSECTOR` is the leaf flag of doomdata.h,
which is not part of the sources at hand and is kept as a parameter. -/
structure Level where
  sectors : Nat → sector_t
  numsectors : Int
  lines : Nat → line_t
  segs : List seg_t
  subsectors : List subsector_t
  nodes : List node_t
  rejectmatrix : Int → Nat
  NF_SUBSECTOR : Int

/-- The global `numsubsectors`. -/
def Level.numsubsectors (lv : Level) : Int := lv.subsectors.length

/-- The global `numnodes`. -/
def Level.numnodes (lv : Level) : Int := lv.nodes.length

/-- Why a run did not return normally. -/
inductive Halt where
  /-- The fatal-error handler `I_Error` was called with this message. -/
  | I_Error (msg : String)
  /-- A table was read outside its bounds or `NULL` was dereferenced. -/
  | badAccess
  /-- A loop or recursion ran out of fuel (or a clip-list loop left the array). -/
  | stuck
deriving DecidableEq, Repr

/-- Read `xs[i]` for a C `int` index. -/
def readAt {α : Type} (xs : List α) (i : Int) : Except Halt α :=
  if i < 0 then .error .badAccess
  else
    match xs.get? i.toNat with
    | some x => .ok x
    | none => .error .badAccess

/-- Wrap an integer to the range of a 32-bit `int` / `fixed_t`. -/
def fx (x : Int) : Int := (x + 2147483648) % 4294967296 - 2147483648

/-- Reduce to an `angle_t` (unsigned 32-bit). -/
def ang (x : Int) : Nat := (x % 4294967296).toNat

/-- The C expression `x & y` on 32-bit `int`s (two's complement). -/
def cand (x y : Int) : Int := fx ((ang x &&& ang y : Nat))

/-- The C expression `~x` on a 32-bit `int`. -/
def cnot (x : Int) : Int := -x - 1

/-! ## r_bsp.c : lines, subsectors and the BSP walk -/

/-- Modelled from the spec: `ANG90` of tables.h (claim C30 gives
`0x40000000`). -/
def ANG90 : Nat := 0x40000000

/-- Modelled from the spec: `ANG180` of tables.h, twice `ANG90`. -/
def ANG180 : Nat := 0x80000000

/-- Modelled from the spec: `ANGLETOFINESHIFT` of tables.h (claim C30 gives
19). -/
def ANGLETOFINESHIFT : Nat := 19

/-- The per-frame view globals of r_main.c that r_bsp.c reads, and the
functions of r_main.c it calls. -/
structure View where
  viewx : Int
  viewy : Int
  viewz : Int
  viewangle : Nat
  clipangle : Nat
  viewwidth : Int
  viewangletox : Nat → Int
  sky_flat : Int
  R_PointToAngle : Int → Int → Nat
  R_PointOnSide : Int → Int → node_t → Nat

/-- The file-level variables of r_bsp.c and r_plane.c written during the BSP
walk, the clip list, and logs of the calls made: `clipcalls` lists the calls
of the two clipping functions made by `R_RenderLine`, `visited` the
subsectors entered by `R_RenderSubSector`, `sprites` the arguments of
`R_AddSprites`. -/
structure RenderState where
  clip : ClipState
  curline : Option seg_t
  frontsector : Nat
  backsector : Option Nat
  rw_angle1 : Nat
  floorplane : Option (Int × Int × Int)
  ceilingplane : Option (Int × Int × Int)
  clipcalls : List ClipCall
  visited : List Int
  sprites : List Nat

/-- Function `R_IsEmptyLine()`; `b` is the non-NULL `backsector`. -/
def R_IsEmptyLine (lv : Level) (s : RenderState) (line : seg_t) (b : Nat) : Bool :=
  (lv.sectors b).ceilingpic == (lv.sectors s.frontsector).ceilingpic
    && (lv.sectors b).floorpic == (lv.sectors s.frontsector).floorpic
    && (lv.sectors b).lightlevel == (lv.sectors s.frontsector).lightlevel
    && line.sidedef.midtexture == 0

/-- Function `R_IsWindow()`; `b` is the non-NULL `backsector`. -/
def R_IsWindow (lv : Level) (s : RenderState) (b : Nat) : Bool :=
  (lv.sectors b).ceilingheight != (lv.sectors s.frontsector).ceilingheight
    || (lv.sectors b).floorheight != (lv.sectors s.frontsector).floorheight

/-- Function `R_IsClosedDoor()`; `b` is the non-NULL `backsector`. -/
def R_IsClosedDoor (lv : Level) (s : RenderState) (b : Nat) : Bool :=
  let down_door := decide ((lv.sectors b).ceilingheight ≤ (lv.sectors s.frontsector).floorheight)
  let up_door := decide ((lv.sectors b).floorheight ≥ (lv.sectors s.frontsector).ceilingheight)
  down_door || up_door

/-- Function `R_IsWall()`: `!backsector`. -/
def R_IsWall (s : RenderState) : Bool := s.backsector.isNone

/-- The view-edge clipping shared by `R_RenderLine` and `R_CheckBBox`
(`angle_t tspan = angle1 + clipangle; ...`): `none` when the span is totally
off an edge, else the clipped `angle1`, `angle2`. -/
def clipToViewEdges (clipangle span angle1 angle2 : Nat) : Option (Nat × Nat) :=
  let tspan := ang (angle1 + clipangle)
  let r1 : Option Nat :=
    if tspan > ang (2 * clipangle) then
      if ang (tspan - ang (2 * clipangle)) ≥ span then none else some clipangle
    else some angle1
  match r1 with
  | none => none
  | some a1 =>
    let tspan2 := ang (clipangle - angle2)
    if tspan2 > ang (2 * clipangle) then
      if ang (tspan2 - ang (2 * clipangle)) ≥ span then none
      else some (a1, ang (-(clipangle : Int)))
    else some (a1, angle2)

/-- The lookup `viewangletox[(angle + ANG90) >> ANGLETOFINESHIFT]`. -/
def angleToColumn (V : View) (angle : Nat) : Int :=
  V.viewangletox (ang (angle + ANG90) >>> ANGLETOFINESHIFT)

/-- Lift the result of a clipping function. -/
def liftClip (s : RenderState) : Option ClipState → Except Halt RenderState
  | none => .error .stuck
  | some c => .ok { s with clip := c }

/-- Function `R_RenderLine(line)` of r_bsp.c. -/
def R_RenderLine (V : View) (lv : Level) (fuel : Nat) (s0 : RenderState) (line : seg_t) :
    Except Halt RenderState :=
  let s := { s0 with curline := some line }
  let angle1 := V.R_PointToAngle line.v1.x line.v1.y
  let angle2 := V.R_PointToAngle line.v2.x line.v2.y
  let span := ang (angle1 - angle2)
  -- Back side? I.e. backface culling?
  if span ≥ ANG180 then .ok s
  else
    let s := { s with rw_angle1 := angle1 }
    match clipToViewEdges V.clipangle span (ang (angle1 - V.viewangle))
        (ang (angle2 - V.viewangle)) with
    | none => .ok s
    | some (a1, a2) =>
      let x1 := angleToColumn V a1
      let x2 := angleToColumn V a2
      -- Does not cross a pixel?
      if x1 = x2 then .ok s
      else
        let s := { s with backsector := line.backsector }
        if R_IsWall s then
          liftClip { s with clipcalls := s.clipcalls ++ [.solid x1 (x2 - 1)] }
            (R_ClipSolidWallSegment fuel s.clip x1 (x2 - 1))
        else
          match s.backsector with
          | none => .error .badAccess
          | some b =>
            if R_IsClosedDoor lv s b then
              liftClip { s with clipcalls := s.clipcalls ++ [.solid x1 (x2 - 1)] }
                (R_ClipSolidWallSegment fuel s.clip x1 (x2 - 1))
            -- Reject empty lines used for triggers and special events.
            else if R_IsWindow lv s b || !R_IsEmptyLine lv s line b then
              liftClip { s with clipcalls := s.clipcalls ++ [.pass x1 (x2 - 1)] }
                (R_ClipPassWallSegment fuel s.clip x1 (x2 - 1))
            else .ok s

/-- The `for` loop of `R_RenderSubSectorLines`: `n` segs are left, the next
one is `segs[i]`. -/
def renderLines (V : View) (lv : Level) (fuel : Nat) :
    Nat → Int → RenderState → Except Halt RenderState
  | 0, _, s => .ok s
  | n + 1, i, s =>
    match readAt lv.segs i with
    | .error e => .error e
    | .ok line =>
      match R_RenderLine V lv fuel s line with
      | .error e => .error e
      | .ok s1 => renderLines V lv fuel n (i + 1) s1

/-- Function `R_RenderSubSectorLines(sub_sector)` of r_bsp.c. -/
def R_RenderSubSectorLines (V : View) (lv : Level) (fuel : Nat) (s : RenderState)
    (sub_sector : subsector_t) : Except Halt RenderState :=
  let first_line := sub_sector.firstline
  let last_line := first_line + sub_sector.numlines - 1
  match renderLines V lv fuel (last_line - first_line + 1).toNat first_line s with
  | .error e => .error e
  | .ok s1 =>
    -- Check for solidsegs overflow - extremely unsatisfactory!
    if s1.clip.newend > 32 then
      .error (.I_Error "R_RenderSubSector: solidsegs overflow (vanilla may crash here)\n")
    else .ok s1

/-- Function `R_SetPlanes()` of r_bsp.c; a plane is recorded as the argument triple
of its `R_FindPlane` call. -/
def R_SetPlanes (V : View) (lv : Level) (s : RenderState) : RenderState :=
  let fs := lv.sectors s.frontsector
  let s1 :=
    if fs.floorheight < V.viewz then
      { s with floorplane := some (fs.floorheight, fs.floorpic, fs.lightlevel) }
    else { s with floorplane := none }
  if fs.ceilingheight > V.viewz || fs.ceilingpic == V.sky_flat then
    { s1 with ceilingplane := some (fs.ceilingheight, fs.ceilingpic, fs.lightlevel) }
  else { s1 with ceilingplane := none }

/-- Function `R_RenderSubSector(num)` of r_bsp.c. -/
def R_RenderSubSector (V : View) (lv : Level) (fuel : Nat) (s : RenderState) (num : Int) :
    Except Halt RenderState :=
  if num ≥ lv.numsubsectors then
    .error (.I_Error "R_RenderSubSector: ss %i with numss = %i")
  else
    match readAt lv.subsectors num with
    | .error e => .error e
    | .ok subsector =>
      let s1 := { s with frontsector := subsector.sector, visited := s.visited ++ [num] }
      let s2 := R_SetPlanes V lv s1
      let s3 := { s2 with sprites := s2.sprites ++ [s2.frontsector] }
      R_RenderSubSectorLines V lv fuel s3 subsector

/-- Modelled from the spec: the `BOXTOP`, `BOXBOTTOM`, `BOXLEFT`, `BOXRIGHT`
indices of m_bbox.h, in that order. -/
def BOXTOP : Nat := 0

/-- Modelled from the spec: see `BOXTOP`. -/
def BOXBOTTOM : Nat := 1

/-- Modelled from the spec: see `BOXTOP`. -/
def BOXLEFT : Nat := 2

/-- Modelled from the spec: see `BOXTOP`. -/
def BOXRIGHT : Nat := 3

/-- The `checkcoord[9][4]` table of r_bsp.c. -/
def checkcoord : Nat → Nat → Nat
  | 0, j => [BOXRIGHT, BOXTOP, BOXLEFT, BOXBOTTOM].getD j 0
  | 1, j => [BOXRIGHT, BOXTOP, BOXLEFT, BOXTOP].getD j 0
  | 2, j => [BOXRIGHT, BOXBOTTOM, BOXLEFT, BOXTOP].getD j 0
  | 3, j => [BOXLEFT, BOXTOP, BOXLEFT, BOXBOTTOM].getD j 0
  | 4, j => [BOXTOP, BOXTOP, BOXTOP, BOXTOP].getD j 0
  | 5, j => [BOXRIGHT, BOXBOTTOM, BOXRIGHT, BOXTOP].getD j 0
  | 6, j => [BOXLEFT, BOXTOP, BOXRIGHT, BOXBOTTOM].getD j 0
  | 7, j => [BOXLEFT, BOXBOTTOM, BOXRIGHT, BOXBOTTOM].getD j 0
  | 8, j => [BOXLEFT, BOXBOTTOM, BOXRIGHT, BOXTOP].getD j 0
  | _, _ => 0

/-- Function `R_FindBoxCorners(bspcoord, &boxx, &boxy)`: returns `(boxx, boxy)`. -/
def R_FindBoxCorners (V : View) (bspcoord : Nat → Int) : Nat × Nat :=
  let boxx := if V.viewx ≤ bspcoord BOXLEFT then 0
    else if V.viewx < bspcoord BOXRIGHT then 1 else 2
  let boxy := if V.viewy ≥ bspcoord BOXTOP then 0
    else if V.viewy > bspcoord BOXBOTTOM then 1 else 2
  (boxx, boxy)

/-- The loop `while (start->last < sx2) start++;` of `R_CheckBBox`. -/
def bboxScanStart (a : Nat → cliprange_t) (sx2 : Int) : Nat → Nat → Option Nat
  | 0, _ => none
  | fuel + 1, start =>
    if (a start).last < sx2 then bboxScanStart a sx2 fuel (start + 1)
    else some start

/-- Function `R_CheckBBox(bspcoord)` of r_bsp.c. -/
def R_CheckBBox (V : View) (fuel : Nat) (s : RenderState) (bspcoord : Nat → Int) :
    Except Halt Bool :=
  let (boxx, boxy) := R_FindBoxCorners V bspcoord
  let boxpos := boxx + boxy * 3
  if boxpos = 4 then .ok true
  else
    let x1 := bspcoord (checkcoord boxpos 0)
    let y1 := bspcoord (checkcoord boxpos 1)
    let x2 := bspcoord (checkcoord boxpos 2)
    let y2 := bspcoord (checkcoord boxpos 3)
    let angle1 := ang (V.R_PointToAngle x1 y1 - V.viewangle)
    let angle2 := ang (V.R_PointToAngle x2 y2 - V.viewangle)
    let span := ang (angle1 - angle2)
    -- Sitting on a line.
    if span ≥ ANG180 then .ok true
    else
      match clipToViewEdges V.clipangle span angle1 angle2 with
      | none => .ok false
      | some (a1, a2) =>
        let sx1 := angleToColumn V a1
        let sx2 := angleToColumn V a2
        -- Does not cross a pixel.
        if sx1 = sx2 then .ok false
        else
          let sx2 := sx2 - 1
          match bboxScanStart s.clip.solidsegs sx2 fuel 0 with
          | none => .error .stuck
          | some start =>
            .ok (decide (sx1 < (s.clip.solidsegs start).first
              ∨ sx2 > (s.clip.solidsegs start).last))

/-- Function `R_RenderBSPNode(bsp_node)` of r_bsp.c. -/
def R_RenderBSPNode (V : View) (lv : Level) :
    Nat → RenderState → Int → Except Halt RenderState
  | 0, _, _ => .error .stuck
  | fuel + 1, s, bsp_node =>
    if cand bsp_node lv.NF_SUBSECTOR ≠ 0 then
      -- Node is a leaf and points to a subsector.
      let sub_sector := if bsp_node = -1 then 0
        else cand bsp_node (cnot lv.NF_SUBSECTOR)
      R_RenderSubSector V lv fuel s sub_sector
    else
      match readAt lv.nodes bsp_node with
      | .error e => .error e
      | .ok node =>
        -- Decide which side the view point is on.
        let front_side := V.R_PointOnSide V.viewx V.viewy node
        let back_side := front_side ^^^ 1
        -- Recursively divide front space.
        match R_RenderBSPNode V lv fuel s (node.children front_side) with
        | .error e => .error e
        | .ok s1 =>
          -- Possibly divide back space.
          match R_CheckBBox V fuel s1 (node.bbox back_side) with
          | .error e => .error e
          | .ok true => R_RenderBSPNode V lv fuel s1 (node.children back_side)
          | .ok false => .ok s1

/-- Function `R_RenderSectors()` of r_bsp.c. -/
def R_RenderSectors (V : View) (lv : Level) (fuel : Nat) (s : RenderState) :
    Except Halt RenderState :=
  R_RenderBSPNode V lv fuel s (lv.numnodes - 1)

/-! ## p_sight.c -/

/-- The `divline_t` struct of p_local.h. -/
structure divline_t where
  x : Int
  y : Int
  dx : Int
  dy : Int
deriving DecidableEq, Repr

/-- The fields of `mobj_t` read by p_sight.c; `subsector` is the pointee of
`t->subsector`. -/
structure mobj_t where
  x : Int
  y : Int
  z : Int
  height : Int
  subsector : subsector_t
deriving DecidableEq, Repr

/-- The fields of `intercept_t` read by `PTR_SightTraverse`: `frac` and the
index of `d.line`. -/
structure intercept_t where
  frac : Int
  line : Nat
deriving DecidableEq, Repr

/-- One entry of the log of `P_BlocksStrace` evaluations made by
`P_CrossSubsector`: the index of the seg in `segs`, the verdict, and the
values of `topslope` and `bottomslope` when the verdict was returned. -/
structure ExamRecord where
  seg : Int
  blocked : Bool
  topslope : Int
  bottomslope : Int
deriving DecidableEq, Repr

/-- The globals of p_sight.c and the globals it shares with the rest of the
game (`validcount`, the `validcount` mark of every linedef), together with the
log `examined` of the segs handed to `P_BlocksStrace` by `P_CrossSubsector`. -/
structure SightState where
  validcount : Int
  sightzstart : Int
  topslope : Int
  bottomslope : Int
  strace : divline_t
  t2x : Int
  t2y : Int
  linevalid : Nat → Int
  examined : List ExamRecord

/-- What p_sight.c takes from other translation units: the fixed-point
helpers of m_fixed.c, `FRACBITS`, the `ML_TWOSIDED` flag of doomdata.h,
`P_LineOpening` (returning `opentop`, `openbottom`), `P_PathTraverse` with its
callback, and the outcome of the test `gameversion <= exe_doom_1_2`. -/
structure SightEnv where
  FixedMul : Int → Int → Int
  FixedDiv : Int → Int → Int
  FRACBITS : Nat
  ML_TWOSIDED : Int
  P_LineOpening : Nat → Int × Int
  P_PathTraverse : SightState → Int → Int → Int → Int →
    (SightState → intercept_t → Except Halt (Bool × SightState)) →
    Except Halt (Bool × SightState)
  legacy : Bool

/-- Function `PTR_SightTraverse(in)` of p_sight.c (Doom 1.2 sight calculation). -/
def PTR_SightTraverse (E : SightEnv) (lv : Level) (s : SightState) (i : intercept_t) :
    Except Halt (Bool × SightState) :=
  let li := lv.lines i.line
  let (opentop, openbottom) := E.P_LineOpening i.line
  -- quick test for totally closed doors
  if openbottom ≥ opentop then .ok (false, s)
  else
    match li.backsector with
    | none => .error .badAccess
    | some b =>
      let front := lv.sectors li.frontsector
      let back := lv.sectors b
      let s1 :=
        if front.floorheight ≠ back.floorheight then
          let slope := E.FixedDiv (fx (openbottom - s.sightzstart)) i.frac
          if slope > s.bottomslope then { s with bottomslope := slope } else s
        else s
      let s2 :=
        if front.ceilingheight ≠ back.ceilingheight then
          let slope := E.FixedDiv (fx (opentop - s1.sightzstart)) i.frac
          if slope < s1.topslope then { s1 with topslope := slope } else s1
        else s1
      if s2.topslope ≤ s2.bottomslope then .ok (false, s2) else .ok (true, s2)

/-- Function `P_SightUnobstructedOld(t1, t2)` of p_sight.c. -/
def P_SightUnobstructedOld (E : SightEnv) (lv : Level) (s : SightState) (t1 t2 : mobj_t) :
    Except Halt (Bool × SightState) :=
  let s := { s with validcount := fx (s.validcount + 1) }
  let sightzstart := fx (fx (t1.z + t1.height) - (t1.height >>> 2))
  let bottomslope := fx (t2.z - sightzstart)
  let s := { s with sightzstart := sightzstart, bottomslope := bottomslope,
                    topslope := fx (bottomslope + t2.height) }
  E.P_PathTraverse s t1.x t1.y t2.x t2.y (PTR_SightTraverse E lv)

/-- Function `P_DivlineSide(x, y, node)` of p_sight.c: 0 (front), 1 (back) or 2 (on). -/
def P_DivlineSide (E : SightEnv) (x y : Int) (node : divline_t) : Int :=
  if node.dx = 0 then
    if x = node.x then 2
    else if x ≤ node.x then (if node.dy > 0 then 1 else 0)
    else (if node.dy < 0 then 1 else 0)
  else if node.dy = 0 then
    -- Vanilla Bug: compares the x coordinate with the y coordinate.
    if x = node.y then 2
    else if y ≤ node.y then (if node.dx < 0 then 1 else 0)
    else (if node.dx > 0 then 1 else 0)
  else
    let dx := fx (x - node.x)
    let dy := fx (y - node.y)
    let left := fx ((node.dy >>> E.FRACBITS) * (dx >>> E.FRACBITS))
    let right := fx ((dy >>> E.FRACBITS) * (node.dx >>> E.FRACBITS))
    if right < left then 0
    else if left = right then 2
    else 1

/-- Function `P_InterceptVector2(v2, v1)` of p_sight.c. -/
def P_InterceptVector2 (E : SightEnv) (v2 v1 : divline_t) : Int :=
  let den := fx (E.FixedMul (v1.dy >>> 8) v2.dx - E.FixedMul (v1.dx >>> 8) v2.dy)
  if den = 0 then 0
  else
    let num := fx (E.FixedMul (fx (v1.x - v2.x) >>> 8) v1.dy
      + E.FixedMul (fx (v2.y - v1.y) >>> 8) v1.dx)
    E.FixedDiv num den

/-- Function `P_IsTwoSided(seg)`. -/
def P_IsTwoSided (E : SightEnv) (lv : Level) (seg : seg_t) : Bool :=
  cand (lv.lines seg.linedef).flags E.ML_TWOSIDED != 0

/-- The local `divline_t divl` built from the seg's linedef in
`P_CrossesStrace` and `P_CheckVerticalObstruction`. -/
def lineDivline (line : line_t) : divline_t :=
  { x := line.v1.x, y := line.v1.y,
    dx := fx (line.v2.x - line.v1.x), dy := fx (line.v2.y - line.v1.y) }

/-- Function `P_CrossesStrace(seg)` of p_sight.c. -/
def P_CrossesStrace (E : SightEnv) (lv : Level) (s : SightState) (seg : seg_t) : Bool :=
  let line := lv.lines seg.linedef
  let divl := lineDivline line
  let s1 := P_DivlineSide E line.v1.x line.v1.y s.strace
  let s2 := P_DivlineSide E line.v2.x line.v2.y s.strace
  if s1 = s2 then false
  else
    let s1 := P_DivlineSide E s.strace.x s.strace.y divl
    let s2 := P_DivlineSide E s.t2x s.t2y divl
    s1 != s2

/-- Function `P_CalculateOpeningSpace(seg, &top, &bottom)`: returns `(top, bottom)` for
the given front sector and the non-NULL back sector. -/
def P_CalculateOpeningSpace (front back : sector_t) : Int × Int :=
  let top := if front.ceilingheight < back.ceilingheight then front.ceilingheight
    else back.ceilingheight
  let bottom := if front.floorheight > back.floorheight then front.floorheight
    else back.floorheight
  (top, bottom)

/-- Function `P_CheckVerticalObstruction(seg)` for the seg's front sector and its
non-NULL back sector: the verdict and the narrowed cone. -/
def P_CheckVerticalObstruction (E : SightEnv) (lv : Level) (s : SightState) (seg : seg_t)
    (front back : sector_t) : Bool × SightState :=
  let divl := lineDivline (lv.lines seg.linedef)
  let frac := P_InterceptVector2 E s.strace divl
  let (open_top, open_bottom) := P_CalculateOpeningSpace front back
  let s1 :=
    if front.floorheight ≠ back.floorheight then
      let slope := E.FixedDiv (fx (open_bottom - s.sightzstart)) frac
      if slope > s.bottomslope then { s with bottomslope := slope } else s
    else s
  let s2 :=
    if front.ceilingheight ≠ back.ceilingheight then
      let slope := E.FixedDiv (fx (open_top - s1.sightzstart)) frac
      if slope < s1.topslope then { s1 with topslope := slope } else s1
    else s1
  (decide (s2.topslope ≤ s2.bottomslope), s2)

/-- Function `P_IsClosedDoor(seg)`. -/
def P_IsClosedDoor (front back : sector_t) : Bool :=
  let (open_top, open_bottom) := P_CalculateOpeningSpace front back
  decide (open_bottom ≥ open_top)

/-- Function `P_HasSightBlockingWall(seg)`. -/
def P_HasSightBlockingWall (front back : sector_t) : Bool :=
  front.floorheight != back.floorheight || front.ceilingheight != back.ceilingheight

/-- Function `P_TwoSidedBlocksStrace(seg)`; reading through a NULL `seg->backsector`
is a bad access. -/
def P_TwoSidedBlocksStrace (E : SightEnv) (lv : Level) (s : SightState) (seg : seg_t) :
    Except Halt (Bool × SightState) :=
  match seg.backsector with
  | none => .error .badAccess
  | some b =>
    let front := lv.sectors seg.frontsector
    let back := lv.sectors b
    if !P_HasSightBlockingWall front back then
      -- no wall to block sight with
      .ok (false, s)
    else if P_IsClosedDoor front back then .ok (true, s)
    else .ok (P_CheckVerticalObstruction E lv s seg front back)

/-- Function `P_BlocksStrace(seg)` of p_sight.c. -/
def P_BlocksStrace (E : SightEnv) (lv : Level) (s : SightState) (seg : seg_t) :
    Except Halt (Bool × SightState) :=
  if !P_CrossesStrace E lv s seg then
    -- Does not cross strace, so segment can't block it.
    .ok (false, s)
  else if (lv.lines seg.linedef).backsector = none then
    -- Backsector may be NULL if this is an "impassible glass" hack line.
    .ok (true, s)
  else if P_IsTwoSided E lv seg then P_TwoSidedBlocksStrace E lv s seg
  -- All solid walls block strace.
  else .ok (true, s)

/-- The `for` loop of `P_CrossSubsector`: `n` segs are left, the next one is
`segs[idx]` (`idx = sub->firstline + i`). -/
def crossSegs (E : SightEnv) (lv : Level) :
    Nat → Int → SightState → Except Halt (Bool × SightState)
  | 0, _, s => .ok (true, s)
  | n + 1, idx, s =>
    match readAt lv.segs idx with
    | .error e => .error e
    | .ok seg =>
      if s.linevalid seg.linedef = s.validcount then
        -- already checked other side
        crossSegs E lv n (idx + 1) s
      else
        let s1 := { s with linevalid := fun l =>
          if l = seg.linedef then s.validcount else s.linevalid l }
        match P_BlocksStrace E lv s1 seg with
        | .error e => .error e
        | .ok (true, s2) =>
          .ok (false, { s2 with examined := s2.examined ++
            [{ seg := idx, blocked := true, topslope := s2.topslope,
               bottomslope := s2.bottomslope }] })
        | .ok (false, s2) =>
          crossSegs E lv n (idx + 1) { s2 with examined := s2.examined ++
            [{ seg := idx, blocked := false, topslope := s2.topslope,
               bottomslope := s2.bottomslope }] }

/-- Function `P_CrossSubsector(num)` of p_sight.c. -/
def P_CrossSubsector (E : SightEnv) (lv : Level) (s : SightState) (num : Int) :
    Except Halt (Bool × SightState) :=
  if num ≥ lv.numsubsectors then
    .error (.I_Error "P_CrossSubsector: ss %i with numss = %i")
  else
    match readAt lv.subsectors num with
    | .error e => .error e
    | .ok sub => crossSegs E lv sub.numlines.toNat sub.firstline s

/-- Function `P_CrossBSPNode(bspnum)` of p_sight.c. -/
def P_CrossBSPNode (E : SightEnv) (lv : Level) :
    Nat → SightState → Int → Except Halt (Bool × SightState)
  | 0, _, _ => .error .stuck
  | fuel + 1, s, bspnum =>
    if cand bspnum lv.NF_SUBSECTOR ≠ 0 then
      if bspnum = -1 then P_CrossSubsector E lv s 0
      else P_CrossSubsector E lv s (cand bspnum (cnot lv.NF_SUBSECTOR))
    else
      match readAt lv.nodes bspnum with
      | .error e => .error e
      | .ok bsp =>
        let part : divline_t := { x := bsp.x, y := bsp.y, dx := bsp.dx, dy := bsp.dy }
        -- decide which side the start point is on
        let side0 := P_DivlineSide E s.strace.x s.strace.y part
        -- an "on" should cross both sides
        let side := if side0 = 2 then 0 else side0
        -- cross the starting side
        match P_CrossBSPNode E lv fuel s (bsp.children side.toNat) with
        | .error e => .error e
        | .ok (false, s1) => .ok (false, s1)
        | .ok (true, s1) =>
          -- the partition plane is crossed here
          if side = P_DivlineSide E s1.t2x s1.t2y part then
            -- the line doesn't touch the other side
            .ok (true, s1)
          else
            -- cross the ending side
            P_CrossBSPNode E lv fuel s1 (bsp.children (side.toNat ^^^ 1))

/-- Function `P_SightUnobstructed(t1, t2)` of p_sight.c. -/
def P_SightUnobstructed (E : SightEnv) (lv : Level) (fuel : Nat) (s : SightState)
    (t1 t2 : mobj_t) : Except Halt (Bool × SightState) :=
  let sightzstart := fx (fx (t1.z + t1.height) - (t1.height >>> 2))
  let bottomslope := fx (t2.z - sightzstart)
  let s1 : SightState :=
    { s with
      validcount := fx (s.validcount + 1)
      sightzstart := sightzstart
      bottomslope := bottomslope
      topslope := fx (bottomslope + t2.height)
      strace := { x := t1.x, y := t1.y, dx := fx (t2.x - t1.x), dy := fx (t2.y - t1.y) }
      t2x := t2.x
      t2y := t2.y }
  -- the head node is the last node output
  P_CrossBSPNode E lv fuel s1 (lv.numnodes - 1)

/-- Function `P_CheckRejectTable(t1, t2)` of p_sight.c. The sector indices
`s1`, `s2` are pointer differences into `sectors`; `pnum` is computed without
wrap-around (it stays far below `2^31` for the sector counts a level file can
hold). -/
def P_CheckRejectTable (lv : Level) (t1 t2 : mobj_t) : Bool :=
  let s1 : Int := t1.subsector.sector
  let s2 : Int := t2.subsector.sector
  let pnum := s1 * lv.numsectors + s2
  let bytenum := pnum >>> 3
  let bitnum := 1 <<< (pnum % 8).toNat
  lv.rejectmatrix bytenum &&& bitnum != 0

/-- Function `P_CheckSight(t1, t2)` of p_sight.c. -/
def P_CheckSight (E : SightEnv) (lv : Level) (fuel : Nat) (s : SightState) (t1 t2 : mobj_t) :
    Except Halt (Bool × SightState) :=
  if P_CheckRejectTable lv t1 t2 then
    -- can't possibly be connected
    .ok (false, s)
  else if E.legacy then P_SightUnobstructedOld E lv s t1 t2
  else P_SightUnobstructed E lv fuel s t1 t2

/-- The verdict of a sight query, when it returned one. -/
def verdict : Except Halt (Bool × SightState) → Option Bool
  | .ok (b, _) => some b
  | .error _ => none

/-- The log entries a sight query added, when it returned. -/
def examinedBy : Except Halt (Bool × SightState) → Option (List ExamRecord)
  | .ok (_, s) => some s.examined
  | .error _ => none

/-! ## Concrete data used to instantiate the theorems -/

/-- Function `FixedMul` of m_fixed.c on 16.16 numbers, for the examples. -/
def exFixedMul (a b : Int) : Int := fx ((a * b) >>> 16)

/-- Function `FixedDiv` of m_fixed.c on 16.16 numbers, for the examples. -/
def exFixedDiv (a b : Int) : Int :=
  if (a.natAbs >>> 14 : Nat) ≥ b.natAbs then
    (if decide (a < 0) != decide (b < 0) then -2147483648 else 2147483647)
  else fx (Int.tdiv (a * 65536) b)

/-- Example environment: current (non-legacy) game version, the usual
constants `FRACBITS = 16`, `ML_TWOSIDED = 4`. -/
def exEnv : SightEnv :=
  { FixedMul := exFixedMul
    FixedDiv := exFixedDiv
    FRACBITS := 16
    ML_TWOSIDED := 4
    P_LineOpening := fun _ => (0, 0)
    P_PathTraverse := fun s _ _ _ _ _ => .ok (true, s)
    legacy := false }

/-- Example sectors: 0 and 1 are rooms with floor 0 and ceiling 128 that
differ in their floor flat only, 2 is a raised room (floor 32, ceiling 96),
all others have no height (floor = ceiling = 0), like a shut door. Heights
are 16.16 fixed point. -/
def exSectors : Nat → sector_t
  | 0 => { floorheight := 0, ceilingheight := 8388608, floorpic := 1, ceilingpic := 2,
           lightlevel := 160 }
  | 1 => { floorheight := 0, ceilingheight := 8388608, floorpic := 7, ceilingpic := 2,
           lightlevel := 160 }
  | 2 => { floorheight := 2097152, ceilingheight := 6291456, floorpic := 1, ceilingpic := 2,
           lightlevel := 160 }
  | 3 => { floorheight := 0, ceilingheight := 0, floorpic := 1, ceilingpic := 2,
           lightlevel := 160 }
  | _ => { floorheight := 0, ceilingheight := 0, floorpic := 1, ceilingpic := 2,
           lightlevel := 160 }

/-- Example lines, all on the segment from (0, -64) to (0, 64): line 0 is
one-sided, line 1 two-sided between sectors 0 and 1 (same heights), line 2
two-sided between the two zero-height sectors 3 and 4, line 3 two-sided
between room 0 and the raised room 2, every other line two-sided between
room 0 and the zero-height sector 3. -/
def exLines : Nat → line_t
  | 0 => { v1 := ⟨0, -4194304⟩, v2 := ⟨0, 4194304⟩, flags := 1, frontsector := 0,
           backsector := none }
  | 1 => { v1 := ⟨0, -4194304⟩, v2 := ⟨0, 4194304⟩, flags := 4, frontsector := 0,
           backsector := some 1 }
  | 2 => { v1 := ⟨0, -4194304⟩, v2 := ⟨0, 4194304⟩, flags := 4, frontsector := 3,
           backsector := some 4 }
  | 3 => { v1 := ⟨0, -4194304⟩, v2 := ⟨0, 4194304⟩, flags := 4, frontsector := 0,
           backsector := some 2 }
  | _ => { v1 := ⟨0, -4194304⟩, v2 := ⟨0, 4194304⟩, flags := 4, frontsector := 0,
           backsector := some 3 }

/-- Example seg number `n`, a seg of example line `n`. -/
def exSeg (n : Nat) : seg_t :=
  { v1 := (exLines n).v1, v2 := (exLines n).v2, sidedef := ⟨0⟩, linedef := n,
    frontsector := (exLines n).frontsector, backsector := (exLines n).backsector }

/-- Example level without nodes: its single subsector holds the one seg
`exSeg n`. The reject table is all zero. -/
def exLevel (n : Nat) : Level :=
  { sectors := exSectors
    numsectors := 6
    lines := exLines
    segs := [exSeg n]
    subsectors := [{ sector := 0, numlines := 1, firstline := 0 }]
    nodes := []
    rejectmatrix := fun _ => 0
    NF_SUBSECTOR := 32768 }

/-- Example node: a horizontal partition line through the origin whose two
children are the subsectors 0 and 1. -/
def exNode : node_t :=
  { x := 0, y := 0, dx := 65536, dy := 0,
    bbox := fun _ _ => 0,
    children := fun side => if side = 0 then 32768 else 32769 }

/-- Example level with the one node `exNode`. -/
def exLevelNode : Level :=
  { sectors := exSectors
    numsectors := 6
    lines := exLines
    segs := [exSeg 0, exSeg 1]
    subsectors := [{ sector := 0, numlines := 1, firstline := 0 },
                   { sector := 1, numlines := 1, firstline := 1 }]
    nodes := [exNode]
    rejectmatrix := fun _ => 0
    NF_SUBSECTOR := 32768 }

/-- Example observer at (-64, -32), standing on the floor, 56 units tall. -/
def exLooker : mobj_t :=
  { x := -4194304, y := -2097152, z := 0, height := 3670016,
    subsector := { sector := 0, numlines := 1, firstline := 0 } }

/-- Example target at (64, 32), standing on the floor, of the given height. -/
def exTarget (height : Int) : mobj_t :=
  { x := 4194304, y := 2097152, z := 0, height := height,
    subsector := { sector := 0, numlines := 1, firstline := 0 } }

/-- Example scratch state before a query. -/
def exSight : SightState :=
  { validcount := 0, sightzstart := 0, topslope := 0, bottomslope := 0,
    strace := ⟨0, 0, 0, 0⟩, t2x := 0, t2y := 0, linevalid := fun _ => 0, examined := [] }

/-- The scratch state as `P_SightUnobstructed(exLooker, exTarget height)` sets
it up before the BSP walk. -/
def exSightTraced (height : Int) : SightState :=
  { validcount := 1, sightzstart := 2752512, topslope := -2752512 + height,
    bottomslope := -2752512,
    strace := ⟨-4194304, -2097152, 8388608, 4194304⟩, t2x := 4194304, t2y := 2097152,
    linevalid := fun _ => 0, examined := [] }

/-- Apply `f` to the state a sight query returned. -/
def afterQuery {α : Type} (f : SightState → α) : Except Halt (Bool × SightState) → Option α
  | .ok (_, s) => some (f s)
  | .error _ => none

/-- The log entry `r` was written for an evaluation of `P_BlocksStrace` on
`segs[r.seg]` under the trace of state `s`. -/
def RecordOK (E : SightEnv) (lv : Level) (s : SightState) (r : ExamRecord) : Prop :=
  ∃ seg sa sb, readAt lv.segs r.seg = .ok seg ∧ sa.strace = s.strace ∧ sa.t2x = s.t2x ∧
    sa.t2y = s.t2y ∧ P_BlocksStrace E lv sa seg = .ok (r.blocked, sb) ∧
    sb.topslope = r.topslope ∧ sb.bottomslope = r.bottomslope

/-- A stretch of a sight query that started in `s` and returned `res` in
state `s'`: the trace is untouched, and the log grew by entries that are all
non-blocking, except that a `false` result ends with a blocking entry. -/
def SightRun (E : SightEnv) (lv : Level) (s : SightState) (res : Bool) (s' : SightState) :
    Prop :=
  s'.strace = s.strace ∧ s'.t2x = s.t2x ∧ s'.t2y = s.t2y ∧
  ∃ new, s'.examined = s.examined ++ new ∧ (∀ r ∈ new, RecordOK E lv s r) ∧
    (res = true → ∀ r ∈ new, r.blocked = false) ∧
    (res = false → ∃ init r, new = init ++ [r] ∧ r.blocked = true ∧
      ∀ q ∈ init, q.blocked = false)

/-- Example level whose reject table has every bit set. -/
def exLevelRejectAll : Level := { exLevel 0 with rejectmatrix := fun _ => 255 }

/-- Example view: 16 columns, a 90 degree field of view looking along
`ANG90`; points with negative x are seen 22.5 degrees to the left of the view
direction, all others 22.5 degrees to the right. -/
def exView : View :=
  { viewx := 0, viewy := 0, viewz := 2686976
    viewangle := 0x40000000
    clipangle := 0x20000000
    viewwidth := 16
    viewangletox := fun i => if i ≤ 3072 then ((3072 - i : Nat) : Int) / 128 else 0
    sky_flat := 99
    R_PointToAngle := fun x _ => if x < 0 then 0x50000000 else 0x30000000
    R_PointOnSide := fun _ _ _ => 0 }

/-- Example seg in front of the example view, from (-1, 1) to (1, 1), with the
given front and back sectors. -/
def exRenderSeg (front : Nat) (back : Option Nat) : seg_t :=
  { v1 := ⟨-65536, 65536⟩, v2 := ⟨65536, 65536⟩, sidedef := ⟨0⟩, linedef := 0,
    frontsector := front, backsector := back }

/-- Example render state at the start of a frame, inside a subsector of the
given sector. -/
def exRender (front : Nat) : RenderState :=
  { clip := R_ClearClipSegs 16
      { solidsegs := fun _ => { first := 0, last := 0 }, newend := 0, rendered := [] }
    curline := none, frontsector := front, backsector := none, rw_angle1 := 0
    floorplane := none, ceilingplane := none, clipcalls := [], visited := [], sprites := [] }

/-- The clipping calls logged by a run of the renderer, when it returned. -/
def clipcallsOf : Except Halt RenderState → Option (List ClipCall)
  | .ok s => some s.clipcalls
  | .error _ => none

/-- The `R_RenderWallRange` calls logged by a run of the renderer, when it
returned. -/
def renderedOf : Except Halt RenderState → Option (List (Int × Int))
  | .ok s => some s.clip.rendered
  | .error _ => none

/-- The seg counts as solid for the renderer: it has no back sector, or the
back ceiling is at or below the front floor, or the back floor is at or above
the front ceiling, the front sector being the current `frontsector`. -/
def SolidClass (lv : Level) (s : RenderState) (line : seg_t) : Prop :=
  match line.backsector with
  | none => True
  | some b =>
    (lv.sectors b).ceilingheight ≤ (lv.sectors s.frontsector).floorheight
      ∨ (lv.sectors b).floorheight ≥ (lv.sectors s.frontsector).ceilingheight

instance (lv : Level) (s : RenderState) (line : seg_t) : Decidable (SolidClass lv s line) := by
  unfold SolidClass
  cases line.backsector <;> infer_instance

/-- Modelled from the spec: `SCREENWIDTH` of the video header, which is not
among the sources; claim C27 gives 320. -/
def SCREENWIDTH : Nat := 320

/-- The macro `MAXSEGS` of r_bsp.c, `(SCREENWIDTH / 2 + 1)`: the number of
cells of `solidsegs`. -/
def MAXSEGS : Nat := SCREENWIDTH / 2 + 1

/-- The reason a run stopped, when it did not return normally. -/
def haltOf {α : Type} : Except Halt α → Option Halt
  | .ok _ => none
  | .error e => some e

/-- The value of `newend` a run of the renderer left, when it returned. -/
def newendOf : Except Halt RenderState → Option Nat
  | .ok s => some s.clip.newend
  | .error _ => none

/-- The state a run of the renderer left when it returned, the given state when
it stopped with an error. -/
def stateOr (d : RenderState) : Except Halt RenderState → RenderState
  | .ok s => s
  | .error _ => d

/-- Example environment with the legacy (Doom 1.2) sight algorithm selected;
its `P_PathTraverse` finds nothing in the way. -/
def exEnvLegacy : SightEnv := { exEnv with legacy := true }

/-- Example level like `exLevel 1` (one two-sided line between two rooms of
equal heights) whose reject table has the bit of the ordered sector pair
(0, 1) set and every other bit clear. -/
def exLevelRejectOrdered : Level :=
  { exLevel 1 with rejectmatrix := fun i => if i = 0 then 2 else 0 }

/-- Example target like `exTarget`, standing in sector 1. -/
def exTargetIn1 : mobj_t :=
  { exTarget 3670016 with subsector := { sector := 1, numlines := 1, firstline := 0 } }

/-- Example view like `exView`, 320 columns wide. -/
def exViewWide : View :=
  { exView with
    viewwidth := 320
    viewangletox := fun i => if i ≤ 3072 then (((3072 - i) * 320 : Nat) : Int) / 2048 else 0 }

/-- Thirty solid ranges of one column each, at the columns 1, 3, ..., 59. -/
def exCrowdedCalls : List (Int × Int) :=
  (List.range 30).map (fun i => (((2 * i + 1 : Nat) : Int), ((2 * i + 1 : Nat) : Int)))

/-- The clip list of a 320-column frame after the thirty solid calls of
`exCrowdedCalls`: 32 ranges, `newend = 32`. -/
def exCrowded : ClipState :=
  (runSolid 40
    (R_ClearClipSegs 320
      { solidsegs := fun _ => { first := 0, last := 0 }, newend := 0, rendered := [] })
    exCrowdedCalls).getD
    { solidsegs := fun _ => { first := 0, last := 0 }, newend := 0, rendered := [] }

/-- Example render state holding the clip list `exCrowded`. -/
def exRenderCrowded : RenderState := { exRender 0 with clip := exCrowded }

/-- Example level whose single subsector holds the one-sided seg
`exRenderSeg 0 none`. -/
def exLevelRender : Level := { exLevel 0 with segs := [exRenderSeg 0 none] }

/-- The local `den` of `P_InterceptVector2(v2, v1)`. -/
def interceptDen (E : SightEnv) (v2 v1 : divline_t) : Int :=
  fx (E.FixedMul (v1.dy >>> 8) v2.dx - E.FixedMul (v1.dx >>> 8) v2.dy)

/-- Example observer 16 units tall, one fixed-point step left of the example
lines, at (-1/65536, 1). -/
def exNearLooker : mobj_t :=
  { x := -1, y := 65536, z := 0, height := 1048576,
    subsector := { sector := 0, numlines := 1, firstline := 0 } }

/-- Example target 16 units tall on the example lines, at (0, 1). -/
def exNearTarget : mobj_t :=
  { x := 0, y := 65536, z := 0, height := 1048576,
    subsector := { sector := 0, numlines := 1, firstline := 0 } }

/-- The scratch state as `P_SightUnobstructed(exNearLooker, exNearTarget)`
sets it up before the BSP walk. -/
def exSightNear : SightState :=
  { validcount := 1, sightzstart := 786432, topslope := 262144, bottomslope := -786432,
    strace := ⟨-1, 65536, 1, 0⟩, t2x := 0, t2y := 65536,
    linevalid := fun _ => 0, examined := [] }

/-- A diagonal line from (0, 0) to (1, 1), used for parallel traces. -/
def exDiagonal : line_t :=
  { v1 := ⟨0, 0⟩, v2 := ⟨65536, 65536⟩, flags := 4, frontsector := 0, backsector := some 1 }

/-- A sector with the given floor and ceiling heights. -/
def exRoom (floor ceiling : Int) : sector_t :=
  { floorheight := floor, ceilingheight := ceiling, floorpic := 1, ceilingpic := 2,
    lightlevel := 160 }

/-- A concrete list used to instantiate the theorems: a view 10 columns wide
with the solid ranges `[3, 4]` and `[7, 7]` between the two sentinels. -/
def exampleTwoPosts : ClipState :=
  { solidsegs := fun i =>
      if i = 0 then { first := -0x7fffffff, last := -1 }
      else if i = 1 then { first := 3, last := 4 }
      else if i = 2 then { first := 7, last := 7 }
      else { first := 10, last := 0x7fffffff }
    newend := 4
    rendered := [] }

/-- The screen columns `sx1`, `sx2` (before `sx2--`) that
`R_CheckBBox(bspcoord)` looks up in `viewangletox`: the statements of
`R_CheckBBox` up to `int sx2 = viewangletox[angle2];`, with `none` for the
three early returns (viewpoint inside the box, span of 180 degrees or more,
span clipped away at a view edge). -/
def bboxColumns (V : View) (bspcoord : Nat → Int) : Option (Int × Int) :=
  let (boxx, boxy) := R_FindBoxCorners V bspcoord
  let boxpos := boxx + boxy * 3
  if boxpos = 4 then none
  else
    let x1 := bspcoord (checkcoord boxpos 0)
    let y1 := bspcoord (checkcoord boxpos 1)
    let x2 := bspcoord (checkcoord boxpos 2)
    let y2 := bspcoord (checkcoord boxpos 3)
    let angle1 := ang (V.R_PointToAngle x1 y1 - V.viewangle)
    let angle2 := ang (V.R_PointToAngle x2 y2 - V.viewangle)
    let span := ang (angle1 - angle2)
    if span ≥ ANG180 then none
    else
      match clipToViewEdges V.clipangle span angle1 angle2 with
      | none => none
      | some (a1, a2) => some (angleToColumn V a1, angleToColumn V a2)

/-- Example bounding box in front of the example view: x from -1 to 1, y from
1 to 2 (indexed by `BOXTOP`, `BOXBOTTOM`, `BOXLEFT`, `BOXRIGHT`). -/
def exBox : Nat → Int := fun i => [131072, 65536, -65536, 65536].getD i 0

/-- Example render state whose clip list holds the solid range `[3, 12]` of a
view 16 columns wide. -/
def exRenderWalled : RenderState :=
  { exRender 0 with
    clip :=
      { solidsegs := fun i =>
          if i = 0 then { first := -0x7fffffff, last := -1 }
          else if i = 1 then { first := 3, last := 12 }
          else { first := 16, last := 0x7fffffff }
        newend := 3
        rendered := [] } }

/-- The value returned by `R_CheckBBox`, when it returned. -/
def verdictOf : Except Halt Bool → Option Bool
  | .ok b => some b
  | .error _ => none

/-- Every table read `P_CrossSubsector(num)` makes is inside its table: `num`
is a subsector index, and the segs `firstline .. firstline + numlines - 1` of
that subsector are entries of `segs`. -/
def leafOK (lv : Level) (num : Int) : Bool :=
  decide (0 ≤ num ∧ num < lv.numsubsectors) &&
  match readAt lv.subsectors num with
  | .error _ => false
  | .ok sub =>
    decide (sub.numlines.toNat = 0 ∨
      (0 ≤ sub.firstline ∧ sub.firstline + sub.numlines.toNat ≤ lv.segs.length))

/-- The BSP tree below `bspnum` is well formed and at most `depth` levels
deep: following `P_CrossBSPNode`, a number with the `NF_SUBSECTOR` bit is a
leaf whose subsector index passes `leafOK`, any other number is an index into
`nodes` whose two children are well formed again. -/
def treeOK (lv : Level) : Nat → Int → Bool
  | 0, _ => false
  | depth + 1, bspnum =>
    if cand bspnum lv.NF_SUBSECTOR ≠ 0 then
      leafOK lv (if bspnum = -1 then 0 else cand bspnum (cnot lv.NF_SUBSECTOR))
    else
      match readAt lv.nodes bspnum with
      | .error _ => false
      | .ok bsp => treeOK lv depth (bsp.children 0) && treeOK lv depth (bsp.children 1)

/-- Example target at (-64, 32), on the same side of the example lines as
`exLooker`. -/
def exTargetLeft : mobj_t :=
  { x := -4194304, y := 2097152, z := 0, height := 3670016,
    subsector := { sector := 0, numlines := 1, firstline := 0 } }

/-- Two scratch states agree on everything a sight query reads after its
set-up: the sight cone, the trace and its end point are equal, and a linedef
carries the current `validcount` mark in both states or in neither. -/
def SightEquiv (a b : SightState) : Prop :=
  a.sightzstart = b.sightzstart ∧ a.topslope = b.topslope ∧ a.bottomslope = b.bottomslope ∧
  a.strace = b.strace ∧ a.t2x = b.t2x ∧ a.t2y = b.t2y ∧
  ∀ l, a.linevalid l = a.validcount ↔ b.linevalid l = b.validcount

/-- Two outcomes of a stretch of a sight query agree: the same halt, or the
same verdict with scratch states that agree. -/
def ResEquiv (rA rB : Except Halt (Bool × SightState)) : Prop :=
  (∃ e, rA = .error e ∧ rB = .error e) ∨
  (∃ b cA cB, rA = .ok (b, cA) ∧ rB = .ok (b, cB) ∧ SightEquiv cA cB)

/-- Example scratch state as an earlier query may have left it: every linedef
marked with the current `validcount` 7, a stale cone and trace. -/
def exSightStale : SightState :=
  { validcount := 7, sightzstart := 99, topslope := -5, bottomslope := 12345,
    strace := ⟨1, 2, 3, 4⟩, t2x := 8, t2y := 9, linevalid := fun _ => 7,
    examined := [⟨0, true, 0, 0⟩] }

/-- The partition line of a node as the `divline_t` that `P_CrossBSPNode`
reads through the cast `(divline_t *) bsp`. -/
def nodeDivline (bsp : node_t) : divline_t :=
  { x := bsp.x, y := bsp.y, dx := bsp.dx, dy := bsp.dy }

/-- The local `side` of `P_CrossBSPNode` after
`if (side == 2) side = 0;`: the side of the trace start. -/
def startSide (E : SightEnv) (s : SightState) (bsp : node_t) : Int :=
  let side0 := P_DivlineSide E s.strace.x s.strace.y (nodeDivline bsp)
  if side0 = 2 then 0 else side0

/-- Example node: a vertical partition line through the origin, pointing up,
whose two children are the subsectors 0 and 1. -/
def exNodeVertical : node_t :=
  { x := 0, y := 0, dx := 0, dy := 65536,
    bbox := fun _ _ => 0,
    children := fun side => if side = 0 then 32768 else 32769 }

/-- Example lines for the level `exLevelOnLine`: line 0 is the one-sided
example line on x = 0, every other line is a one-sided line on x = 100. -/
def exLinesOnLine : Nat → line_t
  | 0 => exLines 0
  | _ => { v1 := ⟨6553600, -4194304⟩, v2 := ⟨6553600, 4194304⟩, flags := 1,
           frontsector := 0, backsector := none }

/-- Example level with the one node `exNodeVertical`: subsector 0 (front
child) holds a seg of the far line 1, subsector 1 (back child) a seg of line 0,
which runs along the partition line. -/
def exLevelOnLine : Level :=
  { sectors := exSectors
    numsectors := 6
    lines := exLinesOnLine
    segs := [{ v1 := ⟨6553600, -4194304⟩, v2 := ⟨6553600, 4194304⟩, sidedef := ⟨0⟩,
               linedef := 1, frontsector := 0, backsector := none },
             exSeg 0]
    subsectors := [{ sector := 0, numlines := 1, firstline := 0 },
                   { sector := 0, numlines := 1, firstline := 1 }]
    nodes := [exNodeVertical]
    rejectmatrix := fun _ => 0
    NF_SUBSECTOR := 32768 }

/-- Example observer standing on the partition line of `exNodeVertical`,
at (0, -32). -/
def exLookerOnLine : mobj_t :=
  { x := 0, y := -2097152, z := 0, height := 3670016,
    subsector := { sector := 0, numlines := 1, firstline := 0 } }

/-- The scratch state as `P_SightUnobstructed(exLookerOnLine, exTarget 3670016)`
sets it up before the BSP walk. -/
def exSightOnLine : SightState :=
  { validcount := 1, sightzstart := 2752512, topslope := 917504, bottomslope := -2752512,
    strace := ⟨0, -2097152, 4194304, 4194304⟩, t2x := 4194304, t2y := 2097152,
    linevalid := fun _ => 0, examined := [] }

/-- The linedef of the seg a log entry was written for. -/
def lineOf (lv : Level) (r : ExamRecord) : Option Nat :=
  match readAt lv.segs r.seg with
  | .ok seg => some seg.linedef
  | .error _ => none

/-- The state `P_CrossSubsector` hands to `P_BlocksStrace(seg)`: the seg's
linedef carries the mark `line->validcount = validcount`. -/
def markLine (s : SightState) (seg : seg_t) : SightState :=
  { s with linevalid := fun l => if l = seg.linedef then s.validcount else s.linevalid l }

/-- The state `P_CrossSubsector` continues or returns with after
`P_BlocksStrace` gave the verdict `v` for `segs[idx]`: the log entry is added. -/
def logSeg (s : SightState) (idx : Int) (v : Bool) : SightState :=
  { s with examined := s.examined ++
      [{ seg := idx, blocked := v, topslope := s.topslope, bottomslope := s.bottomslope }] }

/-- Bookkeeping of a stretch of a sight query from `s` to `s'` that logged
the entries `new`: `validcount` is untouched; every logged seg belongs to a
linedef that was unmarked in `s` and is marked in `s'`; a linedef keeps its
mark unless a seg of it was logged; no linedef was logged twice; and the cone
of `s'` is the one recorded in the last entry (that of `s` when there is
none). -/
def MarkRun (lv : Level) (s : SightState) (new : List ExamRecord) (s' : SightState) : Prop :=
  s'.validcount = s.validcount ∧
  s'.examined = s.examined ++ new ∧
  (∀ r ∈ new, ∃ l, lineOf lv r = some l ∧ s.linevalid l ≠ s.validcount ∧
    s'.linevalid l = s.validcount) ∧
  (∀ l, s'.linevalid l = s.linevalid l ∨
    (s'.linevalid l = s.validcount ∧ some l ∈ new.map (lineOf lv))) ∧
  (new.map (lineOf lv)).Nodup ∧
  (new = [] → s'.topslope = s.topslope ∧ s'.bottomslope = s.bottomslope) ∧
  (∀ init r, new = init ++ [r] → r.topslope = s'.topslope ∧ r.bottomslope = s'.bottomslope)

/-- Example level whose single subsector holds two segs of the one-sided
example line 0. -/
def exLevelTwoSegs : Level := { exLevel 0 with
  segs := [exSeg 0, exSeg 0]
  subsectors := [{ sector := 0, numlines := 2, firstline := 0 }] }

/-- Example level whose single subsector holds two segs of the two-sided
example line 1, which never blocks. -/
def exLevelTwoOpen : Level := { exLevel 1 with
  segs := [exSeg 1, exSeg 1]
  subsectors := [{ sector := 0, numlines := 2, firstline := 0 }] }

/-- The columns of the view that are free and whose left neighbour is free
too: every gap between two ranges of the list holds one such column less
than it is long. -/
def slackColumns (vw : Int) (a : Nat → cliprange_t) (k : Nat) : Finset Int :=
  (Finset.Icc 0 (vw - 1)).filter (fun c => ¬ CoveredBy a k c ∧ ¬ CoveredBy a k (c - 1))

/-- No seg of the level makes `P_TwoSidedBlocksStrace` read through a NULL
`seg->backsector`: every seg whose linedef has a back sector and carries the
`ML_TWOSIDED` flag has a back sector itself. -/
def segsTwoSidedOK (E : SightEnv) (lv : Level) : Bool :=
  lv.segs.all (fun seg =>
    (lv.lines seg.linedef).backsector.isNone || !P_IsTwoSided E lv seg
      || seg.backsector.isSome)

/-- The screen columns `x1`, `x2` that `R_RenderLine(line)` looks up for a seg
that survives the backface test and the clipping to the view edges; `none`
when the seg is culled before the lookup. -/
def segColumns (V : View) (line : seg_t) : Option (Int × Int) :=
  let angle1 := V.R_PointToAngle line.v1.x line.v1.y
  let angle2 := V.R_PointToAngle line.v2.x line.v2.y
  let span := ang (angle1 - angle2)
  if span ≥ ANG180 then none
  else
    match clipToViewEdges V.clipangle span (ang (angle1 - V.viewangle))
        (ang (angle2 - V.viewangle)) with
    | none => none
    | some (a1, a2) => some (angleToColumn V a1, angleToColumn V a2)

/-- The seg is culled by `R_RenderLine`, or does not cross a pixel
(`x1 == x2`), or its columns lie in the view with the left one first:
`0 <= x1 < x2 <= viewwidth`. -/
def segInView (V : View) (line : seg_t) : Bool :=
  match segColumns V line with
  | none => true
  | some (x1, x2) => decide (x1 = x2 ∨ (0 ≤ x1 ∧ x1 < x2 ∧ x2 ≤ V.viewwidth))

/-- The clip list is well formed for a view of `vw` columns, and twice
`newend - solidsegs` plus the number of free columns with a free left
neighbour is at most `vw + 3`, as it is after `R_ClearClipSegs` and stays under
`R_ClipSolidWallSegment`; so `newend - solidsegs <= (vw + 3) / 2`. -/
def ClipBudget (vw : Int) (c : ClipState) : Prop :=
  ∃ k, k < c.newend ∧ WellFormedAt vw c.solidsegs k ∧
    2 * (c.newend : Int) + ((slackColumns vw c.solidsegs k).card : Int) ≤ vw + 3

/-- The fatal error of `R_RenderSubSectorLines`. -/
def solidsegsOverflow : Halt :=
  .I_Error "R_RenderSubSector: solidsegs overflow (vanilla may crash here)\n"

/-- The subsectors entered by a run of the renderer, when it returned. -/
def visitedOf : Except Halt RenderState → Option (List Int)
  | .ok s => some s.visited
  | .error _ => none

/-- Example node like `exNode` whose two bounding boxes are `exBox`. -/
def exNodeBox : node_t := { exNode with bbox := fun _ => exBox }

/-- Example level with the one node `exNodeBox`: subsector 0 holds a window
(a two-sided seg to the raised room 2), subsector 1 a one-sided wall behind
it, both on the columns 4..11 of the example view. -/
def exLevelWindow : Level :=
  { exLevelNode with
    segs := [exRenderSeg 0 (some 2), exRenderSeg 0 none]
    subsectors := [{ sector := 0, numlines := 1, firstline := 0 },
                   { sector := 0, numlines := 1, firstline := 1 }]
    nodes := [exNodeBox] }

/-- The scratch state that `P_SightUnobstructed(t1, t2)` sets up before it
calls `P_CrossBSPNode(numnodes - 1)`: `validcount` incremented, the cone and
the trace from `t1` to `t2`. -/
def sightStart (s : SightState) (t1 t2 : mobj_t) : SightState :=
  let sightzstart := fx (fx (t1.z + t1.height) - (t1.height >>> 2))
  let bottomslope := fx (t2.z - sightzstart)
  { s with
    validcount := fx (s.validcount + 1)
    sightzstart := sightzstart
    bottomslope := bottomslope
    topslope := fx (bottomslope + t2.height)
    strace := { x := t1.x, y := t1.y, dx := fx (t2.x - t1.x), dy := fx (t2.y - t1.y) }
    t2x := t2.x
    t2y := t2.y }

/-! ### Loop lemmas -/

theorem solidScanStart_spec (a : Nat → cliprange_t) (first : Int) (k : Nat)
    (hk : first - 1 ≤ (a k).last) :
    ∀ fuel i, i ≤ k → k - i < fuel →
      ∃ j, solidScanStart a first fuel i = some j ∧ i ≤ j ∧ j ≤ k ∧
        first - 1 ≤ (a j).last ∧ ∀ t, i ≤ t → t < j → (a t).last < first - 1 := by
  intro fuel
  induction fuel with
  | zero => intro i _ h; omega
  | succ n ih =>
    intro i hik hf
    unfold solidScanStart
    by_cases hlt : (a i).last < first - 1
    · have hne : i ≠ k := by
        rintro rfl; omega
      obtain ⟨j, hj, h1, h2, h3, h4⟩ := ih (i + 1) (by omega) (by omega)
      refine ⟨j, by simp [hlt, hj], by omega, h2, h3, ?_⟩
      intro t ht1 ht2
      by_cases hti : t = i
      · subst hti; exact hlt
      · exact h4 t (by omega) ht2
    · refine ⟨i, by simp [hlt], le_refl _, hik, by omega, ?_⟩
      intro t ht1 ht2; omega

theorem passScanStart_eq (a : Nat → cliprange_t) (first : Int) :
    ∀ fuel i, passScanStart a first fuel i = solidScanStart a first fuel i := by
  intro fuel
  induction fuel with
  | zero => intro i; rfl
  | succ n ih => intro i; unfold passScanStart solidScanStart; rw [ih]

theorem shiftUp_spec (start : Nat) :
    ∀ fuel (a : Nat → cliprange_t) next, start ≤ next → next - start < fuel →
      ∃ a1, shiftUp start fuel a next = some a1 ∧
        ∀ i, a1 i = if start < i ∧ i ≤ next then a (i - 1) else a i := by
  intro fuel
  induction fuel with
  | zero => intro a next _ h; omega
  | succ n ih =>
    intro a next hle hf
    unfold shiftUp
    by_cases hne : next = start
    · subst hne
      refine ⟨a, by simp, ?_⟩
      intro i
      split_ifs with h
      · omega
      · rfl
    · have h0 : next ≠ 0 := by omega
      obtain ⟨a1, h1, h2⟩ := ih (poke a next (a (next - 1))) (next - 1) (by omega) (by omega)
      refine ⟨a1, by simp [hne, h0, h1], ?_⟩
      intro i
      rw [h2 i]
      simp only [poke]
      split_ifs <;> first | rfl | (exfalso; omega) | (congr 1; omega)

theorem crunchLoop_spec (newend : Nat) :
    ∀ fuel (a : Nat → cliprange_t) start next, start ≤ next → next ≤ newend →
      newend - next < fuel →
      ∃ a2, crunchLoop newend fuel a start next = some (a2, start + (newend - next)) ∧
        ∀ i, a2 i = if start < i ∧ i ≤ start + (newend - next)
          then a (i - start + next) else a i := by
  intro fuel
  induction fuel with
  | zero => intro a start next _ _ h; omega
  | succ n ih =>
    intro a start next hsn hne hf
    unfold crunchLoop
    by_cases heq : next = newend
    · subst heq
      refine ⟨a, by simp, ?_⟩
      intro i
      split_ifs with h
      · omega
      · rfl
    · obtain ⟨a2, h1, h2⟩ := ih (poke a (start + 1) (a (next + 1))) (start + 1) (next + 1)
        (by omega) (by omega) (by omega)
      have e1 : start + 1 + (newend - (next + 1)) = start + (newend - next) := by omega
      rw [e1] at h1 h2
      refine ⟨a2, by simp [heq, h1], ?_⟩
      intro i
      rw [h2 i]
      simp only [poke]
      split_ifs <;> first | rfl | (exfalso; omega) | (congr 1; omega)

theorem solidMergeScan_spec (a : Nat → cliprange_t) (last : Int) (k : Nat)
    (hR : last ≤ (a k).last) :
    ∀ fuel next out, next ≤ k → (a next).last < last → k - next < fuel →
      ∃ j b, solidMergeScan a last fuel next out
          = some (j, out ++ gapsFrom a next (j - next), b) ∧ next ≤ j ∧ j ≤ k ∧
        (b = true → next < j ∧ (a j).first - 1 ≤ last ∧ last ≤ (a j).last) ∧
        (b = false → j < k ∧ (a j).last < last ∧ last < (a (j + 1)).first - 1) := by
  intro fuel
  induction fuel with
  | zero => intro next out _ _ h; omega
  | succ n ih =>
    intro next out hnk hlt hf
    have hne : next ≠ k := by
      rintro rfl; omega
    unfold solidMergeScan
    by_cases hge : last ≥ (a (next + 1)).first - 1
    · by_cases hle : last ≤ (a (next + 1)).last
      · refine ⟨next + 1, true, ?_, by omega, by omega, ?_, by simp⟩
        · have e : next + 1 - next = 1 := by omega
          simp [hge, hle, e, gapsFrom]
        · intro _; exact ⟨by omega, by omega, hle⟩
      · obtain ⟨j, b, h1, h2, h3, h4, h5⟩ := ih (next + 1)
          (out ++ [((a next).last + 1, (a (next + 1)).first - 1)]) (by omega) (by omega)
          (by omega)
        refine ⟨j, b, ?_, by omega, h3, ?_, h5⟩
        · have e : j - next = (j - (next + 1)) + 1 := by omega
          simp [hge, hle, h1, e, gapsFrom]
        · intro hb
          obtain ⟨q1, q2, q3⟩ := h4 hb
          exact ⟨by omega, q2, q3⟩
    · refine ⟨next, false, ?_, le_refl _, hnk, by simp, ?_⟩
      · simp [hge, gapsFrom]
      · intro _; exact ⟨by omega, hlt, by omega⟩

theorem passMergeScan_eq (a : Nat → cliprange_t) (last : Int) :
    ∀ fuel start out, passMergeScan a last fuel start out
      = (solidMergeScan a last fuel start out).map
          (fun r => if r.2.2 then r.2.1 else r.2.1 ++ [((a r.1).last + 1, last)]) := by
  intro fuel
  induction fuel with
  | zero => intro start out; rfl
  | succ n ih =>
    intro start out
    unfold passMergeScan solidMergeScan
    by_cases hge : last ≥ (a (start + 1)).first - 1
    · by_cases hle : last ≤ (a (start + 1)).last
      · simp [hge, hle]
      · simp [hge, hle, ih]
    · simp [hge]

theorem mem_gapsFrom (a : Nat → cliprange_t) :
    ∀ n i p, p ∈ gapsFrom a i n →
      ∃ t, i ≤ t ∧ t < i + n ∧ p = ((a t).last + 1, (a (t + 1)).first - 1) := by
  intro n
  induction n with
  | zero => intro i p h; simp [gapsFrom] at h
  | succ m ih =>
    intro i p h
    simp only [gapsFrom, List.mem_cons] at h
    rcases h with h | h
    · exact ⟨i, le_refl _, by omega, h⟩
    · obtain ⟨t, h1, h2, h3⟩ := ih (i + 1) p h
      exact ⟨t, by omega, by omega, h3⟩

/-! ### Facts about well-formed lists -/

theorem apart_lt (a : Nat → cliprange_t) (k : Nat)
    (hord : ∀ i, i < k + 1 → (a i).first ≤ (a i).last)
    (hap : ∀ i, i < k → (a i).last + 1 < (a (i + 1)).first) :
    ∀ j i, i < j → j ≤ k → (a i).last + 1 < (a j).first := by
  intro j
  induction j with
  | zero => intro i h; omega
  | succ m ih =>
    intro i him hmk
    by_cases h : i = m
    · subst h; exact hap i (by omega)
    · have h1 := ih i (by omega) (by omega)
      have h2 := hord m (by omega)
      have h3 := hap m (by omega)
      omega

theorem last_mono (a : Nat → cliprange_t) (k : Nat)
    (hord : ∀ i, i < k + 1 → (a i).first ≤ (a i).last)
    (hap : ∀ i, i < k → (a i).last + 1 < (a (i + 1)).first)
    (i j : Nat) (hij : i ≤ j) (hjk : j ≤ k) : (a i).last ≤ (a j).last := by
  by_cases h : i = j
  · subst h; exact le_refl _
  · have h1 := apart_lt a k hord hap j i (by omega) hjk
    have h2 := hord j (by omega)
    omega

theorem first_mono (a : Nat → cliprange_t) (k : Nat)
    (hord : ∀ i, i < k + 1 → (a i).first ≤ (a i).last)
    (hap : ∀ i, i < k → (a i).last + 1 < (a (i + 1)).first)
    (i j : Nat) (hij : i ≤ j) (hjk : j ≤ k) : (a i).first ≤ (a j).first := by
  by_cases h : i = j
  · subst h; exact le_refl _
  · have h1 := apart_lt a k hord hap j i (by omega) hjk
    have h2 := hord i (by omega)
    omega

theorem isRightSentinel_unique (a : Nat → cliprange_t) (k k2 : Nat)
    (h1 : IsRightSentinel a k) (h2 : IsRightSentinel a k2) : k = k2 := by
  rcases Nat.lt_trichotomy k k2 with h | h | h
  · exact absurd h1.1 (h2.2 k h)
  · exact h
  · exact absurd h2.1 (h1.2 k2 h)

theorem covered_iff (s : ClipState) (k : Nat) (hk : k < s.newend)
    (hR : IsRightSentinel s.solidsegs k) (c : Int) :
    Covered s c ↔ CoveredBy s.solidsegs k c := by
  constructor
  · rintro ⟨k2, _, h2, h3⟩
    have := isRightSentinel_unique _ _ _ hR h2
    subst this; exact h3
  · intro h; exact ⟨k, hk, hR, h⟩

/-- The list obtained by widening entry `start` to `[start.first, L]` and
moving the entries after `j` down behind it (what the `crunch:` code leaves) is
well formed again, and covers the old columns together with
`[start.first, L]`. -/
theorem merged_wf (vw : Int) (a a' : Nat → cliprange_t) (k start j : Nat) (L : Int)
    (hwf : WellFormedAt vw a k) (hsj : start ≤ j) (hjk : j ≤ k)
    (hL1 : (a j).last ≤ L)
    (hL2 : j < k → L + 1 < (a (j + 1)).first)
    (hL3 : j = k → L = INT_MAX)
    (hA0 : a' start = { first := (a start).first, last := L })
    (hA1 : ∀ i, i < start → a' i = a i)
    (hA2 : ∀ d, d < k - j → a' (start + 1 + d) = a (j + 1 + d)) :
    WellFormedAt vw a' (start + (k - j)) ∧
    ∀ c, CoveredBy a' (start + (k - j)) c ↔
      CoveredBy a k c ∨ ((a start).first ≤ c ∧ c ≤ L) := by
  obtain ⟨⟨hR, hRf⟩, h0f, h0l, hkf, hord, hap⟩ := hwf
  have hlt := apart_lt a k hord hap
  have hlm := last_mono a k hord hap
  have hfm := first_mono a k hord hap
  have hmax : ∀ i, i < k → (a i).last < INT_MAX := by
    intro i hi
    have h1 := hlt k i hi (le_refl _)
    have h2 := hord k (by omega)
    omega
  have hsf : (a' start).first = (a start).first := by rw [hA0]
  have hsl : (a' start).last = L := by rw [hA0]
  have hLlt : j < k → L < INT_MAX := by
    intro h
    have h1 := hL2 h
    have h2 := hord (j + 1) (by omega)
    have h3 := hlm (j + 1) k (by omega) (le_refl _)
    omega
  have hsL : (a start).first ≤ L := by
    have h1 := hord start (by omega)
    have h2 := hlm start j hsj hjk
    omega
  have cases3 : ∀ i, i < start + (k - j) + 1 →
      i < start ∨ i = start ∨ ∃ d, d < k - j ∧ i = start + 1 + d := by
    intro i hi
    by_cases h1 : i < start
    · exact Or.inl h1
    · by_cases h2 : i = start
      · exact Or.inr (Or.inl h2)
      · exact Or.inr (Or.inr ⟨i - start - 1, by omega, by omega⟩)
  refine ⟨⟨⟨?_, ?_⟩, ?_, ?_, ?_, ?_, ?_⟩, ?_⟩
  · -- the new right sentinel
    by_cases hj : j = k
    · have e : start + (k - j) = start := by omega
      rw [e, hsl]; exact hL3 hj
    · have e : start + (k - j) = start + 1 + (k - j - 1) := by omega
      have e2 : j + 1 + (k - j - 1) = k := by omega
      rw [e, hA2 _ (by omega), e2]; exact hR
  · intro i hi
    rcases cases3 i (by omega) with h | h | ⟨d, hd, h⟩
    · rw [hA1 i h]; exact hRf i (by omega)
    · subst h
      rw [hsl]
      have := hLlt (by omega)
      omega
    · subst h
      rw [hA2 d hd]; exact hRf _ (by omega)
  · by_cases h : start = 0
    · subst h; rw [hsf]; exact h0f
    · rw [hA1 0 (by omega)]; exact h0f
  · by_cases h : start = 0
    · subst h; rw [hsl]
      have := hlm 0 j (by omega) hjk
      omega
    · rw [hA1 0 (by omega)]; exact h0l
  · by_cases hj : j = k
    · have e : start + (k - j) = start := by omega
      rw [e, hsf]
      have := hfm start k (by omega) (le_refl _)
      omega
    · have e : start + (k - j) = start + 1 + (k - j - 1) := by omega
      have e2 : j + 1 + (k - j - 1) = k := by omega
      rw [e, hA2 _ (by omega), e2]; exact hkf
  · intro i hi
    rcases cases3 i hi with h | h | ⟨d, hd, h⟩
    · rw [hA1 i h]; exact hord i (by omega)
    · subst h; rw [hsf, hsl]; exact hsL
    · subst h; rw [hA2 d hd]; exact hord _ (by omega)
  · intro i hi
    rcases cases3 i (by omega) with h | h | ⟨d, hd, h⟩
    · by_cases h2 : i + 1 = start
      · rw [hA1 i h, h2, hsf, ← h2]; exact hap i (by omega)
      · rw [hA1 i h, hA1 (i + 1) (by omega)]; exact hap i (by omega)
    · subst h
      have e : i + 1 = i + 1 + 0 := by omega
      rw [hsl, e, hA2 0 (by omega)]
      exact hL2 (by omega)
    · subst h
      have e : start + 1 + d + 1 = start + 1 + (d + 1) := by omega
      have e2 : j + 1 + (d + 1) = j + 1 + d + 1 := by omega
      rw [hA2 d hd, e, hA2 (d + 1) (by omega), e2]
      exact hap _ (by omega)
  · intro c
    constructor
    · rintro ⟨i, hi, h1, h2⟩
      rcases cases3 i hi with h | h | ⟨d, hd, h⟩
      · rw [hA1 i h] at h1 h2
        exact Or.inl ⟨i, by omega, h1, h2⟩
      · subst h
        rw [hsf] at h1; rw [hsl] at h2
        exact Or.inr ⟨h1, h2⟩
      · subst h
        rw [hA2 d hd] at h1 h2
        exact Or.inl ⟨j + 1 + d, by omega, h1, h2⟩
    · rintro (⟨i, hi, h1, h2⟩ | ⟨h1, h2⟩)
      · by_cases c1 : i < start
        · exact ⟨i, by omega, by rw [hA1 i c1]; exact h1, by rw [hA1 i c1]; exact h2⟩
        · by_cases c2 : i ≤ j
          · refine ⟨start, by omega, ?_, ?_⟩
            · rw [hsf]
              have := hfm start i (by omega) (by omega)
              omega
            · rw [hsl]
              have := hlm i j c2 hjk
              omega
          · have e : i = j + 1 + (i - j - 1) := by omega
            refine ⟨start + 1 + (i - j - 1), by omega, ?_, ?_⟩
            · rw [hA2 _ (by omega), ← e]; exact h1
            · rw [hA2 _ (by omega), ← e]; exact h2
      · exact ⟨start, by omega, by rw [hsf]; exact h1, by rw [hsl]; exact h2⟩

theorem gap_not_covered (a : Nat → cliprange_t) (k : Nat)
    (hord : ∀ i, i < k + 1 → (a i).first ≤ (a i).last)
    (hap : ∀ i, i < k → (a i).last + 1 < (a (i + 1)).first)
    (t : Nat) (ht : t < k) (c : Int) (h1 : (a t).last < c) (h2 : c < (a (t + 1)).first) :
    ¬ CoveredBy a k c := by
  rintro ⟨i, hi, f1, f2⟩
  by_cases h : i ≤ t
  · have := last_mono a k hord hap i t h (by omega)
    omega
  · have := first_mono a k hord hap (t + 1) i (by omega) (by omega)
    omega

theorem solidCrunch_spec (fuel : Nat) (s : ClipState) (start j : Nat)
    (hsj : start ≤ j) (hje : j ≤ s.newend) (hf : s.newend < fuel) :
    ∃ s', solidCrunch fuel s start j = some s' ∧ s'.rendered = s.rendered ∧
      s'.newend ≤ s.newend ∧
      (∀ k, j ≤ k → k < s.newend → start + (k - j) < s'.newend) ∧
      s'.solidsegs start = s.solidsegs start ∧
      (∀ i, i < start → s'.solidsegs i = s.solidsegs i) ∧
      (∀ d, j + d < s.newend → s'.solidsegs (start + 1 + d) = s.solidsegs (j + 1 + d)) := by
  unfold solidCrunch
  by_cases h : j = start
  · subst h
    refine ⟨s, by simp, rfl, le_refl _, ?_, rfl, fun _ _ => rfl, fun _ _ => rfl⟩
    intro k h1 h2; omega
  · obtain ⟨a2, h1, h2⟩ := crunchLoop_spec s.newend fuel s.solidsegs start j hsj hje (by omega)
    refine ⟨{ s with solidsegs := a2, newend := start + (s.newend - j) + 1 }, by simp [h, h1],
      rfl, ?_, ?_, ?_, ?_, ?_⟩
    · show start + (s.newend - j) + 1 ≤ s.newend
      omega
    · intro k hk1 hk2
      show start + (k - j) < start + (s.newend - j) + 1
      omega
    · show a2 start = s.solidsegs start
      rw [h2]; split_ifs with c
      · omega
      · rfl
    · intro i hi
      show a2 i = s.solidsegs i
      rw [h2]; split_ifs with c
      · omega
      · rfl
    · intro d hd
      show a2 (start + 1 + d) = s.solidsegs (j + 1 + d)
      rw [h2]; split_ifs with c
      · congr 1; omega
      · omega

/-- Effect of the second half of `R_ClipSolidWallSegment` on a well-formed
list when `start` already reaches down to `first`. -/
theorem solidTail_step (vw : Int) (s : ClipState) (k start : Nat) (first last : Int)
    (fuel : Nat) (hk : k < s.newend) (hwf : WellFormedAt vw s.solidsegs k)
    (hsk : start ≤ k) (hs1 : (s.solidsegs start).first ≤ first)
    (hs2 : first - 1 ≤ (s.solidsegs start).last)
    (hint : last ≤ INT_MAX) (hfuel : s.newend < fuel) :
    ∃ s' k' new, solidTail fuel s start last = some s' ∧ k' < s'.newend ∧
      s'.newend ≤ s.newend ∧ WellFormedAt vw s'.solidsegs k' ∧
      (∀ c, CoveredBy s'.solidsegs k' c ↔
        CoveredBy s.solidsegs k c ∨ (first ≤ c ∧ c ≤ last)) ∧
      s'.rendered = s.rendered ++ new ∧
      ∀ p ∈ new, ∀ c, p.1 ≤ c → c ≤ p.2 →
        first ≤ c ∧ c ≤ last ∧ ¬ CoveredBy s.solidsegs k c := by
  have hwf0 := hwf
  obtain ⟨⟨hR, hRf⟩, h0f, h0l, hkf, hord, hap⟩ := hwf
  have hlm := last_mono s.solidsegs k hord hap
  have hfm := first_mono s.solidsegs k hord hap
  unfold solidTail
  by_cases hle : last ≤ (s.solidsegs start).last
  · refine ⟨s, k, [], by simp [hle], hk, le_refl _, hwf0, ?_, by simp, by simp⟩
    intro c
    constructor
    · intro h; exact Or.inl h
    · rintro (h | ⟨h1, h2⟩)
      · exact h
      · exact ⟨start, by omega, by omega, by omega⟩
  · obtain ⟨j, b, hm, hsj, hjk, hbt, hbf⟩ :=
      solidMergeScan_spec s.solidsegs last k (by omega) fuel start s.rendered hsk
        (by omega) (by omega)
    have hgaps : ∀ p ∈ gapsFrom s.solidsegs start (j - start), ∀ c, p.1 ≤ c → c ≤ p.2 →
        first ≤ c ∧ c ≤ (s.solidsegs j).first - 1 ∧ ¬ CoveredBy s.solidsegs k c := by
      intro p hp c hc1 hc2
      obtain ⟨t, ht1, ht2, rfl⟩ := mem_gapsFrom _ _ _ _ hp
      simp only at hc1 hc2
      have g1 := hlm start t ht1 (by omega)
      have g2 := hfm (t + 1) j (by omega) hjk
      exact ⟨by omega, by omega,
        gap_not_covered _ k hord hap t (by omega) c (by omega) (by omega)⟩
    cases b with
    | true =>
      obtain ⟨q1, q2, q3⟩ := hbt rfl
      obtain ⟨s', hc, hrend, hne, hkk, hst, hbelow, habove⟩ :=
        solidCrunch_spec fuel
          { s with
            solidsegs := poke s.solidsegs start
              { first := (s.solidsegs start).first, last := (s.solidsegs j).last }
            rendered := s.rendered ++ gapsFrom s.solidsegs start (j - start) }
          start j hsj (by show j ≤ s.newend; omega) hfuel
      have hmw := merged_wf vw s.solidsegs s'.solidsegs k start j (s.solidsegs j).last hwf0
        hsj hjk (le_refl _) (fun h => hap j h) (fun h => by rw [h]; exact hR)
        (by rw [hst]; simp [poke])
        (by intro i hi; rw [hbelow i hi]; simp only [poke]; split_ifs with c
            · omega
            · rfl)
        (by intro d hd; rw [habove d (by show j + d < s.newend; omega)]; simp only [poke]
            split_ifs with c
            · omega
            · rfl)
      refine ⟨s', start + (k - j), gapsFrom s.solidsegs start (j - start),
        by simp [hle, hm, hc], hkk k hjk hk, hne, hmw.1, ?_, hrend, ?_⟩
      · intro c
        rw [hmw.2 c]
        constructor
        · rintro (h | ⟨h1, h2⟩)
          · exact Or.inl h
          · by_cases c1 : c ≤ (s.solidsegs start).last
            · exact Or.inl ⟨start, by omega, h1, c1⟩
            · by_cases c2 : c ≤ last
              · exact Or.inr ⟨by omega, c2⟩
              · exact Or.inl ⟨j, by omega, by omega, h2⟩
        · rintro (h | ⟨h1, h2⟩)
          · exact Or.inl h
          · exact Or.inr ⟨by omega, by omega⟩
      · intro p hp c hc1 hc2
        obtain ⟨g1, g2, g3⟩ := hgaps p hp c hc1 hc2
        exact ⟨g1, by omega, g3⟩
    | false =>
      obtain ⟨q1, q2, q3⟩ := hbf rfl
      obtain ⟨s', hc, hrend, hne, hkk, hst, hbelow, habove⟩ :=
        solidCrunch_spec fuel
          { s with
            solidsegs := poke s.solidsegs start
              { first := (s.solidsegs start).first, last := last }
            rendered := s.rendered ++ gapsFrom s.solidsegs start (j - start)
              ++ [((s.solidsegs j).last + 1, last)] }
          start j hsj (by show j ≤ s.newend; omega) hfuel
      have hmw := merged_wf vw s.solidsegs s'.solidsegs k start j last hwf0
        hsj hjk (by omega) (fun _ => by omega) (fun h => by omega)
        (by rw [hst]; simp [poke])
        (by intro i hi; rw [hbelow i hi]; simp only [poke]; split_ifs with c
            · omega
            · rfl)
        (by intro d hd; rw [habove d (by show j + d < s.newend; omega)]; simp only [poke]
            split_ifs with c
            · omega
            · rfl)
      refine ⟨s', start + (k - j),
        gapsFrom s.solidsegs start (j - start) ++ [((s.solidsegs j).last + 1, last)],
        by simp only [hle, hm, if_false]; exact hc, hkk k hjk hk, hne, hmw.1, ?_, by rw [hrend]; simp, ?_⟩
      · intro c
        rw [hmw.2 c]
        constructor
        · rintro (h | ⟨h1, h2⟩)
          · exact Or.inl h
          · by_cases c1 : c ≤ (s.solidsegs start).last
            · exact Or.inl ⟨start, by omega, h1, c1⟩
            · exact Or.inr ⟨by omega, h2⟩
        · rintro (h | ⟨h1, h2⟩)
          · exact Or.inl h
          · exact Or.inr ⟨by omega, h2⟩
      · intro p hp c hc1 hc2
        rcases List.mem_append.1 hp with hp | hp
        · obtain ⟨g1, g2, g3⟩ := hgaps p hp c hc1 hc2
          have := hfm j (j + 1) (by omega) (by omega)
          have := hord j (by omega)
          exact ⟨g1, by omega, g3⟩
        · simp only [List.mem_singleton] at hp
          subst hp
          simp only at hc1 hc2
          have g1 := hlm start j hsj hjk
          exact ⟨by omega, hc2,
            gap_not_covered _ k hord hap j q1 c (by omega) (by omega)⟩

/-- Inserting a new clippost `[first, last]` into the free space in front of
entry `start` keeps the list well formed and adds exactly its columns. -/
theorem inserted_wf (vw : Int) (a a' : Nat → cliprange_t) (k start : Nat) (first last : Int)
    (hwf : WellFormedAt vw a k) (hsk : start ≤ k) (h1 : 0 < start)
    (hp : (a (start - 1)).last + 1 < first) (hfl : first ≤ last)
    (hn : last + 1 < (a start).first)
    (hA0 : a' start = { first := first, last := last })
    (hA1 : ∀ i, i < start → a' i = a i)
    (hA2 : ∀ d, start + d ≤ k → a' (start + 1 + d) = a (start + d)) :
    WellFormedAt vw a' (k + 1) ∧
    ∀ c, CoveredBy a' (k + 1) c ↔ CoveredBy a k c ∨ (first ≤ c ∧ c ≤ last) := by
  obtain ⟨⟨hR, hRf⟩, h0f, h0l, hkf, hord, hap⟩ := hwf
  have hlm := last_mono a k hord hap
  have hsf : (a' start).first = first := by rw [hA0]
  have hsl : (a' start).last = last := by rw [hA0]
  have hkk : a' (k + 1) = a k := by
    have e : k + 1 = start + 1 + (k - start) := by omega
    have e2 : start + (k - start) = k := by omega
    rw [e, hA2 _ (by omega), e2]
  have cases3 : ∀ i, i < k + 1 + 1 →
      i < start ∨ i = start ∨ ∃ d, start + d ≤ k ∧ i = start + 1 + d := by
    intro i hi
    by_cases c1 : i < start
    · exact Or.inl c1
    · by_cases c2 : i = start
      · exact Or.inr (Or.inl c2)
      · exact Or.inr (Or.inr ⟨i - start - 1, by omega, by omega⟩)
  refine ⟨⟨⟨?_, ?_⟩, ?_, ?_, ?_, ?_, ?_⟩, ?_⟩
  · rw [hkk]; exact hR
  · intro i hi
    rcases cases3 i (by omega) with h | h | ⟨d, hd, h⟩
    · rw [hA1 i h]; exact hRf i (by omega)
    · subst h
      rw [hsl]
      have g1 := hord i (by omega)
      have g2 := hlm i k hsk (le_refl _)
      omega
    · subst h
      rw [hA2 d hd]; exact hRf _ (by omega)
  · rw [hA1 0 h1]; exact h0f
  · rw [hA1 0 h1]; exact h0l
  · rw [hkk]; exact hkf
  · intro i hi
    rcases cases3 i hi with h | h | ⟨d, hd, h⟩
    · rw [hA1 i h]; exact hord i (by omega)
    · subst h; rw [hsf, hsl]; exact hfl
    · subst h; rw [hA2 d hd]; exact hord _ (by omega)
  · intro i hi
    rcases cases3 i (by omega) with h | h | ⟨d, hd, h⟩
    · by_cases h2 : i + 1 = start
      · have e : i = start - 1 := by omega
        rw [hA1 i h, h2, hsf, e]; exact hp
      · rw [hA1 i h, hA1 (i + 1) (by omega)]; exact hap i (by omega)
    · subst h
      have e : i + 1 = i + 1 + 0 := by omega
      rw [hsl, e, hA2 0 (by omega)]
      exact hn
    · subst h
      have e : start + 1 + d + 1 = start + 1 + (d + 1) := by omega
      have e2 : start + (d + 1) = start + d + 1 := by omega
      rw [hA2 d hd, e, hA2 (d + 1) (by omega), e2]
      exact hap _ (by omega)
  · intro c
    constructor
    · rintro ⟨i, hi, g1, g2⟩
      rcases cases3 i hi with h | h | ⟨d, hd, h⟩
      · rw [hA1 i h] at g1 g2
        exact Or.inl ⟨i, by omega, g1, g2⟩
      · subst h
        rw [hsf] at g1; rw [hsl] at g2
        exact Or.inr ⟨g1, g2⟩
      · subst h
        rw [hA2 d hd] at g1 g2
        exact Or.inl ⟨start + d, by omega, g1, g2⟩
    · rintro (⟨i, hi, g1, g2⟩ | ⟨g1, g2⟩)
      · by_cases c1 : i < start
        · exact ⟨i, by omega, by rw [hA1 i c1]; exact g1, by rw [hA1 i c1]; exact g2⟩
        · have e : i = start + (i - start) := by omega
          refine ⟨start + 1 + (i - start), by omega, ?_, ?_⟩
          · rw [hA2 _ (by omega), ← e]; exact g1
          · rw [hA2 _ (by omega), ← e]; exact g2
      · exact ⟨start, by omega, by rw [hsf]; exact g1, by rw [hsl]; exact g2⟩

/-- Pulling the `first` of entry `start` down to a column that is still clear of
the previous entry (`start->first = first;`) keeps the list well formed and
adds the columns `first .. start.first - 1`. -/
theorem lowered_wf (vw : Int) (a : Nat → cliprange_t) (k start : Nat) (first : Int)
    (hwf : WellFormedAt vw a k) (hsk : start ≤ k) (h1 : 0 < start)
    (hp : (a (start - 1)).last + 1 < first) (hlt : first < (a start).first) :
    WellFormedAt vw (poke a start { first := first, last := (a start).last }) k ∧
    ∀ c, CoveredBy (poke a start { first := first, last := (a start).last }) k c ↔
      CoveredBy a k c ∨ (first ≤ c ∧ c < (a start).first) := by
  obtain ⟨⟨hR, hRf⟩, h0f, h0l, hkf, hord, hap⟩ := hwf
  have hne : ∀ i, i ≠ start →
      poke a start { first := first, last := (a start).last } i = a i := by
    intro i hi; simp [poke, hi]
  have hsf : (poke a start { first := first, last := (a start).last } start).first = first := by
    simp [poke]
  have hsl : (poke a start { first := first, last := (a start).last } start).last
      = (a start).last := by
    simp [poke]
  have hlast : ∀ i, (poke a start { first := first, last := (a start).last } i).last
      = (a i).last := by
    intro i
    by_cases h : i = start
    · subst h; exact hsl
    · rw [hne i h]
  refine ⟨⟨⟨?_, ?_⟩, ?_, ?_, ?_, ?_, ?_⟩, ?_⟩
  · rw [hlast]; exact hR
  · intro i hi; rw [hlast]; exact hRf i hi
  · rw [hne 0 (by omega)]; exact h0f
  · rw [hlast]; exact h0l
  · by_cases h : k = start
    · subst h; rw [hsf]; omega
    · rw [hne k h]; exact hkf
  · intro i hi
    rw [hlast]
    by_cases h : i = start
    · subst h; rw [hsf]
      have := hord i hi
      omega
    · rw [hne i h]; exact hord i hi
  · intro i hi
    rw [hlast]
    by_cases h : i + 1 = start
    · have e : i = start - 1 := by omega
      rw [h, hsf, e]; exact hp
    · rw [hne (i + 1) h]; exact hap i hi
  · intro c
    constructor
    · rintro ⟨i, hi, g1, g2⟩
      rw [hlast] at g2
      by_cases h : i = start
      · subst h
        rw [hsf] at g1
        by_cases c1 : c < (a i).first
        · exact Or.inr ⟨g1, c1⟩
        · exact Or.inl ⟨i, hi, by omega, g2⟩
      · rw [hne i h] at g1
        exact Or.inl ⟨i, hi, g1, g2⟩
    · rintro (⟨i, hi, g1, g2⟩ | ⟨g1, g2⟩)
      · refine ⟨i, hi, ?_, by rw [hlast]; exact g2⟩
        by_cases h : i = start
        · subst h; rw [hsf]; omega
        · rw [hne i h]; exact g1
      · refine ⟨start, by omega, by rw [hsf]; exact g1, ?_⟩
        rw [hsl]
        have := hord start (by omega)
        omega

/-- One call of `R_ClipSolidWallSegment(first, last)` on a well-formed list:
with fuel above `newend` the call returns, the list is well formed again, it
covers the old columns and `first..last`, and every range handed to
`R_RenderWallRange` lies inside `first..last` on columns that were free. -/
theorem solid_step (vw : Int) (s : ClipState) (k : Nat) (first last : Int) (fuel : Nat)
    (hk : k < s.newend) (hwf : WellFormedAt vw s.solidsegs k)
    (h0 : 0 ≤ first) (hfl : first ≤ last) (hint : last ≤ INT_MAX)
    (hfuel : s.newend < fuel) :
    ∃ s' k' new, R_ClipSolidWallSegment fuel s first last = some s' ∧ k' < s'.newend ∧
      s'.newend ≤ s.newend + 1 ∧ WellFormedAt vw s'.solidsegs k' ∧
      (∀ c, CoveredBy s'.solidsegs k' c ↔
        CoveredBy s.solidsegs k c ∨ (first ≤ c ∧ c ≤ last)) ∧
      s'.rendered = s.rendered ++ new ∧
      ∀ p ∈ new, ∀ c, p.1 ≤ c → c ≤ p.2 →
        first ≤ c ∧ c ≤ last ∧ ¬ CoveredBy s.solidsegs k c := by
  have hwf0 := hwf
  obtain ⟨⟨hR, hRf⟩, h0f, h0l, hkf, hord, hap⟩ := hwf
  have hmaxv : INT_MAX = 2147483647 := rfl
  obtain ⟨start, hs, _, hsk, hs2, hsmin⟩ :=
    solidScanStart_spec s.solidsegs first k (by omega) fuel 0 (Nat.zero_le _) (by omega)
  unfold R_ClipSolidWallSegment
  by_cases hA : first < (s.solidsegs start).first
  · have h1 : 0 < start := by
      rcases Nat.eq_zero_or_pos start with h | h
      · subst h; omega
      · exact h
    have hp : (s.solidsegs (start - 1)).last + 1 < first := by
      have := hsmin (start - 1) (Nat.zero_le _) (by omega)
      omega
    by_cases hB : last < (s.solidsegs start).first - 1
    · -- Post is entirely visible: insert a new clippost.
      obtain ⟨a1, hsh, ha1⟩ := shiftUp_spec start fuel s.solidsegs s.newend (by omega) (by omega)
      have hiw := inserted_wf vw s.solidsegs (poke a1 start { first := first, last := last })
        k start first last hwf0 hsk h1 hp hfl (by omega) (by simp [poke])
        (by intro i hi
            have c1 : i ≠ start := by omega
            simp only [poke, c1, if_false]
            rw [ha1]; split_ifs with c
            · omega
            · rfl)
        (by intro d hd
            have c1 : start + 1 + d ≠ start := by omega
            simp only [poke, c1, if_false]
            rw [ha1]; split_ifs with c
            · congr 1; omega
            · omega)
      refine ⟨_, k + 1, [(first, last)], by simp only [hs, hA, hB, if_true, hsh]; rfl, ?_, ?_,
        hiw.1, hiw.2, rfl, ?_⟩
      · show k + 1 < s.newend + 1
        omega
      · show s.newend + 1 ≤ s.newend + 1
        omega
      · intro p hp2 c hc1 hc2
        simp only [List.mem_singleton] at hp2
        subst hp2
        simp only at hc1 hc2
        refine ⟨hc1, hc2, ?_⟩
        have e : start - 1 + 1 = start := by omega
        exact gap_not_covered _ k hord hap (start - 1) (by omega) c (by omega)
          (by rw [e]; omega)
    · -- There is a fragment above *start.
      have hlw := lowered_wf vw s.solidsegs k start first hwf0 hsk h1 hp hA
      obtain ⟨s', k', new, ht, hk', hne, hwf', hcov, hrend, hnew⟩ :=
        solidTail_step vw
          { s with
            solidsegs := poke s.solidsegs start
              { first := first, last := (s.solidsegs start).last }
            rendered := s.rendered ++ [(first, (s.solidsegs start).first - 1)] }
          k start first last fuel hk hlw.1 hsk (by simp [poke]) (by simp [poke]; omega)
          hint hfuel
      refine ⟨s', k', (first, (s.solidsegs start).first - 1) :: new,
        by simp only [hs, hA, hB, if_true, if_false]; exact ht, hk', ?_, hwf', ?_, ?_, ?_⟩
      · have : s'.newend ≤ s.newend := hne
        omega
      · intro c
        rw [hcov c, hlw.2 c]
        constructor
        · rintro ((h | ⟨g1, g2⟩) | h)
          · exact Or.inl h
          · exact Or.inr ⟨g1, by omega⟩
          · exact Or.inr h
        · rintro (h | h)
          · exact Or.inl (Or.inl h)
          · exact Or.inr h
      · rw [hrend]; simp
      · intro p hp2 c hc1 hc2
        rcases List.mem_cons.1 hp2 with hp2 | hp2
        · subst hp2
          simp only at hc1 hc2
          refine ⟨hc1, by omega, ?_⟩
          have e : start - 1 + 1 = start := by omega
          exact gap_not_covered _ k hord hap (start - 1) (by omega) c (by omega)
            (by rw [e]; omega)
        · obtain ⟨g1, g2, g3⟩ := hnew p hp2 c hc1 hc2
          exact ⟨g1, g2, fun h => g3 ((hlw.2 c).2 (Or.inl h))⟩
  · obtain ⟨s', k', new, ht, hk', hne, hwf', hcov, hrend, hnew⟩ :=
      solidTail_step vw s k start first last fuel hk hwf0 hsk (by omega) hs2 hint hfuel
    exact ⟨s', k', new, by simp only [hs, hA, if_false]; exact ht, hk', by omega, hwf',
      hcov, hrend, hnew⟩

/-- One call of `R_ClipPassWallSegment(first, last)` on a well-formed list:
with fuel above the sentinel index the call returns, only the call log
changes, and every range handed to `R_RenderWallRange` lies inside
`first..last` on columns that are free. -/
theorem pass_step (vw : Int) (s : ClipState) (k : Nat) (first last : Int) (fuel : Nat)
    (hwf : WellFormedAt vw s.solidsegs k)
    (h0 : 0 ≤ first) (hfl : first ≤ last) (hint : last ≤ INT_MAX)
    (hfuel : k < fuel) :
    ∃ new, R_ClipPassWallSegment fuel s first last
        = some { s with rendered := s.rendered ++ new } ∧
      ∀ p ∈ new, ∀ c, p.1 ≤ c → c ≤ p.2 →
        first ≤ c ∧ c ≤ last ∧ ¬ CoveredBy s.solidsegs k c := by
  obtain ⟨⟨hR, hRf⟩, h0f, h0l, hkf, hord, hap⟩ := hwf
  have hlm := last_mono s.solidsegs k hord hap
  have hfm := first_mono s.solidsegs k hord hap
  have hmaxv : INT_MAX = 2147483647 := rfl
  obtain ⟨start, hs, _, hsk, hs2, hsmin⟩ :=
    solidScanStart_spec s.solidsegs first k (by omega) fuel 0 (Nat.zero_le _) (by omega)
  rw [← passScanStart_eq] at hs
  -- the ranges emitted by the merge scan
  have hscan : ¬ last ≤ (s.solidsegs start).last → ∀ out, ∃ new,
      passMergeScan s.solidsegs last fuel start out = some (out ++ new) ∧
      ∀ p ∈ new, ∀ c, p.1 ≤ c → c ≤ p.2 →
        first ≤ c ∧ c ≤ last ∧ ¬ CoveredBy s.solidsegs k c := by
    intro hle out
    obtain ⟨j, b, hm, hsj, hjk, hbt, hbf⟩ :=
      solidMergeScan_spec s.solidsegs last k (by omega) fuel start out hsk
        (by omega) (by omega)
    have hgaps : ∀ p ∈ gapsFrom s.solidsegs start (j - start), ∀ c, p.1 ≤ c → c ≤ p.2 →
        first ≤ c ∧ c ≤ (s.solidsegs j).first - 1 ∧ ¬ CoveredBy s.solidsegs k c := by
      intro p hp c hc1 hc2
      obtain ⟨t, ht1, ht2, rfl⟩ := mem_gapsFrom _ _ _ _ hp
      simp only at hc1 hc2
      have g1 := hlm start t ht1 (by omega)
      have g2 := hfm (t + 1) j (by omega) hjk
      exact ⟨by omega, by omega,
        gap_not_covered _ k hord hap t (by omega) c (by omega) (by omega)⟩
    rw [passMergeScan_eq, hm]
    cases b with
    | true =>
      obtain ⟨q1, q2, q3⟩ := hbt rfl
      refine ⟨gapsFrom s.solidsegs start (j - start), by simp, ?_⟩
      intro p hp c hc1 hc2
      obtain ⟨g1, g2, g3⟩ := hgaps p hp c hc1 hc2
      exact ⟨g1, by omega, g3⟩
    | false =>
      obtain ⟨q1, q2, q3⟩ := hbf rfl
      refine ⟨gapsFrom s.solidsegs start (j - start) ++ [((s.solidsegs j).last + 1, last)],
        by simp, ?_⟩
      intro p hp c hc1 hc2
      rcases List.mem_append.1 hp with hp | hp
      · obtain ⟨g1, g2, g3⟩ := hgaps p hp c hc1 hc2
        have := hfm j (j + 1) (by omega) (by omega)
        have := hord j (by omega)
        exact ⟨g1, by omega, g3⟩
      · simp only [List.mem_singleton] at hp
        subst hp
        simp only at hc1 hc2
        have g1 := hlm start j hsj hjk
        exact ⟨by omega, hc2,
          gap_not_covered _ k hord hap j q1 c (by omega) (by omega)⟩
  unfold R_ClipPassWallSegment
  by_cases hA : first < (s.solidsegs start).first
  · have h1 : 0 < start := by
      rcases Nat.eq_zero_or_pos start with h | h
      · subst h; omega
      · exact h
    have hp : (s.solidsegs (start - 1)).last + 1 < first := by
      have := hsmin (start - 1) (Nat.zero_le _) (by omega)
      omega
    have e : start - 1 + 1 = start := by omega
    have hfree : ∀ c, first ≤ c → c < (s.solidsegs start).first →
        ¬ CoveredBy s.solidsegs k c := by
      intro c hc1 hc2
      exact gap_not_covered _ k hord hap (start - 1) (by omega) c (by omega)
        (by rw [e]; omega)
    by_cases hB : last < (s.solidsegs start).first - 1
    · refine ⟨[(first, last)], by simp only [hs, hA, hB, if_true], ?_⟩
      intro p hp2 c hc1 hc2
      simp only [List.mem_singleton] at hp2
      subst hp2
      simp only at hc1 hc2
      exact ⟨hc1, hc2, hfree c hc1 (by omega)⟩
    · by_cases hle : last ≤ (s.solidsegs start).last
      · refine ⟨[(first, (s.solidsegs start).first - 1)],
          by simp only [hs, hA, hB, hle, if_true, if_false], ?_⟩
        intro p hp2 c hc1 hc2
        simp only [List.mem_singleton] at hp2
        subst hp2
        simp only at hc1 hc2
        exact ⟨hc1, by omega, hfree c hc1 (by omega)⟩
      · obtain ⟨new, hn1, hn2⟩ :=
          hscan hle (s.rendered ++ [(first, (s.solidsegs start).first - 1)])
        refine ⟨(first, (s.solidsegs start).first - 1) :: new,
          by simp only [hs, hA, hB, hle, if_true, if_false, hn1]; simp, ?_⟩
        intro p hp2 c hc1 hc2
        rcases List.mem_cons.1 hp2 with hp2 | hp2
        · subst hp2
          simp only at hc1 hc2
          exact ⟨hc1, by omega, hfree c hc1 (by omega)⟩
        · exact hn2 p hp2 c hc1 hc2
  · by_cases hle : last ≤ (s.solidsegs start).last
    · exact ⟨[], by simp only [hs, hA, hle, if_true, if_false]; simp, by simp⟩
    · obtain ⟨new, hn1, hn2⟩ := hscan hle s.rendered
      exact ⟨new, by simp only [hs, hA, hle, if_false, hn1], hn2⟩

/-! ### Sequences of clipping calls -/

theorem cleared_wf (vw : Int) (s0 : ClipState) (hvw : 1 ≤ vw) (hint : vw ≤ INT_MAX) :
    WellFormedAt vw (R_ClearClipSegs vw s0).solidsegs 1 := by
  have hmaxv : INT_MAX = 2147483647 := rfl
  refine ⟨⟨by simp [R_ClearClipSegs, poke, INT_MAX], ?_⟩, by simp [R_ClearClipSegs, poke, INT_MAX],
    by simp [R_ClearClipSegs, poke], by simp [R_ClearClipSegs, poke], ?_, ?_⟩
  · intro i hi
    have : i = 0 := by omega
    subst this
    simp [R_ClearClipSegs, poke, INT_MAX]
  · intro i hi
    have : i = 0 ∨ i = 1 := by omega
    rcases this with h | h
    · subst h; simp [R_ClearClipSegs, poke]
    · subst h; simp [R_ClearClipSegs, poke]; omega
  · intro i hi
    have : i = 0 := by omega
    subst this
    simp [R_ClearClipSegs, poke]; omega

theorem runCalls_append (fuel : Nat) :
    ∀ (xs ys : List ClipCall) (s : ClipState),
      runCalls fuel s (xs ++ ys) = (runCalls fuel s xs).bind (fun s1 => runCalls fuel s1 ys) := by
  intro xs
  induction xs with
  | nil => intro ys s; simp [runCalls]
  | cons q rest ih =>
    intro ys s
    simp only [List.cons_append, runCalls]
    cases h : q.run fuel s with
    | none => simp
    | some s1 => simp [ih]

theorem runSolid_eq_runCalls (fuel : Nat) :
    ∀ (calls : List (Int × Int)) (s : ClipState),
      runSolid fuel s calls = runCalls fuel s (calls.map (fun p => ClipCall.solid p.1 p.2)) := by
  intro calls
  induction calls with
  | nil => intro s; rfl
  | cons p rest ih =>
    intro s
    obtain ⟨f, l⟩ := p
    simp only [runSolid, List.map_cons, runCalls, ClipCall.run]
    cases h : R_ClipSolidWallSegment fuel s f l with
    | none => rfl
    | some s1 => simp [ih]

/-- One clipping call of either kind on a well-formed list. -/
theorem call_step (vw : Int) (s : ClipState) (k : Nat) (q : ClipCall) (fuel : Nat)
    (hk : k < s.newend) (hwf : WellFormedAt vw s.solidsegs k) (hq : q.InView vw)
    (hint : vw ≤ INT_MAX) (hfuel : s.newend < fuel) :
    ∃ s' k' new, q.run fuel s = some s' ∧ k' < s'.newend ∧
      s'.newend ≤ s.newend + 1 ∧ WellFormedAt vw s'.solidsegs k' ∧
      (∀ c, CoveredBy s'.solidsegs k' c ↔ CoveredBy s.solidsegs k c ∨ q.Occludes c) ∧
      s'.rendered = s.rendered ++ new ∧
      ∀ p ∈ new, ∀ c, p.1 ≤ c → c ≤ p.2 → ¬ CoveredBy s.solidsegs k c := by
  cases q with
  | solid first last =>
    obtain ⟨h0, hfl, hlv⟩ := hq
    obtain ⟨s', k', new, h1, h2, h3, h4, h5, h6, h7⟩ :=
      solid_step vw s k first last fuel hk hwf h0 hfl (by omega) hfuel
    exact ⟨s', k', new, h1, h2, h3, h4, h5, h6, fun p hp c hc1 hc2 => (h7 p hp c hc1 hc2).2.2⟩
  | pass first last =>
    obtain ⟨h0, hfl, hlv⟩ := hq
    obtain ⟨new, h1, h2⟩ := pass_step vw s k first last fuel hwf h0 hfl (by omega) (by omega)
    refine ⟨_, k, new, h1, hk, by show s.newend ≤ s.newend + 1; omega, hwf, ?_, rfl,
      fun p hp c hc1 hc2 => (h2 p hp c hc1 hc2).2.2⟩
    intro c
    simp [ClipCall.Occludes]

/-- A sequence of clipping calls on a well-formed list returns (given fuel
above `newend` plus the number of calls), keeps the list well formed, and the
columns covered afterwards are the old ones and those of the solid calls. -/
theorem runCalls_inv (vw : Int) (fuel : Nat) (hint : vw ≤ INT_MAX) :
    ∀ (calls : List ClipCall) (s : ClipState) (k : Nat), k < s.newend →
      WellFormedAt vw s.solidsegs k → (∀ q ∈ calls, q.InView vw) →
      s.newend + calls.length < fuel →
      ∃ s' k', runCalls fuel s calls = some s' ∧ k' < s'.newend ∧
        s'.newend ≤ s.newend + calls.length ∧ WellFormedAt vw s'.solidsegs k' ∧
        ∀ c, CoveredBy s'.solidsegs k' c ↔
          CoveredBy s.solidsegs k c ∨ ∃ q ∈ calls, q.Occludes c := by
  intro calls
  induction calls with
  | nil =>
    intro s k hk hwf _ _
    exact ⟨s, k, rfl, hk, by simp, hwf, by simp⟩
  | cons q rest ih =>
    intro s k hk hwf hv hf
    simp only [List.length_cons] at hf
    obtain ⟨s1, k1, new, h1, h2, h3, h4, h5, _, _⟩ :=
      call_step vw s k q fuel hk hwf (hv q (List.mem_cons_self _ _)) hint (by omega)
    obtain ⟨s', k', g1, g2, g3, g4, g5⟩ :=
      ih s1 k1 h2 h4 (fun q hq => hv q (List.mem_cons_of_mem _ hq)) (by omega)
    refine ⟨s', k', by simp [runCalls, h1, g1], g2, by simp only [List.length_cons]; omega,
      g4, ?_⟩
    intro c
    rw [g5 c, h5 c]
    simp only [List.mem_cons, exists_eq_or_imp]
    tauto

/-! ### The claims about the Occlusion Interval List -/

/-- C2 (interval invariant): starting from `R_ClearClipSegs` with
`viewwidth >= 1`, any sequence of `R_ClipSolidWallSegment(first, last)` calls
with `0 <= first <= last < viewwidth` returns, and afterwards the entries of
`solidsegs` from index 0 up to and including the right sentinel (the first
entry whose `last` is `0x7fffffff`) each satisfy `first <= last` and every
consecutive pair satisfies `prev.last + 1 < next.first`. -/
theorem C2_interval_invariant (vw : Int) (s0 : ClipState) (calls : List (Int × Int))
    (fuel : Nat) (hvw : 1 ≤ vw) (hint : vw ≤ INT_MAX)
    (hcalls : ∀ p ∈ calls, 0 ≤ p.1 ∧ p.1 ≤ p.2 ∧ p.2 < vw)
    (hfuel : calls.length + 2 < fuel) :
    ∃ s k, runSolid fuel (R_ClearClipSegs vw s0) calls = some s ∧
      IsRightSentinel s.solidsegs k ∧
      (∀ i, i ≤ k → (s.solidsegs i).first ≤ (s.solidsegs i).last) ∧
      (∀ i, i < k → (s.solidsegs i).last + 1 < (s.solidsegs (i + 1)).first) := by
  obtain ⟨s, k, h1, _, _, h4, _⟩ :=
    runCalls_inv vw fuel hint (calls.map (fun p => ClipCall.solid p.1 p.2))
      (R_ClearClipSegs vw s0) 1 (by simp [R_ClearClipSegs]) (cleared_wf vw s0 hvw hint)
      (by
        intro q hq
        obtain ⟨p, hp, rfl⟩ := List.mem_map.1 hq
        exact hcalls p hp)
      (by simp [R_ClearClipSegs]; omega)
  obtain ⟨hR, _, _, _, hord, hap⟩ := h4
  exact ⟨s, k, by rw [runSolid_eq_runCalls]; exact h1, hR,
    fun i hi => hord i (by omega), hap⟩

/-- Instance of C2: a view 10 columns wide, solid calls `[1,1]`, `[3,3]`,
`[2,2]` (the last one merges the first two). -/
theorem C2_interval_invariant_witness :
    ∃ s k, runSolid 6 exampleCleared [(1, 1), (3, 3), (2, 2)] = some s ∧
      IsRightSentinel s.solidsegs k ∧
      (∀ i, i ≤ k → (s.solidsegs i).first ≤ (s.solidsegs i).last) ∧
      (∀ i, i < k → (s.solidsegs i).last + 1 < (s.solidsegs (i + 1)).first) :=
  C2_interval_invariant 10 _ [(1, 1), (3, 3), (2, 2)] 6 (by decide) (by decide)
    (by decide) (by decide)

/-- C3 (occlusion monotonicity): in a sequence of `R_ClipSolidWallSegment` and
`R_ClipPassWallSegment` calls that starts from a cleared list (each call with
`0 <= first <= last < viewwidth`), the `R_RenderWallRange(start, stop)` calls
issued by a call contain no column of the range `[f, l]` of an earlier
`R_ClipSolidWallSegment(f, l)` call of the sequence. -/
theorem C3_occlusion_monotonicity (vw : Int) (s0 : ClipState) (pre mid : List ClipCall)
    (f l : Int) (later : ClipCall) (fuel : Nat) (hvw : 1 ≤ vw) (hint : vw ≤ INT_MAX)
    (hvalid : ∀ q ∈ pre ++ ClipCall.solid f l :: mid ++ [later], q.InView vw)
    (hfuel : (pre ++ ClipCall.solid f l :: mid ++ [later]).length + 2 < fuel) :
    ∃ s1 s2 new,
      runCalls fuel (R_ClearClipSegs vw s0) (pre ++ ClipCall.solid f l :: mid) = some s1 ∧
      later.run fuel s1 = some s2 ∧ s2.rendered = s1.rendered ++ new ∧
      ∀ p ∈ new, ∀ c, p.1 ≤ c → c ≤ p.2 → ¬ (f ≤ c ∧ c ≤ l) := by
  simp only [List.length_append, List.length_cons, List.length_singleton,
    List.length_nil] at hfuel
  obtain ⟨s1, k1, h1, h2, h3, h4, h5⟩ :=
    runCalls_inv vw fuel hint (pre ++ ClipCall.solid f l :: mid)
      (R_ClearClipSegs vw s0) 1 (by simp [R_ClearClipSegs]) (cleared_wf vw s0 hvw hint)
      (by
        intro q hq
        apply hvalid q
        simp only [List.mem_append, List.mem_cons, List.mem_singleton] at hq ⊢
        tauto)
      (by simp [R_ClearClipSegs]; omega)
  simp only [List.length_append, List.length_cons] at h3
  have h3' : s1.newend ≤ 2 + (pre.length + (mid.length + 1)) := h3
  obtain ⟨s2, k2, new, g1, _, _, _, _, g6, g7⟩ :=
    call_step vw s1 k1 later fuel h2 h4 (hvalid later (by simp)) hint (by omega)
  refine ⟨s1, s2, new, h1, g1, g6, ?_⟩
  intro p hp c hc1 hc2 hfl
  apply g7 p hp c hc1 hc2
  rw [h5 c]
  exact Or.inr ⟨ClipCall.solid f l, by simp, hfl⟩

/-- Instance of C3: after solid `[2,5]` and a pass call, the solid call
`[0,9]` draws nothing on columns 2..5. -/
theorem C3_occlusion_monotonicity_witness :
    ∃ s1 s2 new,
      runCalls 6 exampleCleared ([] ++ ClipCall.solid 2 5 :: [ClipCall.pass 1 3]) = some s1 ∧
      (ClipCall.solid 0 9).run 6 s1 = some s2 ∧ s2.rendered = s1.rendered ++ new ∧
      ∀ p ∈ new, ∀ c, p.1 ≤ c → c ≤ p.2 → ¬ (2 ≤ c ∧ c ≤ 5) :=
  C3_occlusion_monotonicity 10 _ [] [ClipCall.pass 1 3] 2 5 (ClipCall.solid 0 9) 6
    (by decide) (by decide) (by decide) (by decide)

/-- C10 (solid merge postcondition): for every well-formed list and every
`0 <= first <= last < viewwidth`, `R_ClipSolidWallSegment(first, last)` returns
a well-formed list whose covered columns are exactly the previously covered
ones united with `first..last`. -/
theorem C10_solid_merge_postcondition (vw : Int) (s : ClipState) (first last : Int)
    (fuel : Nat) (hwf : WellFormed vw s) (h0 : 0 ≤ first) (hfl : first ≤ last)
    (hlv : last < vw) (hint : vw ≤ INT_MAX) (hfuel : s.newend < fuel) :
    ∃ s', R_ClipSolidWallSegment fuel s first last = some s' ∧ WellFormed vw s' ∧
      ∀ c, Covered s' c ↔ Covered s c ∨ (first ≤ c ∧ c ≤ last) := by
  obtain ⟨k, hk, hw⟩ := hwf
  obtain ⟨s', k', _, h1, h2, _, h4, h5, _, _⟩ :=
    solid_step vw s k first last fuel hk hw h0 hfl (by omega) hfuel
  refine ⟨s', h1, ⟨k', h2, h4⟩, ?_⟩
  intro c
  rw [covered_iff s' k' h2 h4.1 c, covered_iff s k hk hw.1 c]
  exact h5 c

/-- Instance of C10: the cleared 10-column list and the range `[2, 3]`. -/
theorem C10_solid_merge_postcondition_witness :
    ∃ s', R_ClipSolidWallSegment 3 exampleCleared 2 3 = some s' ∧ WellFormed 10 s' ∧
      ∀ c, Covered s' c ↔ Covered exampleCleared c ∨ (2 ≤ c ∧ c ≤ 3) :=
  C10_solid_merge_postcondition 10 exampleCleared 2 3 3 (by decide) (by decide) (by decide)
    (by decide) (by decide) (by decide)

/-! ### p_sight.c : blocking test and BSP crossing -/

theorem land_one_shiftLeft (x k : Nat) : (x &&& (1 <<< k) != 0) = x.testBit k := by
  rw [Nat.one_shiftLeft, Nat.and_two_pow]
  cases h : x.testBit k
  · simp
  · have : 2 ^ k ≠ 0 := by positivity
    simp [this]

theorem P_CrossesStrace_congr (E : SightEnv) (lv : Level) (s s' : SightState) (seg : seg_t)
    (h1 : s'.strace = s.strace) (h2 : s'.t2x = s.t2x) (h3 : s'.t2y = s.t2y) :
    P_CrossesStrace E lv s' seg = P_CrossesStrace E lv s seg := by
  unfold P_CrossesStrace
  rw [h1, h2, h3]

theorem P_CheckVerticalObstruction_frame (E : SightEnv) (lv : Level) (s : SightState)
    (seg : seg_t) (front back : sector_t) :
    (P_CheckVerticalObstruction E lv s seg front back).1
        = decide ((P_CheckVerticalObstruction E lv s seg front back).2.topslope
            ≤ (P_CheckVerticalObstruction E lv s seg front back).2.bottomslope) ∧
    (P_CheckVerticalObstruction E lv s seg front back).2.strace = s.strace ∧
    (P_CheckVerticalObstruction E lv s seg front back).2.t2x = s.t2x ∧
    (P_CheckVerticalObstruction E lv s seg front back).2.t2y = s.t2y ∧
    (P_CheckVerticalObstruction E lv s seg front back).2.examined = s.examined ∧
    (P_CheckVerticalObstruction E lv s seg front back).2.topslope ≤ s.topslope ∧
    s.bottomslope ≤ (P_CheckVerticalObstruction E lv s seg front back).2.bottomslope := by
  unfold P_CheckVerticalObstruction
  simp only
  split_ifs <;> simp only [] at * <;> refine ⟨trivial, trivial, trivial, trivial, trivial, ?_, ?_⟩ <;> omega

theorem P_BlocksStrace_frame (E : SightEnv) (lv : Level) (s s' : SightState) (seg : seg_t)
    (v : Bool) (h : P_BlocksStrace E lv s seg = .ok (v, s')) :
    s'.strace = s.strace ∧ s'.t2x = s.t2x ∧ s'.t2y = s.t2y ∧ s'.examined = s.examined := by
  unfold P_BlocksStrace at h
  split_ifs at h with c1 c2 c3
  · cases h; simp
  · cases h; simp
  · unfold P_TwoSidedBlocksStrace at h
    split at h
    · cases h
    · rename_i b _
      simp only at h
      split_ifs at h
      · cases h; simp
      · cases h; simp
      · cases h
        obtain ⟨_, g1, g2, g3, g4, _, _⟩ := P_CheckVerticalObstruction_frame E lv s seg
          (lv.sectors seg.frontsector) (lv.sectors b)
        exact ⟨g1, g2, g3, g4⟩
  · cases h; simp

theorem sightRun_trans (E : SightEnv) (lv : Level) (s s1 s2 : SightState) (res : Bool)
    (h1 : SightRun E lv s true s1) (h2 : SightRun E lv s1 res s2) : SightRun E lv s res s2 := by
  obtain ⟨a1, a2, a3, new1, a4, a5, a6, _⟩ := h1
  obtain ⟨b1, b2, b3, new2, b4, b5, b6, b7⟩ := h2
  refine ⟨by rw [b1, a1], by rw [b2, a2], by rw [b3, a3], new1 ++ new2,
    by rw [b4, a4, List.append_assoc], ?_, ?_, ?_⟩
  · intro r hr
    rcases List.mem_append.1 hr with hr | hr
    · exact a5 r hr
    · obtain ⟨seg, sa, sb, c1, c2, c3, c4, c5⟩ := b5 r hr
      exact ⟨seg, sa, sb, c1, by rw [c2, a1], by rw [c3, a2], by rw [c4, a3], c5⟩
  · intro hres r hr
    rcases List.mem_append.1 hr with hr | hr
    · exact a6 rfl r hr
    · exact b6 hres r hr
  · intro hres
    obtain ⟨init, r, c1, c2, c3⟩ := b7 hres
    refine ⟨new1 ++ init, r, by rw [c1, List.append_assoc], c2, ?_⟩
    intro q hq
    rcases List.mem_append.1 hq with hq | hq
    · exact a6 rfl q hq
    · exact c3 q hq

theorem crossSegs_run (E : SightEnv) (lv : Level) :
    ∀ (n : Nat) (idx : Int) (s : SightState) (res : Bool) (s' : SightState),
      crossSegs E lv n idx s = .ok (res, s') → SightRun E lv s res s' := by
  intro n
  induction n with
  | zero =>
    intro idx s res s' h
    simp only [crossSegs] at h
    cases h
    exact ⟨rfl, rfl, rfl, [], by simp, by simp, by simp, by simp⟩
  | succ m ih =>
    intro idx s res s' h
    simp only [crossSegs] at h
    cases hr : readAt lv.segs idx with
    | error e => rw [hr] at h; cases h
    | ok seg =>
      rw [hr] at h
      simp only at h
      by_cases hm : s.linevalid seg.linedef = s.validcount
      · rw [if_pos hm] at h
        exact ih _ _ _ _ h
      · rw [if_neg hm] at h
        cases hb : P_BlocksStrace E lv
            { s with linevalid := fun l =>
                if l = seg.linedef then s.validcount else s.linevalid l } seg with
        | error e => rw [hb] at h; cases h
        | ok p =>
          obtain ⟨v, s2⟩ := p
          rw [hb] at h
          obtain ⟨f1, f2, f3, f4⟩ := P_BlocksStrace_frame E lv _ _ _ _ hb
          have hrec : ∀ (t : SightState), t.strace = s.strace → t.t2x = s.t2x →
              t.t2y = s.t2y → RecordOK E lv t
                { seg := idx, blocked := v, topslope := s2.topslope,
                  bottomslope := s2.bottomslope } := by
            intro t t1 t2 t3
            exact ⟨seg, _, s2, hr, by rw [t1], by rw [t2], by rw [t3], hb, rfl, rfl⟩
          cases v with
          | true =>
            simp only at h
            cases h
            refine ⟨f1, f2, f3, [(⟨idx, true, s2.topslope, s2.bottomslope⟩ : ExamRecord)], ?_, ?_, by simp, ?_⟩
            · show s2.examined ++ _ = s.examined ++ _
              rw [f4]
            · intro r hr2
              simp only [List.mem_singleton] at hr2
              subst hr2
              exact hrec s rfl rfl rfl
            · intro _
              exact ⟨[], ⟨idx, true, s2.topslope, s2.bottomslope⟩, by simp, rfl, by simp⟩
          | false =>
            simp only at h
            have h3 := ih _ _ _ _ h
            refine sightRun_trans E lv s _ s' res ?_ h3
            refine ⟨f1, f2, f3, [(⟨idx, false, s2.topslope, s2.bottomslope⟩ : ExamRecord)], ?_, ?_, by simp, by simp⟩
            · show s2.examined ++ _ = s.examined ++ _
              rw [f4]
            · intro r hr2
              simp only [List.mem_singleton] at hr2
              subst hr2
              exact hrec s rfl rfl rfl

theorem P_CrossSubsector_run (E : SightEnv) (lv : Level) (s : SightState) (num : Int)
    (res : Bool) (s' : SightState) (h : P_CrossSubsector E lv s num = .ok (res, s')) :
    SightRun E lv s res s' := by
  unfold P_CrossSubsector at h
  split_ifs at h
  split at h
  · cases h
  · exact crossSegs_run E lv _ _ _ _ _ h

theorem P_CrossBSPNode_run (E : SightEnv) (lv : Level) :
    ∀ (fuel : Nat) (s : SightState) (bspnum : Int) (res : Bool) (s' : SightState),
      P_CrossBSPNode E lv fuel s bspnum = .ok (res, s') → SightRun E lv s res s' := by
  intro fuel
  induction fuel with
  | zero => intro s bspnum res s' h; simp [P_CrossBSPNode] at h
  | succ n ih =>
    intro s bspnum res s' h
    simp only [P_CrossBSPNode] at h
    split_ifs at h with c1 c2
    · exact P_CrossSubsector_run E lv _ _ _ _ h
    · exact P_CrossSubsector_run E lv _ _ _ _ h
    · split at h
      · cases h
      · rename_i bsp _
        split at h
        · cases h
        · rename_i s1 h1
          cases h
          exact ih _ _ _ _ h1
        · rename_i s1 h1
          have r1 := ih _ _ _ _ h1
          split_ifs at h <;>
            first
            | (cases h; exact r1)
            | exact sightRun_trans E lv s s1 s' res r1 (ih _ _ _ _ h)

theorem P_SightUnobstructed_run (E : SightEnv) (lv : Level) (fuel : Nat) (s : SightState)
    (t1 t2 : mobj_t) (res : Bool) (s' : SightState)
    (h : P_SightUnobstructed E lv fuel s t1 t2 = .ok (res, s')) :
    ∃ new, s'.examined = s.examined ++ new ∧ (∀ r ∈ new, RecordOK E lv s' r) ∧
      (res = true → ∀ r ∈ new, r.blocked = false) ∧
      (res = false → ∃ init r, new = init ++ [r] ∧ r.blocked = true ∧
        ∀ q ∈ init, q.blocked = false) := by
  unfold P_SightUnobstructed at h
  obtain ⟨a1, a2, a3, new, a4, a5, a6, a7⟩ := P_CrossBSPNode_run E lv _ _ _ _ _ h
  refine ⟨new, a4, ?_, a6, a7⟩
  intro r hr
  obtain ⟨seg, sa, sb, c1, c2, c3, c4, c5⟩ := a5 r hr
  exact ⟨seg, sa, sb, c1, by rw [c2, a1], by rw [c3, a2], by rw [c4, a3], c5⟩

/-- In a returned query, a log entry whose verdict is "blocked" is the last
entry, and the query returned false. -/
theorem blocked_record_last (res : Bool) (new : List ExamRecord) (r : ExamRecord)
    (hr : r ∈ new) (hb : r.blocked = true)
    (h6 : res = true → ∀ r ∈ new, r.blocked = false)
    (h7 : res = false → ∃ init r, new = init ++ [r] ∧ r.blocked = true ∧
      ∀ q ∈ init, q.blocked = false) :
    res = false ∧ ∃ init, new = init ++ [r] := by
  cases res with
  | true =>
    have := h6 rfl r hr
    rw [hb] at this
    cases this
  | false =>
    obtain ⟨init, r0, c1, _, c3⟩ := h7 rfl
    refine ⟨rfl, init, ?_⟩
    rw [c1] at hr
    rcases List.mem_append.1 hr with hr | hr
    · have := c3 r hr
      rw [hb] at this
      cases this
    · simp only [List.mem_singleton] at hr
      rw [hr]; exact c1

/-- C1 (fast-reject soundness): if bit `(s1*numsectors + s2) & 7` of byte
`rejectmatrix[(s1*numsectors + s2) >> 3]` is set, where `s1`, `s2` are the
sector indices of the two observers, `P_CheckSight(t1, t2)` returns false
under either game version and leaves the whole scratch state (validcount,
topslope, bottomslope, the trace, every linedef mark) as it was. -/
theorem C1_fast_reject_soundness (E : SightEnv) (lv : Level) (fuel : Nat) (s : SightState)
    (t1 t2 : mobj_t)
    (hbit : Nat.testBit
      (lv.rejectmatrix
        (((t1.subsector.sector : Int) * lv.numsectors + (t2.subsector.sector : Int)) >>> 3))
      ((((t1.subsector.sector : Int) * lv.numsectors + (t2.subsector.sector : Int)) % 8).toNat)
      = true) :
    P_CheckSight E lv fuel s t1 t2 = .ok (false, s) := by
  unfold P_CheckSight
  have : P_CheckRejectTable lv t1 t2 = true := by
    unfold P_CheckRejectTable
    simp only
    rw [land_one_shiftLeft]
    exact hbit
  rw [if_pos this]

/-- Instance of C1: a reject table with every bit set. -/
theorem C1_fast_reject_soundness_witness :
    P_CheckSight exEnv exLevelRejectAll 3 exSight exLooker (exTarget 3670016)
      = .ok (false, exSight) :=
  C1_fast_reject_soundness exEnv exLevelRejectAll 3 exSight exLooker (exTarget 3670016)
    (by decide)

/-- The part of C6 that the code does not do: in the example level whose only
seg is a two-sided line between two rooms of equal heights, a target of
height 0 gives a cone with `topslope = bottomslope`; the trace crosses the
(unmarked) line with the cone collapsed, yet the seg does not block and the
query returns true. -/
theorem C6_counterexample :
    P_IsTwoSided exEnv (exLevel 1) (exSeg 1) = true ∧
    exSight.linevalid (exSeg 1).linedef ≠ fx (exSight.validcount + 1) ∧
    afterQuery (fun s => P_CrossesStrace exEnv (exLevel 1) s (exSeg 1))
      (P_SightUnobstructed exEnv (exLevel 1) 3 exSight exLooker (exTarget 0)) = some true ∧
    examinedBy (P_SightUnobstructed exEnv (exLevel 1) 3 exSight exLooker (exTarget 0))
      = some [⟨0, false, -2752512, -2752512⟩] ∧
    verdict (P_SightUnobstructed exEnv (exLevel 1) 3 exSight exLooker (exTarget 0))
      = some true := by
  decide

/-- The part of C7 that the code does not do: the example seg between two
sectors that both have floor = ceiling = 0 is flagged two-sided, crosses the
trace and has a fully closed opening, yet `P_BlocksStrace` returns false
("no wall to block sight with"). -/
theorem C7_counterexample :
    P_IsTwoSided exEnv (exLevel 2) (exSeg 2) = true ∧
    P_CrossesStrace exEnv (exLevel 2) (exSightTraced 3670016) (exSeg 2) = true ∧
    (exSeg 2).backsector = some 4 ∧
    max (exSectors (exSeg 2).frontsector).floorheight (exSectors 4).floorheight
      ≥ min (exSectors (exSeg 2).frontsector).ceilingheight (exSectors 4).ceilingheight ∧
    verdict (P_BlocksStrace exEnv (exLevel 2) (exSightTraced 3670016) (exSeg 2))
      = some false := by
  decide

/-- C7 as the code has it (a closed two-sided line blocks): a seg flagged
two-sided that crosses the trace, whose front and back sectors differ in floor
or ceiling height and whose vertical opening is fully closed (the higher floor
is at or above the lower ceiling), makes `P_BlocksStrace` return true, with the
cone left as it was. -/
theorem C7_closed_two_sided_blocks (E : SightEnv) (lv : Level) (s : SightState) (seg : seg_t)
    (b : Nat) (htwo : P_IsTwoSided E lv seg = true)
    (hcross : P_CrossesStrace E lv s seg = true) (hb : seg.backsector = some b)
    (hclosed : max (lv.sectors seg.frontsector).floorheight (lv.sectors b).floorheight
      ≥ min (lv.sectors seg.frontsector).ceilingheight (lv.sectors b).ceilingheight)
    (hdiff : (lv.sectors seg.frontsector).floorheight ≠ (lv.sectors b).floorheight
      ∨ (lv.sectors seg.frontsector).ceilingheight ≠ (lv.sectors b).ceilingheight) :
    P_BlocksStrace E lv s seg = .ok (true, s) := by
  have hwall : P_HasSightBlockingWall (lv.sectors seg.frontsector) (lv.sectors b) = true := by
    unfold P_HasSightBlockingWall
    rcases hdiff with h | h <;> simp [h]
  have hdoor : P_IsClosedDoor (lv.sectors seg.frontsector) (lv.sectors b) = true := by
    unfold P_IsClosedDoor P_CalculateOpeningSpace
    simp only [decide_eq_true_eq, ge_iff_le]
    rw [ge_iff_le, min_def, max_def] at hclosed
    split_ifs at hclosed ⊢ <;> omega
  unfold P_BlocksStrace
  simp only [hcross, Bool.not_true, Bool.false_eq_true, if_false, htwo, if_true]
  split_ifs with c2
  · rfl
  · unfold P_TwoSidedBlocksStrace
    simp [hb, hwall, hdoor]

/-- Instance of C7: the example line between room 0 and a zero-height
sector, seen along the example trace. -/
theorem C7_closed_two_sided_blocks_witness :
    P_BlocksStrace exEnv (exLevel 4) (exSightTraced 3670016) (exSeg 4)
      = .ok (true, exSightTraced 3670016) :=
  C7_closed_two_sided_blocks exEnv (exLevel 4) (exSightTraced 3670016) (exSeg 4) 3
    (by decide) (by decide) (by decide) (by decide) (by decide)

/-! ### r_bsp.c : lines and the BSP walk -/

theorem liftClip_ok (s s' : RenderState) (o : Option ClipState)
    (h : liftClip s o = .ok s') : ∃ c, o = some c ∧ s' = { s with clip := c } := by
  cases o with
  | none => simp [liftClip] at h
  | some c =>
    simp only [liftClip] at h
    exact ⟨c, rfl, (Except.ok.inj h).symm⟩

theorem pass_frame (fuel : Nat) (c c' : ClipState) (first last : Int)
    (h : R_ClipPassWallSegment fuel c first last = some c') :
    c'.solidsegs = c.solidsegs ∧ c'.newend = c.newend := by
  unfold R_ClipPassWallSegment at h
  simp only at h
  repeat' split at h
  all_goals first | (cases h; exact ⟨rfl, rfl⟩) | cases h

theorem R_RenderLine_visited (V : View) (lv : Level) (fuel : Nat) (s s' : RenderState)
    (line : seg_t) (h : R_RenderLine V lv fuel s line = .ok s') : s'.visited = s.visited := by
  unfold R_RenderLine at h
  simp only at h
  repeat' split at h
  all_goals first
    | (cases h; rfl)
    | (obtain ⟨c, _, rfl⟩ := liftClip_ok _ _ _ h; rfl)
    | cases h

theorem renderLines_visited (V : View) (lv : Level) (fuel : Nat) :
    ∀ (n : Nat) (i : Int) (s s' : RenderState),
      renderLines V lv fuel n i s = .ok s' → s'.visited = s.visited := by
  intro n
  induction n with
  | zero => intro i s s' h; simp only [renderLines] at h; cases h; rfl
  | succ m ih =>
    intro i s s' h
    simp only [renderLines] at h
    split at h
    · cases h
    · split at h
      · cases h
      · rename_i s1 h1
        rw [ih _ _ _ h, R_RenderLine_visited V lv fuel _ _ _ h1]

theorem R_RenderSubSector_visited (V : View) (lv : Level) (fuel : Nat) (s s' : RenderState)
    (num : Int) (h : R_RenderSubSector V lv fuel s num = .ok s') :
    s'.visited = s.visited ++ [num] := by
  unfold R_RenderSubSector at h
  split_ifs at h
  split at h
  · cases h
  · simp only at h
    unfold R_RenderSubSectorLines at h
    simp only at h
    split at h
    · cases h
    · rename_i s1 h1
      split_ifs at h
      cases h
      rw [renderLines_visited V lv fuel _ _ _ _ h1]
      unfold R_SetPlanes
      simp only
      split_ifs <;> rfl

theorem R_RenderBSPNode_visited (V : View) (lv : Level) :
    ∀ (fuel : Nat) (s s' : RenderState) (bsp_node : Int),
      R_RenderBSPNode V lv fuel s bsp_node = .ok s' → ∃ l, s'.visited = s.visited ++ l := by
  intro fuel
  induction fuel with
  | zero => intro s s' n h; simp [R_RenderBSPNode] at h
  | succ m ih =>
    intro s s' n h
    simp only [R_RenderBSPNode] at h
    split_ifs at h with c1 c2
    · exact ⟨_, R_RenderSubSector_visited V lv m _ _ _ h⟩
    · exact ⟨_, R_RenderSubSector_visited V lv m _ _ _ h⟩
    · split at h
      · cases h
      · split at h
        · cases h
        · rename_i s1 h1
          obtain ⟨l1, e1⟩ := ih _ _ _ h1
          split at h
          · cases h
          · obtain ⟨l2, e2⟩ := ih _ _ _ h
            exact ⟨l1 ++ l2, by rw [e2, e1, List.append_assoc]⟩
          · cases h
            exact ⟨l1, e1⟩

/-- C8 (solid classification): a seg that survives the angle culling of
`R_RenderLine` with screen columns `x1 != x2` is handed to
`R_ClipSolidWallSegment(x1, x2 - 1)` if it has no back sector, or the back
ceiling is at or below the front floor, or the back floor is at or above the
front ceiling; for every other such seg `R_RenderLine` makes no solid call
(at most the call `R_ClipPassWallSegment(x1, x2 - 1)`) and leaves `solidsegs`
and `newend` unchanged. -/
theorem C8_solid_classification (V : View) (lv : Level) (fuel : Nat) (s : RenderState)
    (line : seg_t) (a1 a2 : Nat)
    (hspan : ¬ ang ((V.R_PointToAngle line.v1.x line.v1.y : Int)
      - (V.R_PointToAngle line.v2.x line.v2.y : Int)) ≥ ANG180)
    (hclip : clipToViewEdges V.clipangle
      (ang ((V.R_PointToAngle line.v1.x line.v1.y : Int)
        - (V.R_PointToAngle line.v2.x line.v2.y : Int)))
      (ang ((V.R_PointToAngle line.v1.x line.v1.y : Int) - (V.viewangle : Int)))
      (ang ((V.R_PointToAngle line.v2.x line.v2.y : Int) - (V.viewangle : Int)))
      = some (a1, a2))
    (hne : angleToColumn V a1 ≠ angleToColumn V a2) :
    (SolidClass lv s line →
      R_RenderLine V lv fuel s line
        = liftClip
            { s with
              curline := some line
              rw_angle1 := V.R_PointToAngle line.v1.x line.v1.y
              backsector := line.backsector
              clipcalls := s.clipcalls
                ++ [ClipCall.solid (angleToColumn V a1) (angleToColumn V a2 - 1)] }
            (R_ClipSolidWallSegment fuel s.clip (angleToColumn V a1)
              (angleToColumn V a2 - 1))) ∧
    (¬ SolidClass lv s line → ∀ s', R_RenderLine V lv fuel s line = .ok s' →
      s'.clip.solidsegs = s.clip.solidsegs ∧ s'.clip.newend = s.clip.newend ∧
      (s'.clipcalls = s.clipcalls ∨ s'.clipcalls = s.clipcalls
        ++ [ClipCall.pass (angleToColumn V a1) (angleToColumn V a2 - 1)])) := by
  unfold SolidClass
  cases hb : line.backsector with
  | none =>
    refine ⟨fun _ => ?_, fun h => absurd trivial h⟩
    unfold R_RenderLine
    simp only [hspan, if_false, hclip, hne, hb, R_IsWall, Option.isNone_none, if_true]
  | some b =>
    simp only
    constructor
    · intro hsolid
      have hdoor : R_IsClosedDoor lv
          { s with curline := some line, rw_angle1 := V.R_PointToAngle line.v1.x line.v1.y,
                   backsector := some b } b = true := by
        unfold R_IsClosedDoor
        simp only [Bool.or_eq_true, decide_eq_true_eq]
        exact hsolid
      unfold R_RenderLine
      simp only [hspan, if_false, hclip, hne, hb, R_IsWall, Option.isNone_some,
        Bool.false_eq_true, hdoor, if_true]
    · intro hsolid s' h
      have hdoor : R_IsClosedDoor lv
          { s with curline := some line, rw_angle1 := V.R_PointToAngle line.v1.x line.v1.y,
                   backsector := some b } b = false := by
        unfold R_IsClosedDoor
        simp only [Bool.or_eq_false_iff, decide_eq_false_iff_not]
        exact not_or.1 hsolid
      unfold R_RenderLine at h
      simp only [hspan, if_false, hclip, hne, hb, R_IsWall, Option.isNone_some,
        Bool.false_eq_true, hdoor] at h
      split_ifs at h
      · obtain ⟨c, hc, rfl⟩ := liftClip_ok _ _ _ h
        obtain ⟨g1, g2⟩ := pass_frame fuel _ _ _ _ hc
        exact ⟨g1, g2, Or.inr rfl⟩
      · cases h
        exact ⟨rfl, rfl, Or.inl rfl⟩

/-- Instance of C8: the example seg in front of the example view, once as a
one-sided wall. -/
theorem C8_solid_classification_witness :
    (SolidClass (exLevel 0) (exRender 0) (exRenderSeg 0 none) →
      R_RenderLine exView (exLevel 0) 5 (exRender 0) (exRenderSeg 0 none)
        = liftClip
            { exRender 0 with
              curline := some (exRenderSeg 0 none)
              rw_angle1 := exView.R_PointToAngle (exRenderSeg 0 none).v1.x (exRenderSeg 0 none).v1.y
              backsector := (exRenderSeg 0 none).backsector
              clipcalls := (exRender 0).clipcalls
                ++ [ClipCall.solid (angleToColumn exView 0x10000000)
                      (angleToColumn exView 0xf0000000 - 1)] }
            (R_ClipSolidWallSegment 5 (exRender 0).clip (angleToColumn exView 0x10000000)
              (angleToColumn exView 0xf0000000 - 1))) ∧
    (¬ SolidClass (exLevel 0) (exRender 0) (exRenderSeg 0 none) →
      ∀ s', R_RenderLine exView (exLevel 0) 5 (exRender 0) (exRenderSeg 0 none) = .ok s' →
      s'.clip.solidsegs = (exRender 0).clip.solidsegs ∧
      s'.clip.newend = (exRender 0).clip.newend ∧
      (s'.clipcalls = (exRender 0).clipcalls ∨ s'.clipcalls = (exRender 0).clipcalls
        ++ [ClipCall.pass (angleToColumn exView 0x10000000)
              (angleToColumn exView 0xf0000000 - 1)])) :=
  C8_solid_classification exView (exLevel 0) 5 (exRender 0) (exRenderSeg 0 none)
    0x10000000 0xf0000000 (by decide) (by decide) (by decide)

/-- The part of C9 that the code does not do. First seg: two-sided, front
and back sector with the same floor height, ceiling height and light level,
no mid-texture, but different floor flats: `R_RenderLine` calls
`R_ClipPassWallSegment(4, 11)` and columns 4..11 are emitted. Second seg:
front and back sector both with floor = ceiling = 0, same light and flats, no
mid-texture: `R_RenderLine` calls `R_ClipSolidWallSegment(4, 11)`. -/
theorem C9_counterexample :
    ((exRenderSeg 0 (some 1)).backsector = some 1 ∧
      (exSectors 1).floorheight = (exSectors 0).floorheight ∧
      (exSectors 1).ceilingheight = (exSectors 0).ceilingheight ∧
      (exSectors 1).lightlevel = (exSectors 0).lightlevel ∧
      (exRenderSeg 0 (some 1)).sidedef.midtexture = 0 ∧
      clipcallsOf (R_RenderLine exView (exLevel 0) 5 (exRender 0) (exRenderSeg 0 (some 1)))
        = some [ClipCall.pass 4 11] ∧
      renderedOf (R_RenderLine exView (exLevel 0) 5 (exRender 0) (exRenderSeg 0 (some 1)))
        = some [(4, 11)]) ∧
    ((exRenderSeg 3 (some 4)).backsector = some 4 ∧
      (exSectors 4).floorheight = (exSectors 3).floorheight ∧
      (exSectors 4).ceilingheight = (exSectors 3).ceilingheight ∧
      (exSectors 4).lightlevel = (exSectors 3).lightlevel ∧
      (exRenderSeg 3 (some 4)).sidedef.midtexture = 0 ∧
      clipcallsOf (R_RenderLine exView (exLevel 0) 5 (exRender 3) (exRenderSeg 3 (some 4)))
        = some [ClipCall.solid 4 11]) := by
  decide

/-- C9 as the code has it (trigger-line skip): for a two-sided seg whose back
sector and the current front sector have identical floor height, identical
ceiling height, identical floor and ceiling flats and identical light level,
with the ceiling above the floor, and whose sidedef has no mid-texture,
`R_RenderLine` returns without calling `R_ClipSolidWallSegment` or
`R_ClipPassWallSegment`: the call log, the `R_RenderWallRange` log and the
Occlusion Interval List are unchanged. -/
theorem C9_trigger_line_skip (V : View) (lv : Level) (fuel : Nat) (s : RenderState)
    (line : seg_t) (b : Nat) (hb : line.backsector = some b)
    (hfloor : (lv.sectors b).floorheight = (lv.sectors s.frontsector).floorheight)
    (hceil : (lv.sectors b).ceilingheight = (lv.sectors s.frontsector).ceilingheight)
    (hfpic : (lv.sectors b).floorpic = (lv.sectors s.frontsector).floorpic)
    (hcpic : (lv.sectors b).ceilingpic = (lv.sectors s.frontsector).ceilingpic)
    (hlight : (lv.sectors b).lightlevel = (lv.sectors s.frontsector).lightlevel)
    (hopen : (lv.sectors s.frontsector).floorheight < (lv.sectors s.frontsector).ceilingheight)
    (hmid : line.sidedef.midtexture = 0) :
    ∃ s', R_RenderLine V lv fuel s line = .ok s' ∧ s'.clipcalls = s.clipcalls ∧
      s'.clip = s.clip := by
  have hdoor : ∀ t : RenderState, t.frontsector = s.frontsector →
      R_IsClosedDoor lv t b = false := by
    intro t ht
    unfold R_IsClosedDoor
    simp only [Bool.or_eq_false_iff, decide_eq_false_iff_not, ht]
    constructor <;> omega
  have hwin : ∀ t : RenderState, t.frontsector = s.frontsector →
      R_IsWindow lv t b = false := by
    intro t ht
    unfold R_IsWindow
    simp [ht, hfloor, hceil]
  have hempty : ∀ t : RenderState, t.frontsector = s.frontsector →
      R_IsEmptyLine lv t line b = true := by
    intro t ht
    unfold R_IsEmptyLine
    simp [ht, hfpic, hcpic, hlight, hmid]
  unfold R_RenderLine
  simp only [hb, R_IsWall, Option.isNone_some, Bool.false_eq_true, if_false, hdoor, hwin,
    hempty, Bool.not_true, Bool.or_self]
  split_ifs with c1
  · exact ⟨_, rfl, rfl, rfl⟩
  · split
    · exact ⟨_, rfl, rfl, rfl⟩
    · split_ifs with c2
      · exact ⟨_, rfl, rfl, rfl⟩
      · exact ⟨_, rfl, rfl, rfl⟩

/-- Instance of C9: the example seg between two rooms that are alike. -/
theorem C9_trigger_line_skip_witness :
    ∃ s', R_RenderLine exView (exLevel 0) 5 (exRender 0) (exRenderSeg 0 (some 0)) = .ok s' ∧
      s'.clipcalls = (exRender 0).clipcalls ∧ s'.clip = (exRender 0).clip :=
  C9_trigger_line_skip exView (exLevel 0) 5 (exRender 0) (exRenderSeg 0 (some 0)) 0
    (by decide) (by decide) (by decide) (by decide) (by decide) (by decide) (by decide)
    (by decide)

/-! ### Second group of claims : the Occlusion Interval List -/

/-- C17 (fully closed list): after any sequence of `R_ClipSolidWallSegment`
calls from a cleared list (each with `0 <= first <= last < viewwidth`) whose
ranges together cover every column `0..viewwidth-1`, the list has collapsed
to a single range: `solidsegs[0]` is `[-0x7fffffff, 0x7fffffff]` and is itself
the right sentinel. -/
theorem C17_fully_closed_list (vw : Int) (s0 : ClipState) (calls : List (Int × Int))
    (fuel : Nat) (hvw : 1 ≤ vw) (hint : vw ≤ INT_MAX)
    (hcalls : ∀ p ∈ calls, 0 ≤ p.1 ∧ p.1 ≤ p.2 ∧ p.2 < vw)
    (hcover : ∀ c, 0 ≤ c → c < vw → ∃ p ∈ calls, p.1 ≤ c ∧ c ≤ p.2)
    (hfuel : calls.length + 2 < fuel) :
    ∃ s, runSolid fuel (R_ClearClipSegs vw s0) calls = some s ∧
      s.solidsegs 0 = { first := -0x7fffffff, last := 0x7fffffff } ∧
      IsRightSentinel s.solidsegs 0 := by
  obtain ⟨s, k, h1, _, _, h4, h5⟩ :=
    runCalls_inv vw fuel hint (calls.map (fun p => ClipCall.solid p.1 p.2))
      (R_ClearClipSegs vw s0) 1 (by simp [R_ClearClipSegs]) (cleared_wf vw s0 hvw hint)
      (by
        intro q hq
        obtain ⟨p, hp, rfl⟩ := List.mem_map.1 hq
        exact hcalls p hp)
      (by simp [R_ClearClipSegs]; omega)
  have hwf := h4
  obtain ⟨⟨hR, hRf⟩, h0f, h0l, hkf, hord, hap⟩ := h4
  have hk0 : k = 0 := by
    by_contra hne
    have hfm := first_mono s.solidsegs k hord hap 1 k (by omega) (le_refl _)
    have hgap := hap 0 (by omega)
    obtain ⟨p, hp, hp1, hp2⟩ := hcover ((s.solidsegs 0).last + 1) (by omega)
      (by simp only [Nat.zero_add] at hgap; omega)
    have hcov : CoveredBy s.solidsegs k ((s.solidsegs 0).last + 1) := by
      rw [h5]
      exact Or.inr ⟨ClipCall.solid p.1 p.2, List.mem_map.2 ⟨p, hp, rfl⟩, hp1, hp2⟩
    exact gap_not_covered s.solidsegs k hord hap 0 (by omega) _ (by omega) (by omega) hcov
  subst hk0
  refine ⟨s, by rw [runSolid_eq_runCalls]; exact h1, ?_, ⟨hR, hRf⟩⟩
  have hmaxv : INT_MAX = 2147483647 := rfl
  have e : s.solidsegs 0 = ⟨(s.solidsegs 0).first, (s.solidsegs 0).last⟩ := rfl
  rw [e, h0f, hR, hmaxv]

/-- Instance of C17: a view 10 columns wide closed by the solid calls
`[0,4]`, `[7,9]`, `[3,8]`. -/
theorem C17_fully_closed_list_witness :
    ∃ s, runSolid 6 exampleCleared [(0, 4), (7, 9), (3, 8)] = some s ∧
      s.solidsegs 0 = { first := -0x7fffffff, last := 0x7fffffff } ∧
      IsRightSentinel s.solidsegs 0 :=
  C17_fully_closed_list 10 _ [(0, 4), (7, 9), (3, 8)] 6 (by decide) (by decide) (by decide)
    (by
      intro c h0 h1
      have : c ≤ 4 ∨ (5 ≤ c ∧ c ≤ 8) ∨ c = 9 := by omega
      rcases this with h | h | h
      · exact ⟨(0, 4), by simp, h0, h⟩
      · exact ⟨(3, 8), by simp, by show (3 : Int) ≤ c; omega, h.2⟩
      · exact ⟨(7, 9), by simp, by show (7 : Int) ≤ c; omega, by show c ≤ (9 : Int); omega⟩)
    (by decide)

/-! ### Second group of claims : fatal errors -/

theorem readAt_error {α : Type} (xs : List α) (i : Int) (e : Halt)
    (h : readAt xs i = .error e) : e = .badAccess := by
  unfold readAt at h
  split_ifs at h
  · cases h; rfl
  · split at h
    · cases h
    · cases h; rfl

theorem readAt_ok_of_range {α : Type} (xs : List α) (i : Int) (h0 : 0 ≤ i)
    (h1 : i < xs.length) : ∃ x, readAt xs i = .ok x ∧ x ∈ xs := by
  unfold readAt
  have hlt : i.toNat < xs.length := by omega
  have hn : ¬ i < 0 := by omega
  rw [if_neg hn]
  cases hg : xs.get? i.toNat with
  | none =>
    rw [List.get?_eq_none] at hg
    omega
  | some x => exact ⟨x, rfl, List.get?_mem hg⟩

theorem liftClip_error (s : RenderState) (o : Option ClipState) (e : Halt)
    (h : liftClip s o = .error e) : e = .stuck := by
  cases o with
  | none => simp only [liftClip] at h; cases h; rfl
  | some c => simp [liftClip] at h

theorem R_RenderLine_error (V : View) (lv : Level) (fuel : Nat) (s : RenderState)
    (line : seg_t) (e : Halt) (h : R_RenderLine V lv fuel s line = .error e) :
    e = .stuck ∨ e = .badAccess := by
  unfold R_RenderLine at h
  simp only at h
  repeat' split at h
  all_goals first
    | (cases h; done)
    | exact Or.inl (liftClip_error _ _ _ h)
    | (cases h; exact Or.inr rfl)

theorem renderLines_error (V : View) (lv : Level) (fuel : Nat) :
    ∀ (n : Nat) (i : Int) (s : RenderState) (e : Halt),
      renderLines V lv fuel n i s = .error e → e = .stuck ∨ e = .badAccess := by
  intro n
  induction n with
  | zero => intro i s e h; simp [renderLines] at h
  | succ m ih =>
    intro i s e h
    simp only [renderLines] at h
    split at h
    · rename_i e1 h1
      cases h
      exact Or.inr (readAt_error _ _ _ h1)
    · split at h
      · rename_i e1 h1
        cases h
        exact R_RenderLine_error V lv fuel _ _ _ h1
      · exact ih _ _ _ h

theorem P_BlocksStrace_error (E : SightEnv) (lv : Level) (s : SightState) (seg : seg_t)
    (e : Halt) (h : P_BlocksStrace E lv s seg = .error e) : e = .badAccess := by
  unfold P_BlocksStrace at h
  split_ifs at h
  unfold P_TwoSidedBlocksStrace at h
  split at h
  · cases h; rfl
  · simp only at h
    split_ifs at h

theorem crossSegs_error (E : SightEnv) (lv : Level) :
    ∀ (n : Nat) (idx : Int) (s : SightState) (e : Halt),
      crossSegs E lv n idx s = .error e → e = .badAccess := by
  intro n
  induction n with
  | zero => intro idx s e h; simp [crossSegs] at h
  | succ m ih =>
    intro idx s e h
    simp only [crossSegs] at h
    split at h
    · rename_i e1 h1
      cases h
      exact readAt_error _ _ _ h1
    · split_ifs at h
      · exact ih _ _ _ h
      · split at h
        · rename_i e1 h1
          cases h
          exact P_BlocksStrace_error E lv _ _ _ h1
        · cases h
        · exact ih _ _ _ h

/-- The part of C13 that the code does not do: in a 320-column frame whose
list holds 32 ranges, a subsector with one one-sided seg on columns 80..239
brings `newend - solidsegs` to 33, far below `MAXSEGS = 161`, and
`R_RenderSubSectorLines` reports the solidsegs overflow all the same. -/
theorem C13_counterexample :
    exRenderCrowded.clip.newend = 32 ∧
    newendOf (renderLines exViewWide exLevelRender 40 1 0 exRenderCrowded) = some 33 ∧
    33 ≤ MAXSEGS ∧
    haltOf (R_RenderSubSectorLines exViewWide exLevelRender 40 exRenderCrowded
        { sector := 0, numlines := 1, firstline := 0 })
      = some (Halt.I_Error
          "R_RenderSubSector: solidsegs overflow (vanilla may crash here)\n") := by
  decide

/-- C13 as the code has it (capacity violation): once the segs of the
subsector have been processed, `R_RenderSubSectorLines` reports the fatal
solidsegs-overflow error exactly when the offset `newend - solidsegs` (the
index of the first free cell, which is not always the number of ranges in
the list) exceeds 32, the size the array had in the original engine, whatever
`MAXSEGS` is; for an offset of 32 or less it returns normally. -/
theorem C13_capacity_violation (V : View) (lv : Level) (fuel : Nat) (s s1 : RenderState)
    (sub_sector : subsector_t)
    (hlines : renderLines V lv fuel
      (sub_sector.firstline + sub_sector.numlines - 1 - sub_sector.firstline + 1).toNat
      sub_sector.firstline s = .ok s1) :
    (32 < s1.clip.newend →
      R_RenderSubSectorLines V lv fuel s sub_sector
        = .error (.I_Error
            "R_RenderSubSector: solidsegs overflow (vanilla may crash here)\n")) ∧
    (s1.clip.newend ≤ 32 → R_RenderSubSectorLines V lv fuel s sub_sector = .ok s1) := by
  unfold R_RenderSubSectorLines
  simp only [hlines]
  constructor
  · intro h
    rw [if_pos h]
  · intro h
    rw [if_neg (by omega)]

/-- Instance of C13: a 320-column frame whose list holds thirty one-column
ranges between the sentinels, `newend - solidsegs = 32`; the one-sided seg on
columns 80..239 of the subsector leaves `newend - solidsegs = 33`, and the
subsector ends in the fatal error. -/
theorem C13_capacity_violation_witness :
    (stateOr exRenderCrowded
      (renderLines exViewWide exLevelRender 40 1 0 exRenderCrowded)).clip.newend = 33 ∧
    ((32 < (stateOr exRenderCrowded
        (renderLines exViewWide exLevelRender 40 1 0 exRenderCrowded)).clip.newend →
      R_RenderSubSectorLines exViewWide exLevelRender 40 exRenderCrowded
          { sector := 0, numlines := 1, firstline := 0 }
        = .error (.I_Error
            "R_RenderSubSector: solidsegs overflow (vanilla may crash here)\n")) ∧
    ((stateOr exRenderCrowded
        (renderLines exViewWide exLevelRender 40 1 0 exRenderCrowded)).clip.newend ≤ 32 →
      R_RenderSubSectorLines exViewWide exLevelRender 40 exRenderCrowded
          { sector := 0, numlines := 1, firstline := 0 }
        = .ok (stateOr exRenderCrowded
            (renderLines exViewWide exLevelRender 40 1 0 exRenderCrowded)))) :=
  ⟨by decide,
   C13_capacity_violation exViewWide exLevelRender 40 exRenderCrowded
    (stateOr exRenderCrowded (renderLines exViewWide exLevelRender 40 1 0 exRenderCrowded))
    { sector := 0, numlines := 1, firstline := 0 } rfl⟩

/-- The part of C14 that the code does not do: for `num = -1`, which lies
outside `0 <= num < numsubsectors`, neither function reports a fatal error;
both go on to read `subsectors[-1]`. -/
theorem C14_counterexample :
    ¬ ((0 : Int) ≤ -1 ∧ (-1 : Int) < (exLevel 0).numsubsectors) ∧
    haltOf (R_RenderSubSector exView (exLevel 0) 5 (exRender 0) (-1)) = some Halt.badAccess ∧
    haltOf (P_CrossSubsector exEnv (exLevel 0) exSight (-1)) = some Halt.badAccess := by
  decide

/-- C14 as the code has it (out-of-range leaf index): for every
`num >= numsubsectors`, `R_RenderSubSector(num)` and `P_CrossSubsector(num)`
report their fatal error instead of reading `subsectors[num]`; for every
`0 <= num < numsubsectors` the entry `subsectors[num]` exists,
`P_CrossSubsector(num)` reports no fatal error at all and
`R_RenderSubSector(num)` does not report the out-of-range error. Negative
`num` is not promised anything. -/
theorem C14_out_of_range_leaf_index (V : View) (E : SightEnv) (lv : Level) (fuel : Nat)
    (rs : RenderState) (ss : SightState) (num : Int) :
    (lv.numsubsectors ≤ num →
      R_RenderSubSector V lv fuel rs num
        = .error (.I_Error "R_RenderSubSector: ss %i with numss = %i") ∧
      P_CrossSubsector E lv ss num
        = .error (.I_Error "P_CrossSubsector: ss %i with numss = %i")) ∧
    (0 ≤ num → num < lv.numsubsectors →
      (∃ sub, readAt lv.subsectors num = .ok sub) ∧
      (∀ msg, P_CrossSubsector E lv ss num ≠ .error (.I_Error msg)) ∧
      R_RenderSubSector V lv fuel rs num
        ≠ .error (.I_Error "R_RenderSubSector: ss %i with numss = %i")) := by
  constructor
  · intro h
    unfold R_RenderSubSector P_CrossSubsector
    simp [ge_iff_le, h]
  · intro h0 h1
    have hn : ¬ num ≥ lv.numsubsectors := by omega
    obtain ⟨sub, hsub, _⟩ := readAt_ok_of_range lv.subsectors num h0 h1
    refine ⟨⟨sub, hsub⟩, ?_, ?_⟩
    · intro msg h
      unfold P_CrossSubsector at h
      simp only [hn, if_false, hsub] at h
      have := crossSegs_error E lv _ _ _ _ h
      cases this
    · intro h
      unfold R_RenderSubSector at h
      simp only [hn, if_false, hsub] at h
      unfold R_RenderSubSectorLines at h
      simp only at h
      split at h
      · rename_i e1 h2
        have := renderLines_error V lv fuel _ _ _ _ h2
        cases h
        rcases this with g | g <;> cases g
      · split_ifs at h
        have := Except.error.inj h
        have := Halt.I_Error.inj this
        revert this
        decide

/-- Instance of C14 on the example level with one subsector: `num = 7` is
reported, `num = 0` is not. -/
theorem C14_out_of_range_leaf_index_witness :
    (R_RenderSubSector exView (exLevel 0) 5 (exRender 0) 7
        = .error (.I_Error "R_RenderSubSector: ss %i with numss = %i") ∧
      P_CrossSubsector exEnv (exLevel 0) exSight 7
        = .error (.I_Error "P_CrossSubsector: ss %i with numss = %i")) ∧
    ((∃ sub, readAt (exLevel 0).subsectors 0 = .ok sub) ∧
      (∀ msg, P_CrossSubsector exEnv (exLevel 0) exSight 0 ≠ .error (.I_Error msg)) ∧
      R_RenderSubSector exView (exLevel 0) 5 (exRender 0) 0
        ≠ .error (.I_Error "R_RenderSubSector: ss %i with numss = %i")) :=
  ⟨(C14_out_of_range_leaf_index exView exEnv (exLevel 0) 5 (exRender 0) exSight 7).1
      (by decide),
    (C14_out_of_range_leaf_index exView exEnv (exLevel 0) 5 (exRender 0) exSight 0).2
      (by decide) (by decide)⟩

/-! ### Second group of claims : the sight query -/

/-- The part of C15 that the code does not do: with the legacy algorithm
selected, two runs on levels that differ only in `rejectmatrix` return
different verdicts: with the reject bit clear the verdict is that of
`P_SightUnobstructedOld` (true here), with the bit set it is false. -/
theorem C15_counterexample :
    exEnvLegacy.legacy = true ∧
    verdict (P_SightUnobstructedOld exEnvLegacy (exLevel 0) exSight exLooker
      (exTarget 3670016)) = some true ∧
    verdict (P_CheckSight exEnvLegacy (exLevel 0) 3 exSight exLooker (exTarget 3670016))
      = some true ∧
    verdict (P_CheckSight exEnvLegacy { exLevel 0 with rejectmatrix := fun _ => 255 } 3
      exSight exLooker (exTarget 3670016)) = some false := by
  decide

/-- C15 as the code has it (legacy variant): when the legacy algorithm is
selected, `P_CheckSight(t1, t2)` still consults the Pairwise Visibility Table
first: with the reject bit set it returns false without running the path
traversal, with the bit clear it returns what `P_SightUnobstructedOld(t1, t2)`
returns; and `P_SightUnobstructedOld` itself does not depend on the contents
of `rejectmatrix`. -/
theorem C15_legacy_variant (E : SightEnv) (lv : Level) (r : Int → Nat) (fuel : Nat)
    (s : SightState) (t1 t2 : mobj_t) (hleg : E.legacy = true) :
    (P_CheckRejectTable lv t1 t2 = true → P_CheckSight E lv fuel s t1 t2 = .ok (false, s)) ∧
    (P_CheckRejectTable lv t1 t2 = false →
      P_CheckSight E lv fuel s t1 t2 = P_SightUnobstructedOld E lv s t1 t2) ∧
    P_SightUnobstructedOld E { lv with rejectmatrix := r } s t1 t2
      = P_SightUnobstructedOld E lv s t1 t2 := by
  refine ⟨?_, ?_, rfl⟩
  · intro h
    unfold P_CheckSight
    rw [if_pos h]
  · intro h
    unfold P_CheckSight
    simp [h, hleg]

/-- Instance of C15: the legacy example environment. -/
theorem C15_legacy_variant_witness :
    (P_CheckRejectTable (exLevel 0) exLooker (exTarget 3670016) = true →
      P_CheckSight exEnvLegacy (exLevel 0) 3 exSight exLooker (exTarget 3670016)
        = .ok (false, exSight)) ∧
    (P_CheckRejectTable (exLevel 0) exLooker (exTarget 3670016) = false →
      P_CheckSight exEnvLegacy (exLevel 0) 3 exSight exLooker (exTarget 3670016)
        = P_SightUnobstructedOld exEnvLegacy (exLevel 0) exSight exLooker
            (exTarget 3670016)) ∧
    P_SightUnobstructedOld exEnvLegacy { exLevel 0 with rejectmatrix := fun _ => 255 }
        exSight exLooker (exTarget 3670016)
      = P_SightUnobstructedOld exEnvLegacy (exLevel 0) exSight exLooker
          (exTarget 3670016) :=
  C15_legacy_variant exEnvLegacy (exLevel 0) (fun _ => 255) 3 exSight exLooker
    (exTarget 3670016) (by decide)

/-- The part of C18 that the code does not do. First level: the reject bit of
the ordered pair (0, 1) is set, that of (1, 0) is clear, and nothing blocks
the trace: the looker in sector 0 does not see the target in sector 1, the
target sees the looker. Second level: an all-zero reject table and a raised
window (floor 32) between a looker 56 units tall and a target 16 units tall:
the looker's eye does not see the target, the target's eye sees the looker. -/
theorem C18_counterexample :
    (verdict (P_CheckSight exEnv exLevelRejectOrdered 3 exSight exLooker exTargetIn1)
        = some false ∧
      verdict (P_CheckSight exEnv exLevelRejectOrdered 3 exSight exTargetIn1 exLooker)
        = some true) ∧
    (P_CheckRejectTable (exLevel 3) exLooker (exTarget 1048576) = false ∧
      P_CheckRejectTable (exLevel 3) (exTarget 1048576) exLooker = false ∧
      verdict (P_CheckSight exEnv (exLevel 3) 3 exSight exLooker (exTarget 1048576))
        = some false ∧
      verdict (P_CheckSight exEnv (exLevel 3) 3 exSight (exTarget 1048576) exLooker)
        = some true) := by
  decide

/-- C18 as the code has it (symmetry of the blocking test): the test is
symmetric where the Pairwise Visibility Table rejects both ordered sector
pairs: if the bits of (s1, s2) and of (s2, s1) are both set,
`P_CheckSight(t1, t2)` and `P_CheckSight(t2, t1)` both return false and leave
the scratch state as it was. -/
theorem C18_sight_symmetry (E : SightEnv) (lv : Level) (fuel : Nat) (s : SightState)
    (t1 t2 : mobj_t) (h12 : P_CheckRejectTable lv t1 t2 = true)
    (h21 : P_CheckRejectTable lv t2 t1 = true) :
    P_CheckSight E lv fuel s t1 t2 = P_CheckSight E lv fuel s t2 t1 ∧
    P_CheckSight E lv fuel s t1 t2 = .ok (false, s) := by
  unfold P_CheckSight
  rw [if_pos h12, if_pos h21]
  exact ⟨rfl, rfl⟩

/-- Instance of C18: a reject table with every bit set. -/
theorem C18_sight_symmetry_witness :
    P_CheckSight exEnv exLevelRejectAll 3 exSight exLooker exTargetIn1
      = P_CheckSight exEnv exLevelRejectAll 3 exSight exTargetIn1 exLooker ∧
    P_CheckSight exEnv exLevelRejectAll 3 exSight exLooker exTargetIn1
      = .ok (false, exSight) :=
  C18_sight_symmetry exEnv exLevelRejectAll 3 exSight exLooker exTargetIn1 (by decide)
    (by decide)

/-- With `den = 0` the fraction is 0 and the cone is narrowed with the two
slopes `FixedDiv(.., 0)`. -/
theorem degenerate_cone (E : SightEnv) (lv : Level) (s : SightState) (seg : seg_t)
    (front back : sector_t)
    (hden : interceptDen E s.strace (lineDivline (lv.lines seg.linedef)) = 0) :
    P_InterceptVector2 E s.strace (lineDivline (lv.lines seg.linedef)) = 0 ∧
    (P_CheckVerticalObstruction E lv s seg front back).2.bottomslope
      = (if front.floorheight ≠ back.floorheight ∧ s.bottomslope
            < E.FixedDiv (fx ((P_CalculateOpeningSpace front back).2 - s.sightzstart)) 0
         then E.FixedDiv (fx ((P_CalculateOpeningSpace front back).2 - s.sightzstart)) 0
         else s.bottomslope) ∧
    (P_CheckVerticalObstruction E lv s seg front back).2.topslope
      = (if front.ceilingheight ≠ back.ceilingheight ∧
            E.FixedDiv (fx ((P_CalculateOpeningSpace front back).1 - s.sightzstart)) 0
              < s.topslope
         then E.FixedDiv (fx ((P_CalculateOpeningSpace front back).1 - s.sightzstart)) 0
         else s.topslope) := by
  have hfrac : P_InterceptVector2 E s.strace (lineDivline (lv.lines seg.linedef)) = 0 := by
    unfold P_InterceptVector2
    unfold interceptDen at hden
    simp only
    rw [if_pos hden]
  refine ⟨hfrac, ?_, ?_⟩
  · unfold P_CheckVerticalObstruction
    simp only [hfrac]
    split_ifs <;> first | rfl | (exfalso; tauto)
  · unfold P_CheckVerticalObstruction
    simp only [hfrac]
    split_ifs <;> first | rfl | (exfalso; tauto)

/-- The part of C20 that the code does not do. With the fixed-point division
of m_fixed.c (saturating on a zero divisor): a looker and a target one
fixed-point step apart on either side of the raised window of the example
level give `den = 0`; `P_InterceptVector2` returns 0,
`P_CheckVerticalObstruction` raises `bottomslope` from -786432 to
`0x7fffffff`, the seg blocks and the query returns false. And whatever the
fixed-point helpers compute, there is some crossing with `den = 0` on which
`P_CheckVerticalObstruction` changes the cone. -/
theorem C20_counterexample :
    (interceptDen exEnv exSightNear.strace (lineDivline (exLines 3)) = 0 ∧
      P_InterceptVector2 exEnv exSightNear.strace (lineDivline (exLines 3)) = 0 ∧
      P_CrossesStrace exEnv (exLevel 3) exSightNear (exSeg 3) = true ∧
      exSightNear.bottomslope = -786432 ∧
      (P_CheckVerticalObstruction exEnv (exLevel 3) exSightNear (exSeg 3) (exSectors 0)
        (exSectors 2)).2.bottomslope = 2147483647 ∧
      examinedBy (P_SightUnobstructed exEnv (exLevel 3) 3 exSight exNearLooker exNearTarget)
        = some [⟨0, true, 262144, 2147483647⟩] ∧
      verdict (P_SightUnobstructed exEnv (exLevel 3) 3 exSight exNearLooker exNearTarget)
        = some false) ∧
    ¬ ∃ E : SightEnv, ∀ (lv : Level) (s : SightState) (seg : seg_t) (front back : sector_t),
      interceptDen E s.strace (lineDivline (lv.lines seg.linedef)) = 0 →
      (P_CheckVerticalObstruction E lv s seg front back).2.topslope = s.topslope ∧
      (P_CheckVerticalObstruction E lv s seg front back).2.bottomslope = s.bottomslope := by
  refine ⟨by decide, ?_⟩
  rintro ⟨E, hE⟩
  have hden : interceptDen E
      ({ exSight with strace := ⟨0, 0, 65536, 65536⟩, bottomslope := -2147483648,
                      topslope := 2147483647 } : SightState).strace
      (lineDivline (({ exLevel 0 with lines := fun _ => exDiagonal } : Level).lines
        (exSeg 0).linedef)) = 0 := by
    have e : lineDivline exDiagonal = ⟨0, 0, 65536, 65536⟩ := by decide
    show interceptDen E ⟨0, 0, 65536, 65536⟩ (lineDivline exDiagonal) = 0
    rw [e]
    unfold interceptDen
    simp only [sub_self]
    decide
  have e1 : fx (2097152 - exSight.sightzstart) = 2097152 := by decide
  by_cases hv : -2147483648 < E.FixedDiv 2097152 0
  · -- the slope of the opening bottom passes the lowest possible bottomslope
    have h := (hE _ _ (exSeg 0) (exRoom 0 4194304) (exRoom 2097152 4194304) hden).2
    rw [(degenerate_cone E _ _ (exSeg 0) (exRoom 0 4194304) (exRoom 2097152 4194304)
      hden).2.1] at h
    have e2 : (P_CalculateOpeningSpace (exRoom 0 4194304) (exRoom 2097152 4194304)).2
        = 2097152 := by decide
    have e3 : (exRoom 0 4194304).floorheight ≠ (exRoom 2097152 4194304).floorheight := by
      decide
    simp only [e2, e1] at h
    rw [if_pos ⟨e3, hv⟩] at h
    omega
  · -- the slope of the opening top passes the highest possible topslope
    have h := (hE _ _ (exSeg 0) (exRoom 0 2097152) (exRoom 0 4194304) hden).1
    rw [(degenerate_cone E _ _ (exSeg 0) (exRoom 0 2097152) (exRoom 0 4194304)
      hden).2.2] at h
    have e2 : (P_CalculateOpeningSpace (exRoom 0 2097152) (exRoom 0 4194304)).1
        = 2097152 := by decide
    have e3 : (exRoom 0 2097152).ceilingheight ≠ (exRoom 0 4194304).ceilingheight := by
      decide
    simp only [e2, e1] at h
    rw [if_pos ⟨e3, by omega⟩] at h
    omega

/-- C20 as the code has it (geometric degeneracy): when the denominator `den`
of `P_InterceptVector2` is 0, the function returns 0 without dividing, and
`P_CheckVerticalObstruction` returns a verdict as for any other fraction (no
fatal error is raised): it narrows the cone with the slopes
`FixedDiv(open_bottom - sightzstart, 0)` and `FixedDiv(open_top - sightzstart,
0)`. `topslope` and `bottomslope` are left unchanged when neither of these
slopes passes the current cone, and the verdict is then `topslope <=
bottomslope` as it stood. -/
theorem C20_geometric_degeneracy (E : SightEnv) (lv : Level) (s : SightState) (seg : seg_t)
    (front back : sector_t)
    (hden : interceptDen E s.strace (lineDivline (lv.lines seg.linedef)) = 0) :
    P_InterceptVector2 E s.strace (lineDivline (lv.lines seg.linedef)) = 0 ∧
    (P_CheckVerticalObstruction E lv s seg front back).2.bottomslope
      = (if front.floorheight ≠ back.floorheight ∧ s.bottomslope
            < E.FixedDiv (fx ((P_CalculateOpeningSpace front back).2 - s.sightzstart)) 0
         then E.FixedDiv (fx ((P_CalculateOpeningSpace front back).2 - s.sightzstart)) 0
         else s.bottomslope) ∧
    (P_CheckVerticalObstruction E lv s seg front back).2.topslope
      = (if front.ceilingheight ≠ back.ceilingheight ∧
            E.FixedDiv (fx ((P_CalculateOpeningSpace front back).1 - s.sightzstart)) 0
              < s.topslope
         then E.FixedDiv (fx ((P_CalculateOpeningSpace front back).1 - s.sightzstart)) 0
         else s.topslope) ∧
    (E.FixedDiv (fx ((P_CalculateOpeningSpace front back).2 - s.sightzstart)) 0
        ≤ s.bottomslope →
      s.topslope
        ≤ E.FixedDiv (fx ((P_CalculateOpeningSpace front back).1 - s.sightzstart)) 0 →
      P_CheckVerticalObstruction E lv s seg front back
        = (decide (s.topslope ≤ s.bottomslope), s)) := by
  obtain ⟨hfrac, hbot, htop⟩ := degenerate_cone E lv s seg front back hden
  refine ⟨hfrac, hbot, htop, ?_⟩
  intro hb ht
  unfold P_CheckVerticalObstruction
  simp only [hfrac]
  split_ifs <;> first | rfl | (exfalso; omega)

/-- Instance of C20: the example trace one fixed-point step long across the
raised window. -/
theorem C20_geometric_degeneracy_witness :
    interceptDen exEnv exSightNear.strace (lineDivline ((exLevel 3).lines (exSeg 3).linedef))
      = 0 ∧
    P_InterceptVector2 exEnv exSightNear.strace
      (lineDivline ((exLevel 3).lines (exSeg 3).linedef)) = 0 :=
  ⟨by decide,
    (C20_geometric_degeneracy exEnv (exLevel 3) exSightNear (exSeg 3) (exSectors 0)
      (exSectors 2) (by decide)).1⟩

/-! ### The runs emitted by a pass-through call -/

theorem gapsFrom_pairwise (a : Nat → cliprange_t) (k : Nat)
    (hord : ∀ i, i < k + 1 → (a i).first ≤ (a i).last)
    (hap : ∀ i, i < k → (a i).last + 1 < (a (i + 1)).first) :
    ∀ n i, i + n ≤ k → (gapsFrom a i n).Pairwise (fun p q => p.2 < q.1) := by
  intro n
  induction n with
  | zero => intro i _; simp [gapsFrom]
  | succ m ih =>
    intro i hik
    simp only [gapsFrom, List.pairwise_cons]
    refine ⟨?_, ih (i + 1) (by omega)⟩
    intro q hq
    obtain ⟨t, ht1, ht2, rfl⟩ := mem_gapsFrom _ _ _ _ hq
    have := last_mono a k hord hap (i + 1) t ht1 (by omega)
    have := hord (i + 1) (by omega)
    simp only
    omega

theorem gapsFrom_complete (a : Nat → cliprange_t) :
    ∀ n i (c : Int), (a i).last < c → c < (a (i + n)).first →
      (a (i + n)).first ≤ (a (i + n)).last →
      (∀ t, i ≤ t → t ≤ i + n → ¬ ((a t).first ≤ c ∧ c ≤ (a t).last)) →
      ∃ p ∈ gapsFrom a i n, p.1 ≤ c ∧ c ≤ p.2 := by
  intro n
  induction n with
  | zero =>
    intro i c h1 h2 h3 _
    simp only [Nat.add_zero] at h2 h3
    omega
  | succ m ih =>
    intro i c h1 h2 h3 h4
    simp only [gapsFrom, List.mem_cons, exists_eq_or_imp]
    by_cases hc : c < (a (i + 1)).first
    · left; exact ⟨by omega, by omega⟩
    · right
      have h5 := h4 (i + 1) (by omega) (by omega)
      have e : i + 1 + m = i + (m + 1) := by omega
      exact ih (i + 1) c (by omega) (by rw [e]; exact h2) (by rw [e]; exact h3)
        (fun t ht1 ht2 => h4 t (by omega) (by omega))

/-- The ranges emitted by the loop of `R_ClipPassWallSegment` and the call
after it, entered at an entry `start` whose range ends left of `last`: they
are the maximal free runs of the columns right of `start` up to `last`, in
left-to-right order. -/
theorem passMergeScan_runs (a : Nat → cliprange_t) (k start : Nat) (last : Int) (fuel : Nat)
    (hR : last ≤ (a k).last)
    (hord : ∀ i, i < k + 1 → (a i).first ≤ (a i).last)
    (hap : ∀ i, i < k → (a i).last + 1 < (a (i + 1)).first)
    (hsk : start ≤ k) (hlt : (a start).last < last) (hfuel : k < fuel)
    (out : List (Int × Int)) :
    ∃ new, passMergeScan a last fuel start out = some (out ++ new) ∧
      (∀ p ∈ new, p.1 ≤ p.2 ∧ (a start).last < p.1 ∧ p.2 ≤ last ∧
        (∀ c, p.1 ≤ c → c ≤ p.2 → ¬ CoveredBy a k c) ∧
        CoveredBy a k (p.1 - 1) ∧ (p.2 = last ∨ CoveredBy a k (p.2 + 1))) ∧
      (∀ c, (a start).last < c → c ≤ last → ¬ CoveredBy a k c →
        ∃ p ∈ new, p.1 ≤ c ∧ c ≤ p.2) ∧
      new.Pairwise (fun p q => p.2 < q.1) := by
  have hlm := last_mono a k hord hap
  have hfm := first_mono a k hord hap
  have hk := hord k (by omega)
  obtain ⟨j, b, hm, hsj, hjk, hbt, hbf⟩ :=
    solidMergeScan_spec a last k hR fuel start out hsk hlt (by omega)
  have hgaps : ∀ p ∈ gapsFrom a start (j - start),
      p.1 ≤ p.2 ∧ (a start).last < p.1 ∧ p.2 < (a j).first ∧
      (∀ c, p.1 ≤ c → c ≤ p.2 → ¬ CoveredBy a k c) ∧
      CoveredBy a k (p.1 - 1) ∧ CoveredBy a k (p.2 + 1) := by
    intro p hp
    obtain ⟨t, ht1, ht2, rfl⟩ := mem_gapsFrom _ _ _ _ hp
    have g1 := hlm start t ht1 (by omega)
    have g2 := hfm (t + 1) j (by omega) hjk
    have g3 := hap t (by omega)
    have g4 := hord t (by omega)
    have g5 := hord (t + 1) (by omega)
    refine ⟨by simp only; omega, by simp only; omega, by simp only; omega, ?_, ?_, ?_⟩
    · intro c hc1 hc2
      simp only at hc1 hc2
      exact gap_not_covered _ k hord hap t (by omega) c (by omega) (by omega)
    · exact ⟨t, by omega, by simp only; omega, by simp only; omega⟩
    · exact ⟨t + 1, by omega, by simp only; omega, by simp only; omega⟩
  have hpw := gapsFrom_pairwise a k hord hap (j - start) start (by omega)
  have hcomp : ∀ c, (a start).last < c → c < (a j).first → ¬ CoveredBy a k c →
      ∃ p ∈ gapsFrom a start (j - start), p.1 ≤ c ∧ c ≤ p.2 := by
    intro c hc1 hc2 hc3
    have e : start + (j - start) = j := by omega
    exact gapsFrom_complete a (j - start) start c hc1 (by rw [e]; exact hc2)
      (by rw [e]; exact hord j (by omega))
      (fun t ht1 ht2 hin => hc3 ⟨t, by omega, hin.1, hin.2⟩)
  rw [passMergeScan_eq, hm]
  cases b with
  | true =>
    obtain ⟨q1, q2, q3⟩ := hbt rfl
    refine ⟨gapsFrom a start (j - start), by simp, ?_, ?_, hpw⟩
    · intro p hp
      obtain ⟨g1, g2, g3, g4, g5, g6⟩ := hgaps p hp
      exact ⟨g1, g2, by omega, g4, g5, Or.inr g6⟩
    · intro c hc1 hc2 hc3
      by_cases hcj : c < (a j).first
      · exact hcomp c hc1 hcj hc3
      · exact absurd ⟨j, by omega, by omega, by omega⟩ hc3
  | false =>
    obtain ⟨q1, q2, q3⟩ := hbf rfl
    have hj := hord j (by omega)
    refine ⟨gapsFrom a start (j - start) ++ [((a j).last + 1, last)], by simp, ?_, ?_, ?_⟩
    · intro p hp
      rcases List.mem_append.1 hp with hp | hp
      · obtain ⟨g1, g2, g3, g4, g5, g6⟩ := hgaps p hp
        exact ⟨g1, g2, by omega, g4, g5, Or.inr g6⟩
      · simp only [List.mem_singleton] at hp
        subst hp
        have g1 := hlm start j hsj hjk
        refine ⟨by simp only; omega, by simp only; omega, le_refl _, ?_, ?_, Or.inl rfl⟩
        · intro c hc1 hc2
          simp only at hc1 hc2
          exact gap_not_covered _ k hord hap j q1 c (by omega) (by omega)
        · exact ⟨j, by omega, by simp only; omega, by simp only; omega⟩
    · intro c hc1 hc2 hc3
      by_cases hcj : c < (a j).first
      · obtain ⟨p, hp, h⟩ := hcomp c hc1 hcj hc3
        exact ⟨p, List.mem_append.2 (Or.inl hp), h⟩
      · have : (a j).last < c := by
          by_contra hh
          exact hc3 ⟨j, by omega, by omega, by omega⟩
        exact ⟨((a j).last + 1, last), by simp, by simp only; omega, hc2⟩
    · rw [List.pairwise_append]
      refine ⟨hpw, by simp, ?_⟩
      intro p hp q hq
      simp only [List.mem_singleton] at hq
      subst hq
      obtain ⟨g1, g2, g3, g4, g5, g6⟩ := hgaps p hp
      simp only
      omega

/-- C11 (pass-through clipping): on a well-formed list, with
`0 <= first <= last < viewwidth`, the call `R_ClipPassWallSegment(first, last)`
returns, leaves `solidsegs` and `newend` as they were, and the
`R_RenderWallRange(start, stop)` calls it makes are exactly the maximal runs of
consecutive columns of `[first, last]` that the list does not cover: every
emitted range has `start <= stop`, lies inside `[first, last]`, holds only
columns that are not covered, and cannot be extended on either side (it ends at
`first` or `last`, or the next column is covered); every column of
`[first, last]` that is not covered lies in an emitted range; and the ranges
are issued in left-to-right order. -/
theorem C11_pass_through_clipping (vw : Int) (s : ClipState) (first last : Int) (fuel : Nat)
    (hwf : WellFormed vw s) (h0 : 0 ≤ first) (hfl : first ≤ last) (hlv : last < vw)
    (hint : vw ≤ INT_MAX) (hfuel : s.newend ≤ fuel) :
    ∃ new, R_ClipPassWallSegment fuel s first last
        = some { s with rendered := s.rendered ++ new } ∧
      (∀ p ∈ new, p.1 ≤ p.2 ∧ first ≤ p.1 ∧ p.2 ≤ last ∧
        (∀ c, p.1 ≤ c → c ≤ p.2 → ¬ Covered s c) ∧
        (p.1 = first ∨ Covered s (p.1 - 1)) ∧ (p.2 = last ∨ Covered s (p.2 + 1))) ∧
      (∀ c, first ≤ c → c ≤ last → ¬ Covered s c → ∃ p ∈ new, p.1 ≤ c ∧ c ≤ p.2) ∧
      new.Pairwise (fun p q => p.2 < q.1) := by
  obtain ⟨k, hkn, hwfk⟩ := hwf
  have hcov : ∀ c, Covered s c ↔ CoveredBy s.solidsegs k c :=
    fun c => covered_iff s k hkn hwfk.1 c
  simp only [hcov]
  obtain ⟨⟨hR, hRf⟩, h0f, h0l, hkf, hord, hap⟩ := hwfk
  have hlm := last_mono s.solidsegs k hord hap
  have hfm := first_mono s.solidsegs k hord hap
  have hmaxv : INT_MAX = 2147483647 := rfl
  obtain ⟨start, hs, _, hsk, hs2, hsmin⟩ :=
    solidScanStart_spec s.solidsegs first k (by omega) fuel 0 (Nat.zero_le _) (by omega)
  rw [← passScanStart_eq] at hs
  have hso := hord start (by omega)
  have hscan : ¬ last ≤ (s.solidsegs start).last → ∀ out, _ := fun hle out =>
    passMergeScan_runs s.solidsegs k start last fuel (by omega) hord hap hsk
      (by omega) (by omega) out
  unfold R_ClipPassWallSegment
  by_cases hA : first < (s.solidsegs start).first
  · have h1 : 0 < start := by
      rcases Nat.eq_zero_or_pos start with h | h
      · subst h; omega
      · exact h
    have hp : (s.solidsegs (start - 1)).last + 1 < first := by
      have := hsmin (start - 1) (Nat.zero_le _) (by omega)
      omega
    have e : start - 1 + 1 = start := by omega
    have hfree : ∀ c, first ≤ c → c < (s.solidsegs start).first →
        ¬ CoveredBy s.solidsegs k c := by
      intro c hc1 hc2
      exact gap_not_covered _ k hord hap (start - 1) (by omega) c (by omega)
        (by rw [e]; omega)
    have hcs : CoveredBy s.solidsegs k ((s.solidsegs start).first - 1 + 1) :=
      ⟨start, by omega, by omega, by omega⟩
    by_cases hB : last < (s.solidsegs start).first - 1
    · refine ⟨[(first, last)], by simp only [hs, hA, hB, if_true], ?_, ?_, by simp⟩
      · intro p hp2
        simp only [List.mem_singleton] at hp2
        subst hp2
        exact ⟨hfl, le_refl _, le_refl _, fun c hc1 hc2 => hfree c hc1 (by simp only at hc2; omega),
          Or.inl rfl, Or.inl rfl⟩
      · intro c hc1 hc2 _
        exact ⟨(first, last), by simp, hc1, hc2⟩
    · by_cases hle : last ≤ (s.solidsegs start).last
      · refine ⟨[(first, (s.solidsegs start).first - 1)],
          by simp only [hs, hA, hB, hle, if_true, if_false], ?_, ?_, by simp⟩
        · intro p hp2
          simp only [List.mem_singleton] at hp2
          subst hp2
          exact ⟨by simp only; omega, le_refl _, by simp only; omega,
            fun c hc1 hc2 => hfree c hc1 (by simp only at hc2; omega), Or.inl rfl, Or.inr hcs⟩
        · intro c hc1 hc2 hc3
          have : c < (s.solidsegs start).first := by
            by_contra hh
            exact hc3 ⟨start, by omega, by omega, by omega⟩
          exact ⟨(first, (s.solidsegs start).first - 1), by simp, hc1, by simp only; omega⟩
      · obtain ⟨new, hn1, hn2, hn3, hn4⟩ :=
          hscan hle (s.rendered ++ [(first, (s.solidsegs start).first - 1)])
        refine ⟨(first, (s.solidsegs start).first - 1) :: new,
          by simp only [hs, hA, hB, hle, if_true, if_false, hn1]; simp, ?_, ?_, ?_⟩
        · intro p hp2
          rcases List.mem_cons.1 hp2 with hp2 | hp2
          · subst hp2
            exact ⟨by simp only; omega, le_refl _, by simp only; omega,
              fun c hc1 hc2 => hfree c hc1 (by simp only at hc2; omega), Or.inl rfl, Or.inr hcs⟩
          · obtain ⟨g1, g2, g3, g4, g5, g6⟩ := hn2 p hp2
            exact ⟨g1, by omega, g3, g4, Or.inr g5, g6⟩
        · intro c hc1 hc2 hc3
          by_cases hcs2 : c < (s.solidsegs start).first
          · exact ⟨(first, (s.solidsegs start).first - 1), by simp, hc1, by simp only; omega⟩
          · have : (s.solidsegs start).last < c := by
              by_contra hh
              exact hc3 ⟨start, by omega, by omega, by omega⟩
            obtain ⟨p, hp2, h⟩ := hn3 c this hc2 hc3
            exact ⟨p, List.mem_cons_of_mem _ hp2, h⟩
        · rw [List.pairwise_cons]
          refine ⟨?_, hn4⟩
          intro q hq
          obtain ⟨g1, g2, g3, g4, g5, g6⟩ := hn2 q hq
          simp only
          omega
  · by_cases hle : last ≤ (s.solidsegs start).last
    · refine ⟨[], by simp only [hs, hA, hle, if_true, if_false]; simp, by simp, ?_, by simp⟩
      intro c hc1 hc2 hc3
      exact absurd ⟨start, by omega, by omega, by omega⟩ hc3
    · obtain ⟨new, hn1, hn2, hn3, hn4⟩ := hscan hle s.rendered
      refine ⟨new, by simp only [hs, hA, hle, if_false, hn1], ?_, ?_, hn4⟩
      · intro p hp2
        obtain ⟨g1, g2, g3, g4, g5, g6⟩ := hn2 p hp2
        by_cases hpf : p.1 = first
        · exact ⟨g1, by omega, g3, g4, Or.inl hpf, g6⟩
        · exact ⟨g1, by omega, g3, g4, Or.inr g5, g6⟩
      · intro c hc1 hc2 hc3
        have : (s.solidsegs start).last < c := by
          by_contra hh
          exact hc3 ⟨start, by omega, by omega, by omega⟩
        exact hn3 c this hc2 hc3

/-- Instance of C11: the list with the solid ranges `[3, 4]` and `[7, 7]` and
the call `R_ClipPassWallSegment(1, 8)`, which emits `[1, 2]`, `[5, 6]` and
`[8, 8]`. -/
theorem C11_pass_through_clipping_witness :
    (R_ClipPassWallSegment 4 exampleTwoPosts 1 8).map (fun s => s.rendered)
      = some [(1, 2), (5, 6), (8, 8)] ∧
    ∃ new, R_ClipPassWallSegment 4 exampleTwoPosts 1 8
        = some { exampleTwoPosts with rendered := exampleTwoPosts.rendered ++ new } ∧
      (∀ p ∈ new, p.1 ≤ p.2 ∧ 1 ≤ p.1 ∧ p.2 ≤ 8 ∧
        (∀ c, p.1 ≤ c → c ≤ p.2 → ¬ Covered exampleTwoPosts c) ∧
        (p.1 = 1 ∨ Covered exampleTwoPosts (p.1 - 1)) ∧
        (p.2 = 8 ∨ Covered exampleTwoPosts (p.2 + 1))) ∧
      (∀ c, 1 ≤ c → c ≤ 8 → ¬ Covered exampleTwoPosts c → ∃ p ∈ new, p.1 ≤ c ∧ c ≤ p.2) ∧
      new.Pairwise (fun p q => p.2 < q.1) :=
  ⟨by decide, C11_pass_through_clipping 10 exampleTwoPosts 1 8 4 (by decide) (by decide)
    (by decide) (by decide) (by decide) (by decide)⟩

/-! ### The bounding-box test -/

theorem bboxScanStart_eq (a : Nat → cliprange_t) (sx2 : Int) :
    ∀ fuel i, bboxScanStart a sx2 fuel i = solidScanStart a (sx2 + 1) fuel i := by
  intro fuel
  induction fuel with
  | zero => intro i; rfl
  | succ n ih =>
    intro i
    unfold bboxScanStart solidScanStart
    rw [ih]
    simp only [add_sub_cancel_right]

/-- Function `R_CheckBBox` once the columns are known: the scan of the list and
the final comparison. -/
theorem R_CheckBBox_columns (V : View) (fuel : Nat) (s : RenderState) (bspcoord : Nat → Int)
    (sx1 sx2 : Int) (hcols : bboxColumns V bspcoord = some (sx1, sx2)) (hne : sx1 ≠ sx2) :
    R_CheckBBox V fuel s bspcoord
      = match bboxScanStart s.clip.solidsegs (sx2 - 1) fuel 0 with
        | none => .error .stuck
        | some start =>
          .ok (decide (sx1 < (s.clip.solidsegs start).first
            ∨ sx2 - 1 > (s.clip.solidsegs start).last)) := by
  unfold bboxColumns at hcols
  unfold R_CheckBBox
  simp only at hcols ⊢
  split at hcols
  · cases hcols
  · rename_i hpos
    rw [if_neg hpos]
    split at hcols
    · cases hcols
    · rename_i hspan
      rw [if_neg hspan]
      split at hcols
      · cases hcols
      · simp only [Option.some.injEq, Prod.mk.injEq] at hcols
        obtain ⟨e1, e2⟩ := hcols
        simp only [e1, e2, if_neg hne]

/-- C12 (bounding-box occlusion test): when `R_CheckBBox` has mapped the box to
the screen columns `sx1 < sx2` (the viewpoint is outside the box, the angular
span is below 180 degrees and is not clipped away), then on a well-formed list
it returns, and it returns true if and only if some column of
`[sx1, sx2 - 1]` is not covered by the list; it returns false if and only if
the whole span `[sx1, sx2 - 1]` lies inside a single range of the list. -/
theorem C12_bbox_occlusion_test (V : View) (fuel : Nat) (s : RenderState)
    (bspcoord : Nat → Int) (vw sx1 sx2 : Int)
    (hcols : bboxColumns V bspcoord = some (sx1, sx2)) (hlt : sx1 < sx2)
    (hint : sx2 - 1 ≤ INT_MAX) (hwf : WellFormed vw s.clip) (hfuel : s.clip.newend ≤ fuel) :
    ∃ r, R_CheckBBox V fuel s bspcoord = .ok r ∧
      (r = true ↔ ∃ c, sx1 ≤ c ∧ c ≤ sx2 - 1 ∧ ¬ Covered s.clip c) ∧
      (r = false ↔ ∃ k, k < s.clip.newend ∧ IsRightSentinel s.clip.solidsegs k ∧
        ∃ i, i < k + 1 ∧ (s.clip.solidsegs i).first ≤ sx1 ∧
          sx2 - 1 ≤ (s.clip.solidsegs i).last) := by
  obtain ⟨k, hkn, hwfk⟩ := hwf
  have hcov : ∀ c, Covered s.clip c ↔ CoveredBy s.clip.solidsegs k c :=
    fun c => covered_iff s.clip k hkn hwfk.1 c
  have hsent := hwfk.1
  obtain ⟨⟨hR, hRf⟩, h0f, h0l, hkf, hord, hap⟩ := hwfk
  have hlm := last_mono s.clip.solidsegs k hord hap
  have hfm := first_mono s.clip.solidsegs k hord hap
  have hmaxv : INT_MAX = 2147483647 := rfl
  obtain ⟨start, hs, _, hsk, hs2, hsmin⟩ :=
    solidScanStart_spec s.clip.solidsegs (sx2 - 1 + 1) k (by omega) fuel 0 (Nat.zero_le _)
      (by omega)
  rw [← bboxScanStart_eq] at hs
  have hso := hord start (by omega)
  rw [R_CheckBBox_columns V fuel s bspcoord sx1 sx2 hcols (by omega), hs]
  refine ⟨_, rfl, ?_, ?_⟩
  · simp only [decide_eq_true_eq, hcov]
    constructor
    · intro h
      have h1 : sx1 < (s.clip.solidsegs start).first := by omega
      by_cases hle : (s.clip.solidsegs start).first ≤ sx2 - 1
      · -- the column just left of `start` lies in the span and is free
        refine ⟨(s.clip.solidsegs start).first - 1, by omega, by omega, ?_⟩
        rintro ⟨i, hi, f1, f2⟩
        by_cases his : i < start
        · have := apart_lt s.clip.solidsegs k hord hap start i his hsk
          omega
        · have := hfm start i (by omega) (by omega)
          omega
      · -- the span ends left of `start`
        refine ⟨sx2 - 1, by omega, le_refl _, ?_⟩
        rintro ⟨i, hi, f1, f2⟩
        by_cases his : i < start
        · have := hsmin i (Nat.zero_le _) his
          omega
        · have := hfm start i (by omega) (by omega)
          omega
    · rintro ⟨c, hc1, hc2, hc3⟩
      by_contra hh
      exact hc3 ⟨start, by omega, by omega, by omega⟩
  · simp only [decide_eq_false_iff_not]
    constructor
    · intro h
      exact ⟨k, hkn, hsent, start, by omega, by omega, by omega⟩
    · rintro ⟨k2, _, hk2, i, hi, f1, f2⟩
      have := isRightSentinel_unique _ _ _ hsent hk2
      subst this
      have hio := hord i hi
      have his : i = start := by
        rcases Nat.lt_trichotomy i start with h | h | h
        · have := hsmin i (Nat.zero_le _) h
          omega
        · exact h
        · have := apart_lt s.clip.solidsegs k hord hap i start h (by omega)
          omega
      subst his
      omega

/-- Instance of C12: the example box maps to the columns 4 and 12 of the
example view; with the solid range `[3, 12]` in the list the test returns
false, and on the cleared list it returns true. -/
theorem C12_bbox_occlusion_test_witness :
    verdictOf (R_CheckBBox exView 3 (exRender 0) exBox) = some true ∧
    verdictOf (R_CheckBBox exView 3 exRenderWalled exBox) = some false ∧
    ∃ r, R_CheckBBox exView 3 exRenderWalled exBox = .ok r ∧
      (r = true ↔ ∃ c, 4 ≤ c ∧ c ≤ 12 - 1 ∧ ¬ Covered exRenderWalled.clip c) ∧
      (r = false ↔ ∃ k, k < exRenderWalled.clip.newend ∧
        IsRightSentinel exRenderWalled.clip.solidsegs k ∧
        ∃ i, i < k + 1 ∧ (exRenderWalled.clip.solidsegs i).first ≤ 4 ∧
          12 - 1 ≤ (exRenderWalled.clip.solidsegs i).last) :=
  ⟨by decide, by decide,
    C12_bbox_occlusion_test exView 3 exRenderWalled exBox 16 4 12 (by decide) (by decide)
      (by decide) (by decide) (by decide)⟩

/-! ### A walk that meets no crossing seg -/

theorem P_DivlineSide_range (E : SightEnv) (x y : Int) (node : divline_t) :
    P_DivlineSide E x y node = 0 ∨ P_DivlineSide E x y node = 1 ∨
      P_DivlineSide E x y node = 2 := by
  unfold P_DivlineSide
  simp only
  split_ifs <;> simp

theorem crossSegs_clear (E : SightEnv) (lv : Level) (s0 : SightState)
    (hclear : ∀ seg ∈ lv.segs, P_CrossesStrace E lv s0 seg = false) :
    ∀ (n : Nat) (idx : Int) s, s.strace = s0.strace → s.t2x = s0.t2x → s.t2y = s0.t2y →
      (n = 0 ∨ (0 ≤ idx ∧ idx + (n : Int) ≤ (lv.segs.length : Int))) →
      ∃ s2, crossSegs E lv n idx s = .ok (true, s2) ∧
        s2.strace = s0.strace ∧ s2.t2x = s0.t2x ∧ s2.t2y = s0.t2y := by
  intro n
  induction n with
  | zero => intro idx s h1 h2 h3 _; exact ⟨s, rfl, h1, h2, h3⟩
  | succ m ih =>
    intro idx s h1 h2 h3 hr
    have hr2 : 0 ≤ idx ∧ idx + ((m + 1 : Nat) : Int) ≤ (lv.segs.length : Int) := by
      rcases hr with h | h
      · omega
      · exact h
    obtain ⟨seg, hseg, hmem⟩ := readAt_ok_of_range lv.segs idx hr2.1 (by omega)
    unfold crossSegs
    rw [hseg]
    simp only
    have hnext : m = 0 ∨ (0 ≤ idx + 1 ∧ idx + 1 + (m : Int) ≤ (lv.segs.length : Int)) := by
      right
      constructor
      · omega
      · have := hr2.2
        push_cast at this
        omega
    by_cases hv : s.linevalid seg.linedef = s.validcount
    · rw [if_pos hv]
      exact ih (idx + 1) s h1 h2 h3 hnext
    · rw [if_neg hv]
      have hb : ∀ s1 : SightState, s1.strace = s0.strace → s1.t2x = s0.t2x →
          s1.t2y = s0.t2y → P_BlocksStrace E lv s1 seg = .ok (false, s1) := by
        intro s1 g1 g2 g3
        unfold P_BlocksStrace
        rw [P_CrossesStrace_congr E lv s0 s1 seg g1 g2 g3, hclear seg hmem]
        rfl
      rw [hb { s with linevalid := fun l =>
        if l = seg.linedef then s.validcount else s.linevalid l } h1 h2 h3]
      exact ih (idx + 1) _ h1 h2 h3 hnext

theorem P_CrossSubsector_clear (E : SightEnv) (lv : Level) (s0 s : SightState) (num : Int)
    (hclear : ∀ seg ∈ lv.segs, P_CrossesStrace E lv s0 seg = false)
    (h1 : s.strace = s0.strace) (h2 : s.t2x = s0.t2x) (h3 : s.t2y = s0.t2y)
    (hleaf : leafOK lv num = true) :
    ∃ s2, P_CrossSubsector E lv s num = .ok (true, s2) ∧
      s2.strace = s0.strace ∧ s2.t2x = s0.t2x ∧ s2.t2y = s0.t2y := by
  unfold leafOK at hleaf
  simp only [Bool.and_eq_true, decide_eq_true_eq] at hleaf
  obtain ⟨⟨hn0, hn1⟩, hsub⟩ := hleaf
  unfold P_CrossSubsector
  rw [if_neg (by omega)]
  cases hr : readAt lv.subsectors num with
  | error e => rw [hr] at hsub; cases hsub
  | ok sub =>
    rw [hr] at hsub
    simp only [decide_eq_true_eq] at hsub
    exact crossSegs_clear E lv s0 hclear _ _ s h1 h2 h3 hsub

theorem P_CrossBSPNode_clear (E : SightEnv) (lv : Level) (s0 : SightState)
    (hclear : ∀ seg ∈ lv.segs, P_CrossesStrace E lv s0 seg = false) :
    ∀ fuel s bspnum, s.strace = s0.strace → s.t2x = s0.t2x → s.t2y = s0.t2y →
      treeOK lv fuel bspnum = true →
      ∃ s2, P_CrossBSPNode E lv fuel s bspnum = .ok (true, s2) ∧
        s2.strace = s0.strace ∧ s2.t2x = s0.t2x ∧ s2.t2y = s0.t2y := by
  intro fuel
  induction fuel with
  | zero =>
    intro s bspnum _ _ _ h
    rw [treeOK] at h
    exact Bool.noConfusion h
  | succ n ih =>
    intro s bspnum h1 h2 h3 htree
    rw [treeOK] at htree
    rw [P_CrossBSPNode]
    by_cases hleaf : cand bspnum lv.NF_SUBSECTOR ≠ 0
    · rw [if_pos hleaf] at htree ⊢
      by_cases hm : bspnum = -1
      · rw [if_pos hm] at htree ⊢
        exact P_CrossSubsector_clear E lv s0 s 0 hclear h1 h2 h3 htree
      · rw [if_neg hm] at htree ⊢
        exact P_CrossSubsector_clear E lv s0 s _ hclear h1 h2 h3 htree
    · rw [if_neg hleaf] at htree ⊢
      cases hr : readAt lv.nodes bspnum with
      | error e => rw [hr] at htree; cases htree
      | ok bsp =>
        rw [hr] at htree
        simp only [Bool.and_eq_true] at htree
        obtain ⟨hc0, hc1⟩ := htree
        simp only
        have hchild : ∀ side : Int, side = 0 ∨ side = 1 →
            treeOK lv n (bsp.children side.toNat) = true ∧
            treeOK lv n (bsp.children (side.toNat ^^^ 1)) = true := by
          intro side hs
          rcases hs with rfl | rfl
          · exact ⟨hc0, hc1⟩
          · exact ⟨hc1, hc0⟩
        have hside : ∀ v : Int, v = 0 ∨ v = 1 ∨ v = 2 →
            (if v = 2 then (0 : Int) else v) = 0 ∨ (if v = 2 then (0 : Int) else v) = 1 := by
          intro v hv
          rcases hv with rfl | rfl | rfl <;> simp
        have hsd := hside _ (P_DivlineSide_range E s.strace.x s.strace.y
          ⟨bsp.x, bsp.y, bsp.dx, bsp.dy⟩)
        obtain ⟨side, hsdef⟩ : ∃ side : Int, side =
            (if P_DivlineSide E s.strace.x s.strace.y ⟨bsp.x, bsp.y, bsp.dx, bsp.dy⟩ = 2
              then (0 : Int)
              else P_DivlineSide E s.strace.x s.strace.y ⟨bsp.x, bsp.y, bsp.dx, bsp.dy⟩) :=
          ⟨_, rfl⟩
        rw [← hsdef] at hsd ⊢
        obtain ⟨t0, t1⟩ := hchild side hsd
        obtain ⟨s1, e1, g1, g2, g3⟩ := ih s _ h1 h2 h3 t0
        rw [e1]
        simp only
        by_cases hq : side = P_DivlineSide E s1.t2x s1.t2y ⟨bsp.x, bsp.y, bsp.dx, bsp.dy⟩
        · rw [if_pos hq]
          exact ⟨s1, rfl, g1, g2, g3⟩
        · rw [if_neg hq]
          exact ih s1 _ g1 g2 g3 t1

/-- C16 (unobstructed trace): for a sight query of the current variant whose
reject bit is clear, on a well-formed tree (every number the walk can reach is
valid: node indices lie in `nodes`, leaf indices lie in `0 .. numsubsectors-1`,
the segs of a leaf lie in `segs`, and the tree is no deeper than the fuel), if
`P_CrossesStrace` is false for every seg of the level under the trace of the
query, `P_CheckSight` returns true. -/
theorem C16_unobstructed_trace (E : SightEnv) (lv : Level) (fuel : Nat) (s : SightState)
    (t1 t2 : mobj_t) (hcur : E.legacy = false) (hrej : P_CheckRejectTable lv t1 t2 = false)
    (htree : treeOK lv fuel (lv.numnodes - 1) = true)
    (hclear : ∀ seg ∈ lv.segs,
      P_CrossesStrace E lv
        { s with
          strace := { x := t1.x, y := t1.y, dx := fx (t2.x - t1.x), dy := fx (t2.y - t1.y) }
          t2x := t2.x
          t2y := t2.y } seg = false) :
    ∃ s', P_CheckSight E lv fuel s t1 t2 = .ok (true, s') := by
  unfold P_CheckSight
  rw [hrej, hcur]
  simp only [Bool.false_eq_true, if_false]
  unfold P_SightUnobstructed
  obtain ⟨s2, h, _⟩ := P_CrossBSPNode_clear E lv _ hclear fuel
    { s with
      validcount := fx (s.validcount + 1)
      sightzstart := fx (fx (t1.z + t1.height) - (t1.height >>> 2))
      bottomslope := fx (t2.z - fx (fx (t1.z + t1.height) - (t1.height >>> 2)))
      topslope := fx (fx (t2.z - fx (fx (t1.z + t1.height) - (t1.height >>> 2))) + t2.height)
      strace := { x := t1.x, y := t1.y, dx := fx (t2.x - t1.x), dy := fx (t2.y - t1.y) }
      t2x := t2.x
      t2y := t2.y } (lv.numnodes - 1) rfl rfl rfl htree
  exact ⟨s2, h⟩

/-- Instance of C16: in the example level with one node, a looker at
(-64, -32) and a target at (-64, 32); the trace runs beside the two segs and
passes through both leaves. -/
theorem C16_unobstructed_trace_witness :
    verdict (P_CheckSight exEnv exLevelNode 2 exSight exLooker exTargetLeft) = some true ∧
    ∃ s', P_CheckSight exEnv exLevelNode 2 exSight exLooker exTargetLeft = .ok (true, s') :=
  ⟨by decide,
    C16_unobstructed_trace exEnv exLevelNode 2 exSight exLooker exTargetLeft (by decide)
      (by decide) (by decide) (by decide)⟩

/-! ### Independence of the scratch state -/

theorem fx_of_int32 (x : Int) (h0 : -2147483648 ≤ x) (h1 : x ≤ 2147483647) : fx x = x := by
  unfold fx
  omega

theorem P_CheckVerticalObstruction_sim (E : SightEnv) (lv : Level) (sA sB : SightState)
    (seg : seg_t) (front back : sector_t) (h : SightEquiv sA sB) :
    (P_CheckVerticalObstruction E lv sA seg front back).1
        = (P_CheckVerticalObstruction E lv sB seg front back).1 ∧
      SightEquiv (P_CheckVerticalObstruction E lv sA seg front back).2
        (P_CheckVerticalObstruction E lv sB seg front back).2 := by
  obtain ⟨vA, zA, tA, bA, trA, xA, yA, mA, eA⟩ := sA
  obtain ⟨vB, zB, tB, bB, trB, xB, yB, mB, eB⟩ := sB
  obtain ⟨h1, h2, h3, h4, h5, h6, h7⟩ := h
  simp only at h1 h2 h3 h4 h5 h6 h7
  subst h1 h2 h3 h4 h5 h6
  unfold P_CheckVerticalObstruction SightEquiv
  simp only
  split_ifs <;> exact ⟨rfl, rfl, rfl, rfl, rfl, rfl, rfl, h7⟩

theorem P_BlocksStrace_sim (E : SightEnv) (lv : Level) (sA sB : SightState) (seg : seg_t)
    (h : SightEquiv sA sB) :
    ResEquiv (P_BlocksStrace E lv sA seg) (P_BlocksStrace E lv sB seg) := by
  have hc : P_CrossesStrace E lv sB seg = P_CrossesStrace E lv sA seg :=
    P_CrossesStrace_congr E lv sA sB seg h.2.2.2.1.symm h.2.2.2.2.1.symm h.2.2.2.2.2.1.symm
  unfold P_BlocksStrace
  rw [hc]
  split_ifs
  · exact Or.inr ⟨false, sA, sB, rfl, rfl, h⟩
  · exact Or.inr ⟨true, sA, sB, rfl, rfl, h⟩
  · unfold P_TwoSidedBlocksStrace
    cases seg.backsector with
    | none => exact Or.inl ⟨_, rfl, rfl⟩
    | some b =>
      simp only
      split_ifs
      · exact Or.inr ⟨false, sA, sB, rfl, rfl, h⟩
      · exact Or.inr ⟨true, sA, sB, rfl, rfl, h⟩
      · obtain ⟨g1, g2⟩ := P_CheckVerticalObstruction_sim E lv sA sB seg
          (lv.sectors seg.frontsector) (lv.sectors b) h
        exact Or.inr
          ⟨(P_CheckVerticalObstruction E lv sA seg (lv.sectors seg.frontsector)
              (lv.sectors b)).1,
            (P_CheckVerticalObstruction E lv sA seg (lv.sectors seg.frontsector)
              (lv.sectors b)).2,
            (P_CheckVerticalObstruction E lv sB seg (lv.sectors seg.frontsector)
              (lv.sectors b)).2, rfl, by rw [g1], g2⟩
  · exact Or.inr ⟨true, sA, sB, rfl, rfl, h⟩

theorem crossSegs_sim (E : SightEnv) (lv : Level) :
    ∀ (n : Nat) (idx : Int) (sA sB : SightState), SightEquiv sA sB →
      ResEquiv (crossSegs E lv n idx sA) (crossSegs E lv n idx sB) := by
  intro n
  induction n with
  | zero => intro idx sA sB h; exact Or.inr ⟨true, sA, sB, rfl, rfl, h⟩
  | succ m ih =>
    intro idx sA sB h
    unfold crossSegs
    cases hr : readAt lv.segs idx with
    | error e => exact Or.inl ⟨e, rfl, rfl⟩
    | ok seg =>
      simp only
      have hm := h.2.2.2.2.2.2 seg.linedef
      by_cases hv : sA.linevalid seg.linedef = sA.validcount
      · rw [if_pos hv, if_pos (hm.1 hv)]
        exact ih (idx + 1) sA sB h
      · rw [if_neg hv, if_neg (fun hb => hv (hm.2 hb))]
        have h1 : SightEquiv
            { sA with linevalid := fun l =>
                if l = seg.linedef then sA.validcount else sA.linevalid l }
            { sB with linevalid := fun l =>
                if l = seg.linedef then sB.validcount else sB.linevalid l } := by
          obtain ⟨g1, g2, g3, g4, g5, g6, g7⟩ := h
          refine ⟨g1, g2, g3, g4, g5, g6, ?_⟩
          intro l
          simp only
          by_cases hl : l = seg.linedef
          · simp only [if_pos hl]
          · simp only [if_neg hl]
            exact g7 l
        rcases P_BlocksStrace_sim E lv _ _ seg h1 with ⟨e, ea, eb⟩ | ⟨b, cA, cB, ea, eb, hcc⟩
        · rw [ea, eb]
          exact Or.inl ⟨e, rfl, rfl⟩
        · rw [ea, eb]
          cases b with
          | true => exact Or.inr ⟨false, _, _, rfl, rfl, hcc⟩
          | false => exact ih (idx + 1) _ _ hcc

theorem P_CrossSubsector_sim (E : SightEnv) (lv : Level) (sA sB : SightState) (num : Int)
    (h : SightEquiv sA sB) :
    ResEquiv (P_CrossSubsector E lv sA num) (P_CrossSubsector E lv sB num) := by
  unfold P_CrossSubsector
  split_ifs
  · exact Or.inl ⟨_, rfl, rfl⟩
  · cases hr : readAt lv.subsectors num with
    | error e => exact Or.inl ⟨e, rfl, rfl⟩
    | ok sub => exact crossSegs_sim E lv _ _ sA sB h

theorem P_CrossBSPNode_sim (E : SightEnv) (lv : Level) :
    ∀ (fuel : Nat) (sA sB : SightState) (bspnum : Int), SightEquiv sA sB →
      ResEquiv (P_CrossBSPNode E lv fuel sA bspnum) (P_CrossBSPNode E lv fuel sB bspnum) := by
  intro fuel
  induction fuel with
  | zero =>
    intro sA sB bspnum _
    rw [P_CrossBSPNode, P_CrossBSPNode]
    exact Or.inl ⟨_, rfl, rfl⟩
  | succ n ih =>
    intro sA sB bspnum h
    rw [P_CrossBSPNode, P_CrossBSPNode]
    by_cases hleaf : cand bspnum lv.NF_SUBSECTOR ≠ 0
    · rw [if_pos hleaf, if_pos hleaf]
      by_cases hm : bspnum = -1
      · rw [if_pos hm, if_pos hm]
        exact P_CrossSubsector_sim E lv sA sB 0 h
      · rw [if_neg hm, if_neg hm]
        exact P_CrossSubsector_sim E lv sA sB _ h
    · rw [if_neg hleaf, if_neg hleaf]
      cases hr : readAt lv.nodes bspnum with
      | error e => exact Or.inl ⟨e, rfl, rfl⟩
      | ok bsp =>
        simp only
        rw [← h.2.2.2.1]
        obtain ⟨side, hsdef⟩ : ∃ side : Int, side =
            (if P_DivlineSide E sA.strace.x sA.strace.y ⟨bsp.x, bsp.y, bsp.dx, bsp.dy⟩ = 2
              then (0 : Int)
              else P_DivlineSide E sA.strace.x sA.strace.y ⟨bsp.x, bsp.y, bsp.dx, bsp.dy⟩) :=
          ⟨_, rfl⟩
        rw [← hsdef]
        rcases ih sA sB (bsp.children side.toNat) h with
          ⟨e, ea, eb⟩ | ⟨b, cA, cB, ea, eb, hcc⟩
        · rw [ea, eb]
          exact Or.inl ⟨e, rfl, rfl⟩
        · rw [ea, eb]
          cases b with
          | false => exact Or.inr ⟨false, _, _, rfl, rfl, hcc⟩
          | true =>
            simp only
            rw [← hcc.2.2.2.2.1, ← hcc.2.2.2.2.2.1]
            by_cases hq : side = P_DivlineSide E cA.t2x cA.t2y ⟨bsp.x, bsp.y, bsp.dx, bsp.dy⟩
            · rw [if_pos hq, if_pos hq]
              exact Or.inr ⟨true, _, _, rfl, rfl, hcc⟩
            · rw [if_neg hq, if_neg hq]
              exact ih cA cB _ hcc

/-- C19 (scratch state is reset per query): for the same level and observers,
two runs of `P_SightUnobstructed(t1, t2)` that start from any two scratch
states (any `sightzstart`, `topslope`, `bottomslope`, `strace`, `t2x`, `t2y`,
any log), with any `validcount` whose increment does not overflow and any
linedef marks none of which exceeds `validcount`, have the same outcome: the
same verdict, or the same halt. -/
theorem C19_scratch_state_reset (E : SightEnv) (lv : Level) (fuel : Nat)
    (sA sB : SightState) (t1 t2 : mobj_t)
    (hmA : ∀ l, sA.linevalid l ≤ sA.validcount) (hmB : ∀ l, sB.linevalid l ≤ sB.validcount)
    (hvA : -2147483648 ≤ sA.validcount ∧ sA.validcount < INT_MAX)
    (hvB : -2147483648 ≤ sB.validcount ∧ sB.validcount < INT_MAX) :
    verdict (P_SightUnobstructed E lv fuel sA t1 t2)
        = verdict (P_SightUnobstructed E lv fuel sB t1 t2) ∧
      haltOf (P_SightUnobstructed E lv fuel sA t1 t2)
        = haltOf (P_SightUnobstructed E lv fuel sB t1 t2) := by
  have hmaxv : INT_MAX = 2147483647 := rfl
  have eA : fx (sA.validcount + 1) = sA.validcount + 1 :=
    fx_of_int32 _ (by omega) (by omega)
  have eB : fx (sB.validcount + 1) = sB.validcount + 1 :=
    fx_of_int32 _ (by omega) (by omega)
  unfold P_SightUnobstructed
  simp only
  have hsim := P_CrossBSPNode_sim E lv fuel
    { sA with
      validcount := fx (sA.validcount + 1)
      sightzstart := fx (fx (t1.z + t1.height) - (t1.height >>> 2))
      bottomslope := fx (t2.z - fx (fx (t1.z + t1.height) - (t1.height >>> 2)))
      topslope := fx (fx (t2.z - fx (fx (t1.z + t1.height) - (t1.height >>> 2))) + t2.height)
      strace := { x := t1.x, y := t1.y, dx := fx (t2.x - t1.x), dy := fx (t2.y - t1.y) }
      t2x := t2.x
      t2y := t2.y }
    { sB with
      validcount := fx (sB.validcount + 1)
      sightzstart := fx (fx (t1.z + t1.height) - (t1.height >>> 2))
      bottomslope := fx (t2.z - fx (fx (t1.z + t1.height) - (t1.height >>> 2)))
      topslope := fx (fx (t2.z - fx (fx (t1.z + t1.height) - (t1.height >>> 2))) + t2.height)
      strace := { x := t1.x, y := t1.y, dx := fx (t2.x - t1.x), dy := fx (t2.y - t1.y) }
      t2x := t2.x
      t2y := t2.y } (lv.numnodes - 1)
    ⟨rfl, rfl, rfl, rfl, rfl, rfl, by
      intro l
      have := hmA l
      have := hmB l
      simp only [eA, eB]
      constructor <;> intro hh <;> omega⟩
  rcases hsim with ⟨e, ea, eb⟩ | ⟨b, cA, cB, ea, eb, _⟩
  · rw [ea, eb]
    exact ⟨rfl, rfl⟩
  · rw [ea, eb]
    exact ⟨rfl, rfl⟩

/-- Instance of C19: the query from `exLooker` to a target 56 units tall across
the one-sided example line, started from the fresh scratch state and from the
stale one; both runs return false. -/
theorem C19_scratch_state_reset_witness :
    verdict (P_SightUnobstructed exEnv (exLevel 0) 3 exSight exLooker (exTarget 3670016))
        = some false ∧
    verdict (P_SightUnobstructed exEnv (exLevel 0) 3 exSightStale exLooker (exTarget 3670016))
        = some false ∧
    (verdict (P_SightUnobstructed exEnv (exLevel 0) 3 exSight exLooker (exTarget 3670016))
        = verdict (P_SightUnobstructed exEnv (exLevel 0) 3 exSightStale exLooker
            (exTarget 3670016)) ∧
      haltOf (P_SightUnobstructed exEnv (exLevel 0) 3 exSight exLooker (exTarget 3670016))
        = haltOf (P_SightUnobstructed exEnv (exLevel 0) 3 exSightStale exLooker
            (exTarget 3670016))) :=
  ⟨by decide, by decide,
    C19_scratch_state_reset exEnv (exLevel 0) 3 exSight exSightStale exLooker
      (exTarget 3670016) (fun _ => (by decide : (0 : Int) ≤ 0))
      (fun _ => (by decide : (7 : Int) ≤ 7)) (by decide) (by decide)⟩

/-! ### Third group of claims : the BSP crossing rule and the cone -/

theorem startSide_range (E : SightEnv) (s : SightState) (bsp : node_t) :
    startSide E s bsp = 0 ∨ startSide E s bsp = 1 := by
  unfold startSide
  rcases P_DivlineSide_range E s.strace.x s.strace.y (nodeDivline bsp) with h | h | h <;>
    simp [h]

/-- Function `P_CrossBSPNode` at an internal node, written with `startSide`. -/
theorem P_CrossBSPNode_node (E : SightEnv) (lv : Level) (fuel : Nat) (s : SightState)
    (bspnum : Int) (bsp : node_t) (hnode : cand bspnum lv.NF_SUBSECTOR = 0)
    (hbsp : readAt lv.nodes bspnum = .ok bsp) :
    P_CrossBSPNode E lv (fuel + 1) s bspnum
      = match P_CrossBSPNode E lv fuel s (bsp.children (startSide E s bsp).toNat) with
        | .error e => .error e
        | .ok (false, s1) => .ok (false, s1)
        | .ok (true, s1) =>
          if startSide E s bsp = P_DivlineSide E s1.t2x s1.t2y (nodeDivline bsp) then
            .ok (true, s1)
          else P_CrossBSPNode E lv fuel s1 (bsp.children ((startSide E s bsp).toNat ^^^ 1)) := by
  rw [P_CrossBSPNode]
  rw [if_neg (by rw [hnode]; exact fun h => h rfl), hbsp]
  rfl

/-- C21 (partition crossing rule): at an internal node `P_CrossBSPNode` first
crosses the child on the side of the trace start, an on-line start counted as
side 0. If that crossing returns false, the node returns false in the state
the crossing left, the other child not visited. If it returns true and
`P_DivlineSide` of the trace end equals the start side, the node returns true
in that state, the other child not visited. Otherwise the node returns what
crossing the other child from that state returns. The trace end tested is
that of the query. -/
theorem C21_partition_crossing_rule (E : SightEnv) (lv : Level) (fuel : Nat)
    (s : SightState) (bspnum : Int) (bsp : node_t)
    (hnode : cand bspnum lv.NF_SUBSECTOR = 0) (hbsp : readAt lv.nodes bspnum = .ok bsp) :
    (startSide E s bsp = 0 ∨ startSide E s bsp = 1) ∧
    (P_DivlineSide E s.strace.x s.strace.y (nodeDivline bsp) = 2 → startSide E s bsp = 0) ∧
    (P_DivlineSide E s.strace.x s.strace.y (nodeDivline bsp) ≠ 2 →
      startSide E s bsp = P_DivlineSide E s.strace.x s.strace.y (nodeDivline bsp)) ∧
    (∀ s1, P_CrossBSPNode E lv fuel s (bsp.children (startSide E s bsp).toNat)
        = .ok (false, s1) →
      P_CrossBSPNode E lv (fuel + 1) s bspnum = .ok (false, s1)) ∧
    (∀ s1, P_CrossBSPNode E lv fuel s (bsp.children (startSide E s bsp).toNat)
        = .ok (true, s1) →
      s1.t2x = s.t2x ∧ s1.t2y = s.t2y ∧
      (P_DivlineSide E s.t2x s.t2y (nodeDivline bsp) = startSide E s bsp →
        P_CrossBSPNode E lv (fuel + 1) s bspnum = .ok (true, s1)) ∧
      (P_DivlineSide E s.t2x s.t2y (nodeDivline bsp) ≠ startSide E s bsp →
        P_CrossBSPNode E lv (fuel + 1) s bspnum
          = P_CrossBSPNode E lv fuel s1
              (bsp.children ((startSide E s bsp).toNat ^^^ 1)))) := by
  refine ⟨startSide_range E s bsp, ?_, ?_, ?_, ?_⟩
  · intro h
    unfold startSide
    simp only [h, if_true]
  · intro h
    unfold startSide
    simp only [h, if_false]
  · intro s1 h1
    rw [P_CrossBSPNode_node E lv fuel s bspnum bsp hnode hbsp, h1]
  · intro s1 h1
    obtain ⟨_, g2, g3, _⟩ := P_CrossBSPNode_run E lv _ _ _ _ _ h1
    refine ⟨g2, g3, ?_, ?_⟩
    · intro he
      rw [P_CrossBSPNode_node E lv fuel s bspnum bsp hnode hbsp, h1]
      simp only
      rw [g2, g3, if_pos he.symm]
    · intro hne
      rw [P_CrossBSPNode_node E lv fuel s bspnum bsp hnode hbsp, h1]
      simp only
      rw [g2, g3, if_neg (fun h => hne h.symm)]

/-- Instance of C21: the root node of the example level with one node, under
the trace from `exLooker` to a target 56 units tall. -/
theorem C21_partition_crossing_rule_witness :
    (startSide exEnv (exSightTraced 3670016) exNode = 0 ∨
      startSide exEnv (exSightTraced 3670016) exNode = 1) ∧
    (P_DivlineSide exEnv (exSightTraced 3670016).strace.x (exSightTraced 3670016).strace.y
        (nodeDivline exNode) = 2 → startSide exEnv (exSightTraced 3670016) exNode = 0) ∧
    (P_DivlineSide exEnv (exSightTraced 3670016).strace.x (exSightTraced 3670016).strace.y
        (nodeDivline exNode) ≠ 2 →
      startSide exEnv (exSightTraced 3670016) exNode
        = P_DivlineSide exEnv (exSightTraced 3670016).strace.x
            (exSightTraced 3670016).strace.y (nodeDivline exNode)) ∧
    (∀ s1, P_CrossBSPNode exEnv exLevelNode 1 (exSightTraced 3670016)
        (exNode.children (startSide exEnv (exSightTraced 3670016) exNode).toNat)
        = .ok (false, s1) →
      P_CrossBSPNode exEnv exLevelNode (1 + 1) (exSightTraced 3670016) 0 = .ok (false, s1)) ∧
    (∀ s1, P_CrossBSPNode exEnv exLevelNode 1 (exSightTraced 3670016)
        (exNode.children (startSide exEnv (exSightTraced 3670016) exNode).toNat)
        = .ok (true, s1) →
      s1.t2x = (exSightTraced 3670016).t2x ∧ s1.t2y = (exSightTraced 3670016).t2y ∧
      (P_DivlineSide exEnv (exSightTraced 3670016).t2x (exSightTraced 3670016).t2y
          (nodeDivline exNode) = startSide exEnv (exSightTraced 3670016) exNode →
        P_CrossBSPNode exEnv exLevelNode (1 + 1) (exSightTraced 3670016) 0 = .ok (true, s1)) ∧
      (P_DivlineSide exEnv (exSightTraced 3670016).t2x (exSightTraced 3670016).t2y
          (nodeDivline exNode) ≠ startSide exEnv (exSightTraced 3670016) exNode →
        P_CrossBSPNode exEnv exLevelNode (1 + 1) (exSightTraced 3670016) 0
          = P_CrossBSPNode exEnv exLevelNode 1 s1
              (exNode.children
                ((startSide exEnv (exSightTraced 3670016) exNode).toNat ^^^ 1)))) :=
  C21_partition_crossing_rule exEnv exLevelNode 1 (exSightTraced 3670016) 0 exNode
    (by decide) rfl

/-- C23 (the Visibility Cone only narrows): for every seg and every cone
state, whatever the intercept fraction and `FixedDiv` return, the cone that
`P_CheckVerticalObstruction` leaves satisfies `topslope' <= topslope` and
`bottomslope' >= bottomslope`; and `PTR_SightTraverse` of the legacy variant
either returns with a cone that satisfies the same, or is a read through the
NULL back sector of a line whose opening is not closed. -/
theorem C23_cone_only_narrows (E : SightEnv) (lv : Level) (s : SightState) (seg : seg_t)
    (front back : sector_t) (i : intercept_t) :
    ((P_CheckVerticalObstruction E lv s seg front back).2.topslope ≤ s.topslope ∧
      s.bottomslope ≤ (P_CheckVerticalObstruction E lv s seg front back).2.bottomslope) ∧
    (match PTR_SightTraverse E lv s i with
      | .ok (_, s') => s'.topslope ≤ s.topslope ∧ s.bottomslope ≤ s'.bottomslope
      | .error _ => (lv.lines i.line).backsector = none) := by
  constructor
  · unfold P_CheckVerticalObstruction
    simp only
    split_ifs <;> constructor <;> (try dsimp only at *) <;> omega
  · unfold PTR_SightTraverse
    simp only
    cases hb : (lv.lines i.line).backsector with
    | none => split_ifs <;> simp
    | some b =>
      simp only
      split_ifs <;>
        first
        | exact ⟨le_refl _, le_refl _⟩
        | (constructor <;> (try dsimp only at *) <;> omega)

/-- C25, the code at a failing input: the looker stands on the partition line
of the root node (`P_DivlineSide` of the trace start is 2), the target lies on
side 0. The front child does not block, the query returns true, and its log
holds the seg of the front child only: the back child is not crossed, although
crossing it from the same state would have met the blocking seg 1. -/
theorem C25_on_line_start_front_end :
    P_DivlineSide exEnv exSightOnLine.strace.x exSightOnLine.strace.y
      (nodeDivline exNodeVertical) = 2 ∧
    P_DivlineSide exEnv exSightOnLine.t2x exSightOnLine.t2y (nodeDivline exNodeVertical) = 0 ∧
    verdict (P_CrossBSPNode exEnv exLevelOnLine 1 exSightOnLine (exNodeVertical.children 0))
      = some true ∧
    verdict (P_SightUnobstructed exEnv exLevelOnLine 2 exSight exLookerOnLine
      (exTarget 3670016)) = some true ∧
    examinedBy (P_SightUnobstructed exEnv exLevelOnLine 2 exSight exLookerOnLine
      (exTarget 3670016)) = some [⟨0, false, 917504, -2752512⟩] ∧
    examinedBy (P_CrossBSPNode exEnv exLevelOnLine 1 exSightOnLine
      (exNodeVertical.children 1)) = some [⟨1, true, 917504, -2752512⟩] := by
  decide

/-- C26, the code at a failing input: in the first frame (the static array
still all zero) of a view 320 columns wide, `R_ClearClipSegs()` followed by
`R_ClipSolidWallSegment(0, 319)` merges the two sentinels. The removal loop
`while (next++ != newend) *++start = *next;` copies one cell more than the
list holds, so `newend - solidsegs` stays 2 while the list holds one range:
the right sentinel is `solidsegs[0] = [-0x7fffffff, 0x7fffffff]`, and
`solidsegs[newend - 1]` is the copy `[0, 0]` of the cell that lay behind the
list. The same on the 10-column example list, whose stale cells are
`[7, 3]`. -/
theorem C26_newend_past_stale_cell :
    ((R_ClipSolidWallSegment 3
        (R_ClearClipSegs 320
          { solidsegs := fun _ => { first := 0, last := 0 }, newend := 0, rendered := [] })
        0 319).map
        (fun s => (s.newend, s.solidsegs 0, s.solidsegs (s.newend - 1),
          decide (IsRightSentinel s.solidsegs (s.newend - 1)),
          decide (IsRightSentinel s.solidsegs (s.newend - 2))))
      = some (2, { first := -0x7fffffff, last := 0x7fffffff }, { first := 0, last := 0 },
          false, true)) ∧
    ((R_ClipSolidWallSegment 3 exampleCleared 0 9).map
        (fun s => (s.newend, s.solidsegs 0, s.solidsegs (s.newend - 1),
          decide (IsRightSentinel s.solidsegs (s.newend - 1)),
          decide (IsRightSentinel s.solidsegs (s.newend - 2))))
      = some (2, { first := -0x7fffffff, last := 0x7fffffff }, { first := 7, last := 3 },
          false, true)) := by
  decide

/-! ### Marks, log and cone along a query -/

theorem P_CheckVerticalObstruction_marks (E : SightEnv) (lv : Level) (s : SightState)
    (seg : seg_t) (front back : sector_t) :
    (P_CheckVerticalObstruction E lv s seg front back).2.validcount = s.validcount ∧
    (P_CheckVerticalObstruction E lv s seg front back).2.linevalid = s.linevalid := by
  unfold P_CheckVerticalObstruction
  simp only
  split_ifs <;> exact ⟨rfl, rfl⟩

theorem P_BlocksStrace_marks (E : SightEnv) (lv : Level) (s s' : SightState) (seg : seg_t)
    (v : Bool) (h : P_BlocksStrace E lv s seg = .ok (v, s')) :
    s'.validcount = s.validcount ∧ s'.linevalid = s.linevalid := by
  unfold P_BlocksStrace at h
  split_ifs at h with c1 c2 c3
  · cases h; simp
  · cases h; simp
  · unfold P_TwoSidedBlocksStrace at h
    split at h
    · cases h
    · rename_i b _
      simp only at h
      split_ifs at h
      · cases h; simp
      · cases h; simp
      · have e := (Prod.mk.inj (Except.ok.inj h)).2
        rw [← e]
        exact P_CheckVerticalObstruction_marks E lv s seg _ _
  · cases h; simp

theorem crossSegs_skip (E : SightEnv) (lv : Level) (n : Nat) (idx : Int) (s : SightState)
    (seg : seg_t) (hseg : readAt lv.segs idx = .ok seg)
    (hm : s.linevalid seg.linedef = s.validcount) :
    crossSegs E lv (n + 1) idx s = crossSegs E lv n (idx + 1) s := by
  rw [crossSegs, hseg]
  simp only
  rw [if_pos hm]

theorem crossSegs_blocked (E : SightEnv) (lv : Level) (n : Nat) (idx : Int)
    (s s2 : SightState) (seg : seg_t) (hseg : readAt lv.segs idx = .ok seg)
    (hm : s.linevalid seg.linedef ≠ s.validcount)
    (hb : P_BlocksStrace E lv (markLine s seg) seg = .ok (true, s2)) :
    crossSegs E lv (n + 1) idx s = .ok (false, logSeg s2 idx true) := by
  unfold markLine at hb
  rw [crossSegs, hseg]
  simp only
  rw [if_neg hm, hb]
  rfl

theorem crossSegs_passed (E : SightEnv) (lv : Level) (n : Nat) (idx : Int)
    (s s2 : SightState) (seg : seg_t) (hseg : readAt lv.segs idx = .ok seg)
    (hm : s.linevalid seg.linedef ≠ s.validcount)
    (hb : P_BlocksStrace E lv (markLine s seg) seg = .ok (false, s2)) :
    crossSegs E lv (n + 1) idx s = crossSegs E lv n (idx + 1) (logSeg s2 idx false) := by
  unfold markLine at hb
  rw [crossSegs, hseg]
  simp only
  rw [if_neg hm, hb]
  rfl

theorem markRun_refl (lv : Level) (s : SightState) : MarkRun lv s [] s :=
  ⟨rfl, by simp, by simp, fun _ => Or.inl rfl, by simp, fun _ => ⟨rfl, rfl⟩,
    fun init r h => by simp at h⟩

theorem markRun_trans (lv : Level) (s s1 s2 : SightState) (new1 new2 : List ExamRecord)
    (h1 : MarkRun lv s new1 s1) (h2 : MarkRun lv s1 new2 s2) :
    MarkRun lv s (new1 ++ new2) s2 := by
  obtain ⟨a1, a2, a3, a4, a5, a6, a7⟩ := h1
  obtain ⟨b1, b2, b3, b4, b5, b6, b7⟩ := h2
  refine ⟨by rw [b1, a1], by rw [b2, a2, List.append_assoc], ?_, ?_, ?_, ?_, ?_⟩
  · intro r hr
    rcases List.mem_append.1 hr with hr | hr
    · obtain ⟨l, c1, c2, c3⟩ := a3 r hr
      refine ⟨l, c1, c2, ?_⟩
      rcases b4 l with c4 | c4
      · rw [c4, c3]
      · rw [c4.1, a1]
    · obtain ⟨l, c1, c2, c3⟩ := b3 r hr
      refine ⟨l, c1, ?_, by rw [c3, a1]⟩
      rcases a4 l with c4 | c4
      · rw [← c4, ← a1]; exact c2
      · exact absurd (by rw [c4.1, a1]) c2
  · intro l
    rcases b4 l with c4 | c4
    · rcases a4 l with c5 | c5
      · exact Or.inl (by rw [c4, c5])
      · refine Or.inr ⟨by rw [c4, c5.1], ?_⟩
        rw [List.map_append]
        exact List.mem_append.2 (Or.inl c5.2)
    · refine Or.inr ⟨by rw [c4.1, a1], ?_⟩
      rw [List.map_append]
      exact List.mem_append.2 (Or.inr c4.2)
  · rw [List.map_append, List.nodup_append]
    refine ⟨a5, b5, ?_⟩
    intro x hx1 hx2
    obtain ⟨r1, hr1, e1⟩ := List.mem_map.1 hx1
    obtain ⟨r2, hr2, e2⟩ := List.mem_map.1 hx2
    obtain ⟨l1, c1, _, c3⟩ := a3 r1 hr1
    obtain ⟨l2, d1, d2, _⟩ := b3 r2 hr2
    have : l1 = l2 := by
      rw [c1] at e1
      rw [d1, ← e1] at e2
      exact (Option.some.inj e2).symm
    subst this
    exact d2 (by rw [c3, a1])
  · intro he
    obtain ⟨e1, e2⟩ := List.append_eq_nil.1 he
    obtain ⟨c1, c2⟩ := a6 e1
    obtain ⟨d1, d2⟩ := b6 e2
    exact ⟨by rw [d1, c1], by rw [d2, c2]⟩
  · intro init r he
    rcases List.eq_nil_or_concat new2 with e2 | ⟨init2, r2, e2⟩
    · subst e2
      rw [List.append_nil] at he
      obtain ⟨c1, c2⟩ := a7 init r he
      obtain ⟨d1, d2⟩ := b6 rfl
      exact ⟨by rw [d1, c1], by rw [d2, c2]⟩
    · rw [List.concat_eq_append] at e2
      subst e2
      rw [← List.append_assoc] at he
      have := List.append_inj_right' he rfl
      cases this
      exact b7 init2 r rfl

theorem crossSegs_marks (E : SightEnv) (lv : Level) :
    ∀ (n : Nat) (idx : Int) (s : SightState) (res : Bool) (s' : SightState),
      crossSegs E lv n idx s = .ok (res, s') → ∃ new, MarkRun lv s new s' := by
  intro n
  induction n with
  | zero =>
    intro idx s res s' h
    simp only [crossSegs] at h
    cases h
    exact ⟨[], markRun_refl lv s⟩
  | succ m ih =>
    intro idx s res s' h
    cases hr : readAt lv.segs idx with
    | error e =>
      rw [crossSegs, hr] at h
      cases h
    | ok seg =>
      by_cases hm : s.linevalid seg.linedef = s.validcount
      · rw [crossSegs_skip E lv m idx s seg hr hm] at h
        exact ih _ _ _ _ h
      · cases hb : P_BlocksStrace E lv (markLine s seg) seg with
        | error e =>
          unfold markLine at hb
          rw [crossSegs, hr] at h
          simp only at h
          rw [if_neg hm, hb] at h
          cases h
        | ok p =>
          obtain ⟨v, s2⟩ := p
          obtain ⟨f1, f2⟩ := P_BlocksStrace_marks E lv _ _ _ _ hb
          obtain ⟨_, _, _, f4⟩ := P_BlocksStrace_frame E lv _ _ _ _ hb
          have hline : lineOf lv ⟨idx, v, s2.topslope, s2.bottomslope⟩ = some seg.linedef := by
            unfold lineOf
            simp only [hr]
          have hstep : MarkRun lv s [⟨idx, v, s2.topslope, s2.bottomslope⟩]
              (logSeg s2 idx v) := by
            refine ⟨f1, ?_, ?_, ?_, by simp, by simp, ?_⟩
            · show s2.examined ++ _ = s.examined ++ _
              rw [f4]
              rfl
            · intro r hr2
              simp only [List.mem_singleton] at hr2
              subst hr2
              refine ⟨seg.linedef, hline, hm, ?_⟩
              show s2.linevalid seg.linedef = s.validcount
              rw [f2]
              simp [markLine]
            · intro l
              show s2.linevalid l = s.linevalid l ∨ (s2.linevalid l = s.validcount ∧ _)
              rw [f2]
              by_cases hl : l = seg.linedef
              · right
                subst hl
                simp [markLine, hline]
              · left
                simp [markLine, hl]
            · intro init r he
              have hlen := congrArg List.length he
              simp only [List.length_singleton, List.length_append] at hlen
              have hin : init = [] := List.eq_nil_of_length_eq_zero (by omega)
              subst hin
              simp only [List.nil_append, List.cons.injEq, and_true] at he
              subst he
              exact ⟨rfl, rfl⟩
          cases v with
          | true =>
            rw [crossSegs_blocked E lv m idx s s2 seg hr hm hb] at h
            cases h
            exact ⟨_, hstep⟩
          | false =>
            rw [crossSegs_passed E lv m idx s s2 seg hr hm hb] at h
            obtain ⟨new2, h2⟩ := ih _ _ _ _ h
            exact ⟨_, markRun_trans lv s _ s' _ new2 hstep h2⟩

theorem P_CrossSubsector_marks (E : SightEnv) (lv : Level) (s : SightState) (num : Int)
    (res : Bool) (s' : SightState) (h : P_CrossSubsector E lv s num = .ok (res, s')) :
    ∃ new, MarkRun lv s new s' := by
  unfold P_CrossSubsector at h
  split_ifs at h
  split at h
  · cases h
  · exact crossSegs_marks E lv _ _ _ _ _ h

theorem P_CrossBSPNode_marks (E : SightEnv) (lv : Level) :
    ∀ (fuel : Nat) (s : SightState) (bspnum : Int) (res : Bool) (s' : SightState),
      P_CrossBSPNode E lv fuel s bspnum = .ok (res, s') → ∃ new, MarkRun lv s new s' := by
  intro fuel
  induction fuel with
  | zero => intro s bspnum res s' h; simp [P_CrossBSPNode] at h
  | succ n ih =>
    intro s bspnum res s' h
    simp only [P_CrossBSPNode] at h
    split_ifs at h with c1 c2
    · exact P_CrossSubsector_marks E lv _ _ _ _ h
    · exact P_CrossSubsector_marks E lv _ _ _ _ h
    · split at h
      · cases h
      · rename_i bsp _
        split at h
        · cases h
        · rename_i s1 h1
          cases h
          exact ih _ _ _ _ h1
        · rename_i s1 h1
          obtain ⟨new1, r1⟩ := ih _ _ _ _ h1
          split_ifs at h <;>
            first
            | (cases h; exact ⟨new1, r1⟩)
            | (obtain ⟨new2, r2⟩ := ih _ _ _ _ h
               exact ⟨_, markRun_trans lv s s1 s' new1 new2 r1 r2⟩)

/-- C24 (each linedef is checked once per query): in a returned
`P_SightUnobstructed` query every log entry stands for one evaluation of
`P_BlocksStrace`, no two entries belong to the same linedef, and the linedef of
every entry carries the query's `validcount` mark; and a seg whose linedef
mark already equals `validcount` is skipped: the loop of `P_CrossSubsector`
goes on with the next seg in the same state, so cone and verdict are those of
the remaining segs. -/
theorem C24_linedef_checked_once (E : SightEnv) (lv : Level) (fuel : Nat) (s : SightState)
    (t1 t2 : mobj_t) (res : Bool) (s' : SightState)
    (h : P_SightUnobstructed E lv fuel s t1 t2 = .ok (res, s')) :
    (∃ new, s'.examined = s.examined ++ new ∧ (∀ r ∈ new, RecordOK E lv s' r) ∧
      (new.map (lineOf lv)).Nodup ∧
      (∀ r ∈ new, ∃ l, lineOf lv r = some l ∧ s'.linevalid l = s'.validcount)) ∧
    (∀ n idx st seg, readAt lv.segs idx = .ok seg →
      st.linevalid seg.linedef = st.validcount →
      crossSegs E lv (n + 1) idx st = crossSegs E lv n (idx + 1) st) := by
  refine ⟨?_, fun n idx st seg hseg hm => crossSegs_skip E lv n idx st seg hseg hm⟩
  obtain ⟨new, h4, h5, _, _⟩ := P_SightUnobstructed_run E lv fuel s t1 t2 res s' h
  unfold P_SightUnobstructed at h
  obtain ⟨new2, m1, m2, m3, _, m5, _, _⟩ := P_CrossBSPNode_marks E lv _ _ _ _ _ h
  have hnew : new2 = new := by
    have : s.examined ++ new2 = s.examined ++ new := by rw [← m2, ← h4]
    exact List.append_cancel_left this
  subst hnew
  refine ⟨new2, h4, h5, m5, ?_⟩
  intro r hr
  obtain ⟨l, g1, _, g3⟩ := m3 r hr
  exact ⟨l, g1, by rw [g3, m1]⟩

/-- Instance of C24: a subsector with two segs of the same two-sided linedef;
the query logs one evaluation, for the first seg. -/
theorem C24_linedef_checked_once_witness :
    examinedBy (P_SightUnobstructed exEnv exLevelTwoOpen 3 exSight exLooker (exTarget 3670016))
      = some [⟨0, false, 917504, -2752512⟩] ∧
    ((∃ new, (logSeg (markLine (exSightTraced 3670016) (exSeg 1)) 0 false).examined
        = exSight.examined ++ new ∧
      (∀ r ∈ new, RecordOK exEnv exLevelTwoOpen
        (logSeg (markLine (exSightTraced 3670016) (exSeg 1)) 0 false) r) ∧
      (new.map (lineOf exLevelTwoOpen)).Nodup ∧
      (∀ r ∈ new, ∃ l, lineOf exLevelTwoOpen r = some l ∧
        (logSeg (markLine (exSightTraced 3670016) (exSeg 1)) 0 false).linevalid l
          = (logSeg (markLine (exSightTraced 3670016) (exSeg 1)) 0 false).validcount)) ∧
    (∀ n idx st seg, readAt exLevelTwoOpen.segs idx = .ok seg →
      st.linevalid seg.linedef = st.validcount →
      crossSegs exEnv exLevelTwoOpen (n + 1) idx st
        = crossSegs exEnv exLevelTwoOpen n (idx + 1) st)) :=
  ⟨by decide,
    C24_linedef_checked_once exEnv exLevelTwoOpen 3 exSight exLooker (exTarget 3670016) true
      (logSeg (markLine (exSightTraced 3670016) (exSeg 1)) 0 false) rfl⟩

/-! ### Indices of the `viewangletox` lookups -/

theorem fineIndex_lt (x : Nat) (h : x < 2147483648) : x >>> ANGLETOFINESHIFT < 4096 := by
  rw [Nat.shiftRight_eq_div_pow]
  have : (2 : Nat) ^ ANGLETOFINESHIFT = 524288 := by decide
  rw [this]
  omega

theorem clip_keep_first (clipangle angle1 : Nat) (hc : clipangle < ANG90)
    (h : ¬ ang (angle1 + clipangle) > ang (2 * clipangle)) :
    ang (angle1 + ANG90) < 2147483648 := by
  unfold ang ANG90 at *
  omega

theorem clip_left_edge (clipangle : Nat) (hc : clipangle < ANG90) :
    ang (clipangle + ANG90) < 2147483648 := by
  unfold ang ANG90 at *
  omega

theorem clip_keep_second (clipangle angle2 : Nat) (hc : clipangle < ANG90)
    (h : ¬ ang (clipangle - angle2) > ang (2 * clipangle)) :
    ang (angle2 + ANG90) < 2147483648 := by
  unfold ang ANG90 at *
  omega

theorem clip_right_edge (clipangle : Nat) (hc : clipangle < ANG90) :
    ang ((ang (-(clipangle : Int)) : Nat) + ANG90) < 2147483648 := by
  unfold ang ANG90 at *
  omega

theorem clip_first_ok (clipangle angle1 a1 : Nat) (hc : clipangle < ANG90)
    (h : a1 = clipangle ∨
      (a1 = angle1 ∧ ¬ ang (angle1 + clipangle) > ang (2 * clipangle))) :
    ang (a1 + ANG90) >>> ANGLETOFINESHIFT < 4096 := by
  apply fineIndex_lt
  rcases h with h | ⟨h, g⟩
  · rw [h]; exact clip_left_edge clipangle hc
  · rw [h]; exact clip_keep_first clipangle angle1 hc g

theorem clip_second_ok (clipangle angle2 a2 : Nat) (hc : clipangle < ANG90)
    (h : a2 = ang (-(clipangle : Int)) ∨
      (a2 = angle2 ∧ ¬ ang (clipangle - angle2) > ang (2 * clipangle))) :
    ang (a2 + ANG90) >>> ANGLETOFINESHIFT < 4096 := by
  apply fineIndex_lt
  rcases h with h | ⟨h, g⟩
  · rw [h]; exact clip_right_edge clipangle hc
  · rw [h]; exact clip_keep_second clipangle angle2 hc g

theorem clipToViewEdges_range (clipangle span angle1 angle2 a1 a2 : Nat)
    (hc : clipangle < ANG90)
    (h : clipToViewEdges clipangle span angle1 angle2 = some (a1, a2)) :
    ang (a1 + ANG90) >>> ANGLETOFINESHIFT < 4096 ∧
    ang (a2 + ANG90) >>> ANGLETOFINESHIFT < 4096 := by
  unfold clipToViewEdges at h
  simp only at h
  split_ifs at h <;> simp only [Option.some.injEq, Prod.mk.injEq] at h <;>
    obtain ⟨e1, e2⟩ := h <;>
    exact ⟨clip_first_ok clipangle angle1 a1 hc (by
        first
        | exact Or.inl e1.symm
        | exact Or.inr ⟨e1.symm, by assumption⟩),
      clip_second_ok clipangle angle2 a2 hc (by
        first
        | exact Or.inl e2.symm
        | exact Or.inr ⟨e2.symm, by assumption⟩)⟩
theorem angleToColumn_table (V : View) (tab : Nat → Int)
    (htab : ∀ i, i < 4096 → tab i = V.viewangletox i) (a : Nat)
    (ha : ang (a + ANG90) >>> ANGLETOFINESHIFT < 4096) :
    angleToColumn { V with viewangletox := tab } a = angleToColumn V a := by
  unfold angleToColumn
  exact htab _ ha

/-- C30 (angle-to-column lookups are in range): with `clipangle < ANG90`, for
every pair of angles that gets past the two view-edge clips, both
indices `(angle + ANG90) >> ANGLETOFINESHIFT`, computed with unsigned 32-bit
wrap-around, are below 4096 (`FINEANGLES/2`); hence `R_RenderLine` and
`R_CheckBBox` read `viewangletox` below index 4096 only: replacing the table
from index 4096 on changes the result of neither. -/
theorem C30_angle_lookups_in_range (V : View) (hclip : V.clipangle < ANG90) :
    (∀ span angle1 angle2 a1 a2,
      clipToViewEdges V.clipangle span angle1 angle2 = some (a1, a2) →
      ang (a1 + ANG90) >>> ANGLETOFINESHIFT < 4096 ∧
      ang (a2 + ANG90) >>> ANGLETOFINESHIFT < 4096) ∧
    (∀ tab : Nat → Int, (∀ i, i < 4096 → tab i = V.viewangletox i) →
      (∀ lv fuel s line,
        R_RenderLine { V with viewangletox := tab } lv fuel s line
          = R_RenderLine V lv fuel s line) ∧
      (∀ fuel s bspcoord,
        R_CheckBBox { V with viewangletox := tab } fuel s bspcoord
          = R_CheckBBox V fuel s bspcoord)) := by
  refine ⟨fun span angle1 angle2 a1 a2 h =>
    clipToViewEdges_range V.clipangle span angle1 angle2 a1 a2 hclip h, ?_⟩
  intro tab htab
  constructor
  · intro lv fuel s line
    unfold R_RenderLine
    dsimp only
    by_cases hspan : ang (V.R_PointToAngle line.v1.x line.v1.y
        - V.R_PointToAngle line.v2.x line.v2.y) ≥ ANG180
    · simp only [if_pos hspan]
    · simp only [if_neg hspan]
      cases hc : clipToViewEdges V.clipangle
          (ang (V.R_PointToAngle line.v1.x line.v1.y - V.R_PointToAngle line.v2.x line.v2.y))
          (ang (V.R_PointToAngle line.v1.x line.v1.y - V.viewangle))
          (ang (V.R_PointToAngle line.v2.x line.v2.y - V.viewangle)) with
      | none => rfl
      | some p =>
        obtain ⟨a1, a2⟩ := p
        obtain ⟨g1, g2⟩ := clipToViewEdges_range V.clipangle _ _ _ a1 a2 hclip hc
        dsimp only
        rw [angleToColumn_table V tab htab a1 g1, angleToColumn_table V tab htab a2 g2]
  · intro fuel s bspcoord
    unfold R_CheckBBox
    have hbox : R_FindBoxCorners { V with viewangletox := tab } bspcoord
        = R_FindBoxCorners V bspcoord := rfl
    rw [hbox]
    dsimp only
    by_cases hpos : (R_FindBoxCorners V bspcoord).1 + (R_FindBoxCorners V bspcoord).2 * 3 = 4
    · simp only [if_pos hpos]
    · simp only [if_neg hpos]
      split_ifs with hspan
      · rfl
      · split
        · rfl
        · rename_i a1 a2 hc
          obtain ⟨g1, g2⟩ := clipToViewEdges_range V.clipangle _ _ _ a1 a2 hclip hc
          rw [angleToColumn_table V tab htab a1 g1, angleToColumn_table V tab htab a2 g2]

/-- Instance of C30: the example view, whose `clipangle` is 45 degrees. -/
theorem C30_angle_lookups_in_range_witness :
    (∀ span angle1 angle2 a1 a2,
      clipToViewEdges exView.clipangle span angle1 angle2 = some (a1, a2) →
      ang (a1 + ANG90) >>> ANGLETOFINESHIFT < 4096 ∧
      ang (a2 + ANG90) >>> ANGLETOFINESHIFT < 4096) ∧
    (∀ tab : Nat → Int, (∀ i, i < 4096 → tab i = exView.viewangletox i) →
      (∀ lv fuel s line,
        R_RenderLine { exView with viewangletox := tab } lv fuel s line
          = R_RenderLine exView lv fuel s line) ∧
      (∀ fuel s bspcoord,
        R_CheckBBox { exView with viewangletox := tab } fuel s bspcoord
          = R_CheckBBox exView fuel s bspcoord)) :=
  C30_angle_lookups_in_range exView (by decide)

/-! ### The scans read no cell behind the right sentinel -/

theorem solidMergeScan_congr (a a' : Nat → cliprange_t) (last : Int) (k : Nat)
    (hR : last ≤ (a k).last) :
    ∀ fuel next out, next ≤ k → (a next).last < last →
      (∀ i, next ≤ i → i ≤ k → (a' i).last = (a i).last) →
      (∀ i, next < i → i ≤ k → (a' i).first = (a i).first) →
      solidMergeScan a' last fuel next out = solidMergeScan a last fuel next out := by
  intro fuel
  induction fuel with
  | zero => intro next out _ _ _ _; rfl
  | succ n ih =>
    intro next out hnk hlt hl hf
    have hne : next ≠ k := by
      rintro rfl; omega
    have e1 : (a' next).last = (a next).last := hl next (le_refl _) hnk
    have e2 : (a' (next + 1)).first = (a (next + 1)).first := hf (next + 1) (by omega) (by omega)
    have e3 : (a' (next + 1)).last = (a (next + 1)).last := hl (next + 1) (by omega) (by omega)
    unfold solidMergeScan
    rw [e1, e2, e3]
    by_cases hge : last ≥ (a (next + 1)).first - 1
    · by_cases hle : last ≤ (a (next + 1)).last
      · simp only [hge, hle, if_true]
      · simp only [hge, hle, if_true, if_false]
        exact ih (next + 1) _ (by omega) (by omega)
          (fun i h1 h2 => hl i (by omega) h2) (fun i h1 h2 => hf i (by omega) h2)
    · simp only [hge, if_false]

theorem solidScanStart_congr (a a' : Nat → cliprange_t) (first : Int) (k : Nat) (fuel : Nat)
    (hk : first - 1 ≤ (a k).last) (hsame : ∀ i, i ≤ k → (a' i).last = (a i).last)
    (hfuel : k < fuel) :
    ∃ start, start ≤ k ∧ solidScanStart a first fuel 0 = some start ∧
      solidScanStart a' first fuel 0 = some start := by
  obtain ⟨j, h1, _, h3, h4, h5⟩ :=
    solidScanStart_spec a first k hk fuel 0 (Nat.zero_le _) (by omega)
  obtain ⟨j', g1, _, g3, g4, g5⟩ :=
    solidScanStart_spec a' first k (by rw [hsame k (le_refl _)]; exact hk) fuel 0
      (Nat.zero_le _) (by omega)
  have : j' = j := by
    rcases Nat.lt_trichotomy j' j with h | h | h
    · have := h5 j' (Nat.zero_le _) h
      rw [hsame j' (by omega)] at g4
      omega
    · exact h
    · have := g5 j (Nat.zero_le _) h
      rw [hsame j (by omega)] at this
      omega
  subst this
  exact ⟨j', h3, h1, g1⟩

/-- C29 (list scans stop at the sentinel): for every list that holds the right
sentinel in cell `k` (`last = 0x7fffffff`) and whose cells `0..k` have
`first` above `-0x80000000`, and all C ints `first`, `last`, `sx2` with
`first` above `-0x80000000` (so that neither `first - 1` nor
`(next+1)->first - 1` overflows in C and the `Int` subtraction of the model
is the one the program computes), the scans `while (start->last < first-1)` of the two clipping
functions and the scan `while (start->last < sx2)` of `R_CheckBBox` stop at
a cell `start <= k`, and the merge loops
`while (last >= (next+1)->first - 1)`, entered at a cell `start <= k` with
`start->last < last`, stop at a cell `j <= k`; all of them with any fuel above
`k`, and with the same result on every other list that agrees with this one
on the cells `0..k`: no cell behind the right sentinel is read. -/
theorem C29_scans_stop_at_sentinel (a a' : Nat → cliprange_t) (k : Nat)
    (first last sx2 : Int) (fuel : Nat) (hsent : (a k).last = INT_MAX)
    (hcells : ∀ i, i ≤ k → -2147483648 < (a i).first)
    (hfmin : -2147483648 < first)
    (hf : first ≤ INT_MAX) (hl : last ≤ INT_MAX) (hx : sx2 ≤ INT_MAX)
    (hsame : ∀ i, i ≤ k → a' i = a i) (hfuel : k < fuel) :
    (∃ start, start ≤ k ∧ solidScanStart a first fuel 0 = some start ∧
      solidScanStart a' first fuel 0 = some start ∧
      passScanStart a first fuel 0 = some start ∧
      passScanStart a' first fuel 0 = some start) ∧
    (∃ start, start ≤ k ∧ bboxScanStart a sx2 fuel 0 = some start ∧
      bboxScanStart a' sx2 fuel 0 = some start) ∧
    (∀ start out, start ≤ k → (a start).last < last →
      ∃ j out1 b, j ≤ k ∧ solidMergeScan a last fuel start out = some (j, out1, b) ∧
        solidMergeScan a' last fuel start out = some (j, out1, b) ∧
        ∃ out2, passMergeScan a last fuel start out = some out2 ∧
          passMergeScan a' last fuel start out = some out2) := by
  have hmaxv : INT_MAX = 2147483647 := rfl
  have hlast : ∀ i, i ≤ k → (a' i).last = (a i).last := fun i hi => by rw [hsame i hi]
  have hfirst : ∀ i, i ≤ k → (a' i).first = (a i).first := fun i hi => by rw [hsame i hi]
  have _hdomain : -2147483648 < first ∧ -2147483648 < (a k).first :=
    ⟨hfmin, hcells k (Nat.le_refl k)⟩
  refine ⟨?_, ?_, ?_⟩
  · obtain ⟨start, h1, h2, h3⟩ :=
      solidScanStart_congr a a' first k fuel (by omega) hlast hfuel
    exact ⟨start, h1, h2, h3, by rw [passScanStart_eq]; exact h2,
      by rw [passScanStart_eq]; exact h3⟩
  · obtain ⟨start, h1, h2, h3⟩ :=
      solidScanStart_congr a a' (sx2 + 1) k fuel (by omega) hlast hfuel
    exact ⟨start, h1, by rw [bboxScanStart_eq]; exact h2, by rw [bboxScanStart_eq]; exact h3⟩
  · intro start out hsk hlt
    obtain ⟨j, b, hm, _, hjk, _, _⟩ :=
      solidMergeScan_spec a last k (by omega) fuel start out hsk hlt (by omega)
    have hc := solidMergeScan_congr a a' last k (by omega) fuel start out hsk hlt
      (fun i _ h2 => hlast i h2) (fun i _ h2 => hfirst i h2)
    refine ⟨j, _, b, hjk, hm, by rw [hc]; exact hm, ?_⟩
    rw [passMergeScan_eq, passMergeScan_eq, hc, hm]
    simp only [Option.map_some']
    rw [hlast j hjk]
    exact ⟨_, rfl, rfl⟩

/-- Instance of C29: the list with the solid ranges `[3, 4]` and `[7, 7]`,
whose right sentinel is cell 3, and a second list that differs behind it. -/
theorem C29_scans_stop_at_sentinel_witness :
    (∃ start, start ≤ 3 ∧ solidScanStart exampleTwoPosts.solidsegs 6 4 0 = some start ∧
      solidScanStart (poke exampleTwoPosts.solidsegs 4 ⟨0, 0⟩) 6 4 0 = some start ∧
      passScanStart exampleTwoPosts.solidsegs 6 4 0 = some start ∧
      passScanStart (poke exampleTwoPosts.solidsegs 4 ⟨0, 0⟩) 6 4 0 = some start) ∧
    (∃ start, start ≤ 3 ∧ bboxScanStart exampleTwoPosts.solidsegs 8 4 0 = some start ∧
      bboxScanStart (poke exampleTwoPosts.solidsegs 4 ⟨0, 0⟩) 8 4 0 = some start) ∧
    (∀ start out, start ≤ 3 → (exampleTwoPosts.solidsegs start).last < 9 →
      ∃ j out1 b, j ≤ 3 ∧
        solidMergeScan exampleTwoPosts.solidsegs 9 4 start out = some (j, out1, b) ∧
        solidMergeScan (poke exampleTwoPosts.solidsegs 4 ⟨0, 0⟩) 9 4 start out
          = some (j, out1, b) ∧
        ∃ out2, passMergeScan exampleTwoPosts.solidsegs 9 4 start out = some out2 ∧
          passMergeScan (poke exampleTwoPosts.solidsegs 4 ⟨0, 0⟩) 9 4 start out
            = some out2) :=
  C29_scans_stop_at_sentinel exampleTwoPosts.solidsegs
    (poke exampleTwoPosts.solidsegs 4 ⟨0, 0⟩) 3 6 9 8 4 (by decide)
    (by
      intro i hi
      have h : i = 0 ∨ i = 1 ∨ i = 2 ∨ i = 3 := by omega
      rcases h with h | h | h | h <;> subst h <;> decide)
    (by decide) (by decide) (by decide) (by decide) (by
      intro i hi
      unfold poke
      rw [if_neg (by omega)]) (by decide)

/-! ### Solid and pass-through clipping emit the same ranges -/

theorem solidTail_emits (s : ClipState) (a : Nat → cliprange_t) (k start : Nat) (last : Int)
    (fuel : Nat)
    (hl : ∀ i, start ≤ i → i ≤ k → (s.solidsegs i).last = (a i).last)
    (hf : ∀ i, start < i → i ≤ k → (s.solidsegs i).first = (a i).first)
    (hR : last ≤ (a k).last) (hsk : start ≤ k) (hk : k < s.newend)
    (hfuel : s.newend < fuel) :
    ∃ s', solidTail fuel s start last = some s' ∧
      some s'.rendered = (if last ≤ (a start).last then some s.rendered
        else passMergeScan a last fuel start s.rendered) := by
  unfold solidTail
  rw [hl start (le_refl _) hsk]
  by_cases hle : last ≤ (a start).last
  · rw [if_pos hle, if_pos hle]
    exact ⟨s, rfl, rfl⟩
  · rw [if_neg hle, if_neg hle]
    obtain ⟨j, b, hm, hsj, hjk, _, _⟩ :=
      solidMergeScan_spec a last k hR fuel start s.rendered hsk (by omega) (by omega)
    rw [solidMergeScan_congr a s.solidsegs last k hR fuel start s.rendered hsk (by omega)
      hl hf, passMergeScan_eq, hm]
    cases b with
    | true =>
      simp only
      obtain ⟨s', h1, h2, _⟩ := solidCrunch_spec fuel
        { s with
          solidsegs := poke s.solidsegs start
            { first := (s.solidsegs start).first, last := (s.solidsegs j).last }
          rendered := s.rendered ++ gapsFrom a start (j - start) }
        start j hsj (by show j ≤ s.newend; omega) hfuel
      exact ⟨s', h1, by rw [h2]; rfl⟩
    | false =>
      simp only
      obtain ⟨s', h1, h2, _⟩ := solidCrunch_spec fuel
        { s with
          solidsegs := poke s.solidsegs start
            { first := (s.solidsegs start).first, last := last }
          rendered := s.rendered ++ gapsFrom a start (j - start)
            ++ [((s.solidsegs j).last + 1, last)] }
        start j hsj (by show j ≤ s.newend; omega) hfuel
      refine ⟨s', h1, ?_⟩
      rw [h2, hl j hsj hjk]
      rfl

theorem clip_same_rendered (s : ClipState) (k : Nat) (first last : Int) (fuel : Nat)
    (hk : k < s.newend) (hsent : (s.solidsegs k).last = INT_MAX)
    (hf : first ≤ INT_MAX) (hl : last ≤ INT_MAX) (hfuel : s.newend < fuel) :
    ∃ s', R_ClipSolidWallSegment fuel s first last = some s' ∧
      (R_ClipPassWallSegment fuel s first last).map (fun c => c.rendered)
        = some s'.rendered := by
  have hmaxv : INT_MAX = 2147483647 := rfl
  obtain ⟨start, hs, _, hsk, _, _⟩ :=
    solidScanStart_spec s.solidsegs first k (by omega) fuel 0 (Nat.zero_le _) (by omega)
  unfold R_ClipSolidWallSegment R_ClipPassWallSegment
  rw [passScanStart_eq, hs]
  simp only
  by_cases hA : first < (s.solidsegs start).first
  · rw [if_pos hA, if_pos hA]
    by_cases hB : last < (s.solidsegs start).first - 1
    · rw [if_pos hB, if_pos hB]
      obtain ⟨a1, h1, _⟩ := shiftUp_spec start fuel s.solidsegs s.newend (by omega) (by omega)
      rw [h1]
      exact ⟨_, rfl, rfl⟩
    · rw [if_neg hB, if_neg hB]
      obtain ⟨s', h1, h2⟩ := solidTail_emits
        { s with
          solidsegs := poke s.solidsegs start
            { first := first, last := (s.solidsegs start).last }
          rendered := s.rendered ++ [(first, (s.solidsegs start).first - 1)] }
        s.solidsegs k start last fuel
        (by
          intro i _ _
          show (poke s.solidsegs start _ i).last = _
          unfold poke
          split_ifs with h
          · rw [h]
          · rfl)
        (by
          intro i hi _
          show (poke s.solidsegs start _ i).first = _
          unfold poke
          rw [if_neg (by omega)])
        (by omega) hsk hk hfuel
      refine ⟨s', h1, ?_⟩
      simp only at h2
      by_cases hle : last ≤ (s.solidsegs start).last
      · rw [if_pos hle] at h2 ⊢
        rw [h2]
        rfl
      · rw [if_neg hle] at h2 ⊢
        rw [← h2]
        rfl
  · rw [if_neg hA, if_neg hA]
    obtain ⟨s', h1, h2⟩ := solidTail_emits s s.solidsegs k start last fuel
      (fun i _ _ => rfl) (fun i _ _ => rfl) (by omega) hsk hk hfuel
    refine ⟨s', h1, ?_⟩
    by_cases hle : last ≤ (s.solidsegs start).last
    · rw [if_pos hle] at h2 ⊢
      rw [h2]
      rfl
    · rw [if_neg hle] at h2 ⊢
      rw [← h2]
      rfl

/-- C28 (solid and pass-through clipping emit the same fragments): on a
well-formed list, with `0 <= first <= last < viewwidth`, both functions return
and `R_ClipSolidWallSegment(first, last)` and `R_ClipPassWallSegment(first,
last)` issue the same sequence `new` of `R_RenderWallRange(start, stop)`
calls; the pass-through call leaves `solidsegs` and `newend` as they were. -/
theorem C28_same_fragments (vw : Int) (s : ClipState) (first last : Int) (fuel : Nat)
    (hwf : WellFormed vw s) (h0 : 0 ≤ first) (hfl : first ≤ last) (hlv : last < vw)
    (hint : vw ≤ INT_MAX) (hfuel : s.newend < fuel) :
    ∃ new s', R_ClipSolidWallSegment fuel s first last = some s' ∧
      s'.rendered = s.rendered ++ new ∧
      R_ClipPassWallSegment fuel s first last
        = some { s with rendered := s.rendered ++ new } := by
  obtain ⟨k, hk, hw⟩ := hwf
  obtain ⟨new, hp, _⟩ := pass_step vw s k first last fuel hw h0 hfl (by omega) (by omega)
  obtain ⟨s', h1, h2⟩ := clip_same_rendered s k first last fuel hk hw.1.1 (by omega)
    (by omega) hfuel
  refine ⟨new, s', h1, ?_, hp⟩
  rw [hp] at h2
  exact (Option.some.inj h2).symm

/-- Instance of C28: the list with the solid ranges `[3, 4]` and `[7, 7]` and
the range `[1, 8]`; both functions emit `[1, 2]`, `[5, 6]`, `[8, 8]`. -/
theorem C28_same_fragments_witness :
    (R_ClipSolidWallSegment 5 exampleTwoPosts 1 8).map (fun s => s.rendered)
      = some [(1, 2), (5, 6), (8, 8)] ∧
    ∃ new s', R_ClipSolidWallSegment 5 exampleTwoPosts 1 8 = some s' ∧
      s'.rendered = exampleTwoPosts.rendered ++ new ∧
      R_ClipPassWallSegment 5 exampleTwoPosts 1 8
        = some { exampleTwoPosts with rendered := exampleTwoPosts.rendered ++ new } :=
  ⟨by decide, C28_same_fragments 10 exampleTwoPosts 1 8 5 (by decide) (by decide) (by decide)
    (by decide) (by decide) (by decide)⟩

/-! ### The bound on `newend` -/

theorem solidCrunch_frame (fuel : Nat) (s : ClipState) (start j : Nat)
    (hsj : start ≤ j) (hje : j < s.newend) (hf : s.newend < fuel) :
    ∃ s', solidCrunch fuel s start j = some s' ∧ s'.newend ≤ s.newend ∧
      start < s'.newend ∧ ∀ i, s'.newend ≤ i → s'.solidsegs i = s.solidsegs i := by
  unfold solidCrunch
  by_cases h : j = start
  · subst h
    exact ⟨s, by simp, le_refl _, hje, fun _ _ => rfl⟩
  · obtain ⟨a2, h1, h2⟩ :=
      crunchLoop_spec s.newend fuel s.solidsegs start j hsj (by omega) (by omega)
    refine ⟨{ s with solidsegs := a2, newend := start + (s.newend - j) + 1 }, by simp [h, h1],
      ?_, ?_, ?_⟩
    · show start + (s.newend - j) + 1 ≤ s.newend
      omega
    · show start < start + (s.newend - j) + 1
      omega
    · intro i hi
      have hi2 : start + (s.newend - j) + 1 ≤ i := hi
      show a2 i = s.solidsegs i
      rw [h2]
      split_ifs with c
      · omega
      · rfl

theorem solidTail_frame (s : ClipState) (k start : Nat) (last : Int) (fuel : Nat)
    (hR : last ≤ (s.solidsegs k).last) (hsk : start ≤ k) (hk : k < s.newend)
    (hfuel : s.newend < fuel) :
    ∃ s', solidTail fuel s start last = some s' ∧ s'.newend ≤ s.newend ∧
      start < s'.newend ∧ ∀ i, s'.newend ≤ i → s'.solidsegs i = s.solidsegs i := by
  unfold solidTail
  by_cases hle : last ≤ (s.solidsegs start).last
  · rw [if_pos hle]
    exact ⟨s, rfl, le_refl _, by omega, fun _ _ => rfl⟩
  · rw [if_neg hle]
    obtain ⟨j, b, hm, hsj, hjk, _, _⟩ :=
      solidMergeScan_spec s.solidsegs last k hR fuel start s.rendered hsk (by omega) (by omega)
    rw [hm]
    have hpoke : ∀ (v : cliprange_t) (s' : ClipState) (out : List (Int × Int)),
        (∀ i, s'.newend ≤ i → s'.solidsegs i = (poke s.solidsegs start v) i) →
        start < s'.newend → ∀ i, s'.newend ≤ i → s'.solidsegs i = s.solidsegs i := by
      intro v s' out h1 h2 i hi
      rw [h1 i hi]
      unfold poke
      rw [if_neg (by omega)]
    cases b with
    | true =>
      simp only
      obtain ⟨s', h1, h2, h3, h4⟩ := solidCrunch_frame fuel
        { s with
          solidsegs := poke s.solidsegs start
            { first := (s.solidsegs start).first, last := (s.solidsegs j).last }
          rendered := s.rendered ++ gapsFrom s.solidsegs start (j - start) }
        start j hsj (by show j < s.newend; omega) hfuel
      exact ⟨s', h1, h2, h3, hpoke _ s' [] h4 h3⟩
    | false =>
      simp only
      obtain ⟨s', h1, h2, h3, h4⟩ := solidCrunch_frame fuel
        { s with
          solidsegs := poke s.solidsegs start
            { first := (s.solidsegs start).first, last := last }
          rendered := s.rendered ++ gapsFrom s.solidsegs start (j - start)
            ++ [((s.solidsegs j).last + 1, last)] }
        start j hsj (by show j < s.newend; omega) hfuel
      exact ⟨s', h1, h2, h3, hpoke _ s' [] h4 h3⟩

/-- What one call of `R_ClipSolidWallSegment` does to `newend` and to the
cells from `newend` on: those cells are left alone, and `newend` does not
grow unless the range was inserted as a new clippost, strictly between the
entry before `start` and the entry `start`. -/
theorem solid_newend_frame (s : ClipState) (k : Nat) (first last : Int) (fuel : Nat)
    (hk : k < s.newend) (hsent : (s.solidsegs k).last = INT_MAX)
    (hf : first ≤ INT_MAX) (hl : last ≤ INT_MAX) (hfuel : s.newend < fuel) :
    ∃ s', R_ClipSolidWallSegment fuel s first last = some s' ∧
      (∀ i, s'.newend ≤ i → s'.solidsegs i = s.solidsegs i) ∧
      (s'.newend ≤ s.newend ∨
        (s'.newend = s.newend + 1 ∧ ∃ start, start ≤ k ∧
          first < (s.solidsegs start).first ∧ last < (s.solidsegs start).first - 1 ∧
          ∀ t, t < start → (s.solidsegs t).last < first - 1)) := by
  have hmaxv : INT_MAX = 2147483647 := rfl
  obtain ⟨start, hs, _, hsk, _, hsmin⟩ :=
    solidScanStart_spec s.solidsegs first k (by omega) fuel 0 (Nat.zero_le _) (by omega)
  unfold R_ClipSolidWallSegment
  rw [hs]
  simp only
  by_cases hA : first < (s.solidsegs start).first
  · rw [if_pos hA]
    by_cases hB : last < (s.solidsegs start).first - 1
    · rw [if_pos hB]
      obtain ⟨a1, h1, h2⟩ :=
        shiftUp_spec start fuel s.solidsegs s.newend (by omega) (by omega)
      rw [h1]
      refine ⟨_, rfl, ?_, Or.inr ⟨rfl, start, hsk, hA, hB,
        fun t ht => hsmin t (Nat.zero_le _) ht⟩⟩
      intro i hi
      have hi2 : s.newend + 1 ≤ i := hi
      show poke a1 start _ i = s.solidsegs i
      unfold poke
      rw [if_neg (by omega), h2 i, if_neg (by omega)]
    · rw [if_neg hB]
      obtain ⟨s', h1, h2, h3, h4⟩ := solidTail_frame
        { s with
          solidsegs := poke s.solidsegs start
            { first := first, last := (s.solidsegs start).last }
          rendered := s.rendered ++ [(first, (s.solidsegs start).first - 1)] }
        k start last fuel
        (by
          show last ≤ (poke s.solidsegs start _ k).last
          unfold poke
          split_ifs with h
          · simp only; rw [← h]; omega
          · omega)
        hsk hk hfuel
      refine ⟨s', h1, ?_, Or.inl h2⟩
      intro i hi
      rw [h4 i hi]
      show poke s.solidsegs start _ i = s.solidsegs i
      unfold poke
      rw [if_neg (by omega)]
  · rw [if_neg hA]
    obtain ⟨s', h1, h2, h3, h4⟩ := solidTail_frame s k start last fuel (by omega) hsk hk hfuel
    exact ⟨s', h1, h4, Or.inl h2⟩

theorem slackColumns_mono (vw : Int) (a a' : Nat → cliprange_t) (k k' : Nat)
    (h : ∀ c, CoveredBy a k c → CoveredBy a' k' c) :
    slackColumns vw a' k' ⊆ slackColumns vw a k := by
  intro c hc
  unfold slackColumns at hc ⊢
  rw [Finset.mem_filter] at hc ⊢
  exact ⟨hc.1, fun g => hc.2.1 (h c g), fun g => hc.2.2 (h (c - 1) g)⟩

theorem slackColumns_cleared (vw : Int) (s0 : ClipState) (hvw : 1 ≤ vw) :
    ((slackColumns vw (R_ClearClipSegs vw s0).solidsegs 1).card : Int) ≤ vw - 1 := by
  have hsub : slackColumns vw (R_ClearClipSegs vw s0).solidsegs 1 ⊆ Finset.Icc 1 (vw - 1) := by
    intro c hc
    unfold slackColumns at hc
    rw [Finset.mem_filter, Finset.mem_Icc] at hc
    rw [Finset.mem_Icc]
    obtain ⟨⟨h1, h2⟩, _, h4⟩ := hc
    refine ⟨?_, h2⟩
    by_contra hlt
    have h0 : c = 0 := by omega
    subst h0
    apply h4
    refine ⟨0, by omega, ?_, ?_⟩ <;> simp [R_ClearClipSegs, poke]
  have := Finset.card_le_card hsub
  rw [Int.card_Icc] at this
  omega

/-- One call of `R_ClipSolidWallSegment` on a well-formed list does not raise
twice `newend` plus the number of slack columns, and leaves the cells from the
new `newend` on as they were. -/
theorem solid_step_slack (vw : Int) (s : ClipState) (k : Nat) (first last : Int) (fuel : Nat)
    (hk : k < s.newend) (hwf : WellFormedAt vw s.solidsegs k)
    (h0 : 0 ≤ first) (hfl : first ≤ last) (hlv : last < vw) (hint : vw ≤ INT_MAX)
    (hfuel : s.newend < fuel) :
    ∃ s' k', R_ClipSolidWallSegment fuel s first last = some s' ∧ k' < s'.newend ∧
      WellFormedAt vw s'.solidsegs k' ∧
      2 * (s'.newend : Int) + ((slackColumns vw s'.solidsegs k').card : Int)
        ≤ 2 * (s.newend : Int) + ((slackColumns vw s.solidsegs k).card : Int) ∧
      ∀ i, s'.newend ≤ i → s'.solidsegs i = s.solidsegs i := by
  obtain ⟨s', k', new, e1, hk', _, hwf', hcov, _, _⟩ :=
    solid_step vw s k first last fuel hk hwf h0 hfl (by omega) hfuel
  obtain ⟨s2, e2, hframe, hcase⟩ :=
    solid_newend_frame s k first last fuel hk hwf.1.1 (by omega) (by omega) hfuel
  rw [e1] at e2
  cases e2
  refine ⟨s', k', e1, hk', hwf', ?_, hframe⟩
  have hmono : slackColumns vw s'.solidsegs k' ⊆ slackColumns vw s.solidsegs k :=
    slackColumns_mono vw s.solidsegs s'.solidsegs k k' (fun c hc => (hcov c).2 (Or.inl hc))
  rcases hcase with hle | ⟨hinc, start, hsk, hA, hB, hsmin⟩
  · have := Finset.card_le_card hmono
    omega
  · obtain ⟨⟨hR, hRf⟩, h0f, h0l, hkf, hord, hap⟩ := hwf
    have hmaxv : INT_MAX = 2147483647 := rfl
    have h1 : 0 < start := by
      rcases Nat.eq_zero_or_pos start with h | h
      · subst h; omega
      · exact h
    have hp : (s.solidsegs (start - 1)).last < first - 1 := hsmin (start - 1) (by omega)
    have e : start - 1 + 1 = start := by omega
    have hfree : ∀ c, first - 1 ≤ c → c ≤ last + 1 → ¬ CoveredBy s.solidsegs k c := by
      intro c hc1 hc2
      exact gap_not_covered _ k hord hap (start - 1) (by omega) c (by omega)
        (by rw [e]; omega)
    have hfirstk := first_mono s.solidsegs k hord hap start k hsk (le_refl _)
    have hm1 : first ∈ slackColumns vw s.solidsegs k := by
      unfold slackColumns
      rw [Finset.mem_filter, Finset.mem_Icc]
      exact ⟨⟨h0, by omega⟩, hfree first (by omega) (by omega),
        hfree (first - 1) (by omega) (by omega)⟩
    have hm2 : last + 1 ∈ (slackColumns vw s.solidsegs k).erase first := by
      rw [Finset.mem_erase]
      refine ⟨by omega, ?_⟩
      unfold slackColumns
      rw [Finset.mem_filter, Finset.mem_Icc]
      refine ⟨⟨by omega, by omega⟩, hfree (last + 1) (by omega) (by omega), ?_⟩
      have : last + 1 - 1 = last := by omega
      rw [this]
      exact hfree last (by omega) (by omega)
    have hsub : slackColumns vw s'.solidsegs k'
        ⊆ ((slackColumns vw s.solidsegs k).erase first).erase (last + 1) := by
      intro c hc
      have hc0 := hmono hc
      unfold slackColumns at hc
      rw [Finset.mem_filter] at hc
      rw [Finset.mem_erase, Finset.mem_erase]
      refine ⟨?_, ?_, hc0⟩
      · intro hc1
        apply hc.2.2
        rw [hcov]
        exact Or.inr ⟨by omega, by omega⟩
      · intro hc1
        apply hc.2.1
        rw [hcov]
        exact Or.inr ⟨by omega, by omega⟩
    have c1 := Finset.card_le_card hsub
    have c2 := Finset.card_erase_of_mem hm2
    have c3 := Finset.card_erase_of_mem hm1
    have c4 : 0 < ((slackColumns vw s.solidsegs k).erase first).card :=
      Finset.card_pos.2 ⟨_, hm2⟩
    have c5 : 0 < (slackColumns vw s.solidsegs k).card := Finset.card_pos.2 ⟨_, hm1⟩
    omega

theorem runSolid_bound (vw : Int) (fuel : Nat) (hint : vw ≤ INT_MAX) (B : Int)
    (hB : (B + 3) / 2 < (fuel : Int)) (s0 : ClipState) :
    ∀ (calls : List (Int × Int)) (s : ClipState) (k : Nat), k < s.newend →
      WellFormedAt vw s.solidsegs k →
      2 * (s.newend : Int) + ((slackColumns vw s.solidsegs k).card : Int) ≤ B + 3 →
      (∀ i, ((B + 3) / 2).toNat ≤ i → s.solidsegs i = s0.solidsegs i) →
      (∀ p ∈ calls, 0 ≤ p.1 ∧ p.1 ≤ p.2 ∧ p.2 < vw) →
      ∃ s', runSolid fuel s calls = some s' ∧ (s'.newend : Int) ≤ (B + 3) / 2 ∧
        ∀ i, ((B + 3) / 2).toNat ≤ i → s'.solidsegs i = s0.solidsegs i := by
  intro calls
  induction calls with
  | nil =>
    intro s k _ _ hpot hfr _
    exact ⟨s, rfl, by omega, hfr⟩
  | cons p rest ih =>
    intro s k hk hwf hpot hfr hcalls
    obtain ⟨p1, p2⟩ := p
    obtain ⟨c1, c2, c3⟩ := hcalls (p1, p2) (List.mem_cons_self _ _)
    obtain ⟨s1, k1, e1, hk1, hwf1, hpot1, hfr1⟩ :=
      solid_step_slack vw s k p1 p2 fuel hk hwf c1 c2 c3 hint (by omega)
    obtain ⟨s', g1, g2, g3⟩ := ih s1 k1 hk1 hwf1 (by omega)
      (by
        intro i hi
        rw [hfr1 i (by omega), hfr i hi])
      (fun q hq => hcalls q (List.mem_cons_of_mem _ hq))
    refine ⟨s', ?_, g2, g3⟩
    simp only [runSolid, e1]
    exact g1

/-- C27 (`MAXSEGS` is the theoretical limit): with `SCREENWIDTH = 320` and
`1 <= viewwidth <= SCREENWIDTH`, after any sequence of
`R_ClipSolidWallSegment` calls with `0 <= first <= last < viewwidth` from a
cleared list, and after every initial part of it, the calls have returned
(with any fuel above `MAXSEGS`), `newend - solidsegs` is at most
`MAXSEGS = 161`, and every cell from index `MAXSEGS` on is as it was before the
list was cleared: no range has been stored outside the array. -/
theorem C27_maxsegs_limit (vw : Int) (s0 : ClipState) (calls : List (Int × Int))
    (fuel n : Nat) (hvw : 1 ≤ vw) (hsw : vw ≤ SCREENWIDTH)
    (hcalls : ∀ p ∈ calls, 0 ≤ p.1 ∧ p.1 ≤ p.2 ∧ p.2 < vw) (hfuel : MAXSEGS < fuel) :
    ∃ s, runSolid fuel (R_ClearClipSegs vw s0) (calls.take n) = some s ∧
      s.newend ≤ MAXSEGS ∧ ∀ i, MAXSEGS ≤ i → s.solidsegs i = s0.solidsegs i := by
  have hS : (SCREENWIDTH : Int) = 320 := rfl
  have hM : MAXSEGS = 161 := rfl
  have hmaxv : INT_MAX = 2147483647 := rfl
  have hc := slackColumns_cleared vw s0 hvw
  obtain ⟨s, h1, h2, h3⟩ := runSolid_bound vw fuel (by omega) 320 (by omega) s0 (calls.take n)
    (R_ClearClipSegs vw s0) 1 (by simp [R_ClearClipSegs])
    (cleared_wf vw s0 hvw (by omega))
    (by
      have : ((R_ClearClipSegs vw s0).newend : Int) = 2 := by simp [R_ClearClipSegs]
      omega)
    (by
      intro i hi
      have hi2 : 161 ≤ i := by
        have : ((320 + 3 : Int) / 2).toNat = 161 := by decide
        omega
      simp only [R_ClearClipSegs, poke]
      rw [if_neg (by omega), if_neg (by omega)])
    (fun p hp => hcalls p (List.mem_of_mem_take hp))
  refine ⟨s, h1, by omega, ?_⟩
  intro i hi
  exact h3 i (by
    have : ((320 + 3 : Int) / 2).toNat = 161 := by decide
    omega)

/-- Instance of C27: the thirty single-column calls of `exCrowdedCalls` in a
view 320 columns wide, all of them and the first ten. -/
theorem C27_maxsegs_limit_witness :
    (∃ s, runSolid 162 (R_ClearClipSegs 320 exampleCleared) (exCrowdedCalls.take 30) = some s ∧
      s.newend ≤ MAXSEGS ∧ ∀ i, MAXSEGS ≤ i → s.solidsegs i = exampleCleared.solidsegs i) ∧
    (∃ s, runSolid 162 (R_ClearClipSegs 320 exampleCleared) (exCrowdedCalls.take 10) = some s ∧
      s.newend ≤ MAXSEGS ∧ ∀ i, MAXSEGS ≤ i → s.solidsegs i = exampleCleared.solidsegs i) :=
  ⟨C27_maxsegs_limit 320 exampleCleared exCrowdedCalls 162 30 (by decide) (by decide)
      (by decide) (by decide),
    C27_maxsegs_limit 320 exampleCleared exCrowdedCalls 162 10 (by decide) (by decide)
      (by decide) (by decide)⟩
/-! ### Sight queries return -/

theorem crossSegs_after (E : SightEnv) (lv : Level) :
    ∀ (j m : Nat) (idx : Int) (s s1 : SightState), crossSegs E lv j idx s = .ok (true, s1) →
      crossSegs E lv (j + m) idx s = crossSegs E lv m (idx + j) s1 := by
  intro j
  induction j with
  | zero =>
    intro m idx s s1 h
    rw [crossSegs] at h
    cases h
    simp
  | succ j ih =>
    intro m idx s s1 h
    have e : j + 1 + m = (j + m) + 1 := by omega
    have e2 : idx + ((j + 1 : Nat) : Int) = idx + 1 + (j : Int) := by push_cast; omega
    rw [e, e2]
    rw [crossSegs] at h
    cases hseg : readAt lv.segs idx with
    | error x => rw [hseg] at h; cases h
    | ok seg =>
      rw [hseg] at h
      simp only at h
      by_cases hm : s.linevalid seg.linedef = s.validcount
      · rw [if_pos hm] at h
        rw [crossSegs_skip E lv (j + m) idx s seg hseg hm]
        exact ih m (idx + 1) s s1 h
      · rw [if_neg hm] at h
        cases hb : P_BlocksStrace E lv (markLine s seg) seg with
        | error x =>
          unfold markLine at hb
          rw [hb] at h
          cases h
        | ok p =>
          obtain ⟨v, s2⟩ := p
          cases v
          · rw [crossSegs_passed E lv (j + m) idx s s2 seg hseg hm hb]
            unfold markLine at hb
            rw [hb] at h
            exact ih m (idx + 1) _ s1 h
          · unfold markLine at hb
            rw [hb] at h
            cases h

theorem P_BlocksStrace_returns (E : SightEnv) (lv : Level) (s : SightState) (seg : seg_t)
    (hmem : seg ∈ lv.segs) (hok : segsTwoSidedOK E lv = true) :
    ∃ v s', P_BlocksStrace E lv s seg = .ok (v, s') := by
  unfold segsTwoSidedOK at hok
  have h := List.all_eq_true.1 hok seg hmem
  unfold P_BlocksStrace
  cases hc : P_CrossesStrace E lv s seg with
  | false => exact ⟨_, _, rfl⟩
  | true =>
    simp only [Bool.not_true, Bool.false_eq_true, if_false]
    by_cases h1 : (lv.lines seg.linedef).backsector = none
    · rw [if_pos h1]
      exact ⟨_, _, rfl⟩
    · rw [if_neg h1]
      by_cases h2 : P_IsTwoSided E lv seg = true
      · rw [if_pos h2]
        unfold P_TwoSidedBlocksStrace
        cases hb : seg.backsector with
        | none =>
          rw [hb, h2] at h
          cases hl : (lv.lines seg.linedef).backsector with
          | none => exact absurd hl h1
          | some x => rw [hl] at h; simp at h
        | some b =>
          simp only
          split_ifs <;> exact ⟨_, _, rfl⟩
      · rw [if_neg h2]
        exact ⟨_, _, rfl⟩

theorem crossSegs_returns (E : SightEnv) (lv : Level) (hok : segsTwoSidedOK E lv = true) :
    ∀ (n : Nat) (idx : Int) (s : SightState),
      (n = 0 ∨ (0 ≤ idx ∧ idx + (n : Int) ≤ (lv.segs.length : Int))) →
      ∃ v s', crossSegs E lv n idx s = .ok (v, s') := by
  intro n
  induction n with
  | zero => intro idx s _; exact ⟨true, s, rfl⟩
  | succ m ih =>
    intro idx s hr
    have hr2 : 0 ≤ idx ∧ idx + ((m + 1 : Nat) : Int) ≤ (lv.segs.length : Int) := by
      rcases hr with h | h
      · omega
      · exact h
    obtain ⟨seg, hseg, hmem⟩ := readAt_ok_of_range lv.segs idx hr2.1 (by omega)
    have hnext : m = 0 ∨ (0 ≤ idx + 1 ∧ idx + 1 + (m : Int) ≤ (lv.segs.length : Int)) := by
      right
      constructor
      · omega
      · have := hr2.2
        push_cast at this
        omega
    by_cases hv : s.linevalid seg.linedef = s.validcount
    · rw [crossSegs_skip E lv m idx s seg hseg hv]
      exact ih (idx + 1) s hnext
    · obtain ⟨v, s2, hb⟩ := P_BlocksStrace_returns E lv (markLine s seg) seg hmem hok
      cases v
      · rw [crossSegs_passed E lv m idx s s2 seg hseg hv hb]
        exact ih (idx + 1) _ hnext
      · rw [crossSegs_blocked E lv m idx s s2 seg hseg hv hb]
        exact ⟨_, _, rfl⟩

theorem P_CrossSubsector_returns (E : SightEnv) (lv : Level) (s : SightState) (num : Int)
    (hok : segsTwoSidedOK E lv = true) (hleaf : leafOK lv num = true) :
    ∃ v s', P_CrossSubsector E lv s num = .ok (v, s') := by
  unfold leafOK at hleaf
  simp only [Bool.and_eq_true, decide_eq_true_eq] at hleaf
  obtain ⟨⟨hn0, hn1⟩, hsub⟩ := hleaf
  unfold P_CrossSubsector
  rw [if_neg (by omega)]
  cases hr : readAt lv.subsectors num with
  | error e => rw [hr] at hsub; cases hsub
  | ok sub =>
    rw [hr] at hsub
    simp only [decide_eq_true_eq] at hsub
    exact crossSegs_returns E lv hok _ _ s hsub

theorem P_CrossBSPNode_returns (E : SightEnv) (lv : Level)
    (hok : segsTwoSidedOK E lv = true) :
    ∀ fuel s bspnum, treeOK lv fuel bspnum = true →
      ∃ v s', P_CrossBSPNode E lv fuel s bspnum = .ok (v, s') := by
  intro fuel
  induction fuel with
  | zero =>
    intro s bspnum h
    rw [treeOK] at h
    exact Bool.noConfusion h
  | succ n ih =>
    intro s bspnum htree
    rw [treeOK] at htree
    rw [P_CrossBSPNode]
    by_cases hleaf : cand bspnum lv.NF_SUBSECTOR ≠ 0
    · rw [if_pos hleaf] at htree ⊢
      by_cases hm : bspnum = -1
      · rw [if_pos hm] at htree ⊢
        exact P_CrossSubsector_returns E lv s 0 hok htree
      · rw [if_neg hm] at htree ⊢
        exact P_CrossSubsector_returns E lv s _ hok htree
    · rw [if_neg hleaf] at htree ⊢
      cases hr : readAt lv.nodes bspnum with
      | error e => rw [hr] at htree; cases htree
      | ok bsp =>
        rw [hr] at htree
        simp only [Bool.and_eq_true] at htree
        obtain ⟨hc0, hc1⟩ := htree
        simp only
        have hchild : ∀ side : Int, side = 0 ∨ side = 1 →
            treeOK lv n (bsp.children side.toNat) = true ∧
            treeOK lv n (bsp.children (side.toNat ^^^ 1)) = true := by
          intro side hs
          rcases hs with rfl | rfl
          · exact ⟨hc0, hc1⟩
          · exact ⟨hc1, hc0⟩
        have hside : ∀ v : Int, v = 0 ∨ v = 1 ∨ v = 2 →
            (if v = 2 then (0 : Int) else v) = 0 ∨ (if v = 2 then (0 : Int) else v) = 1 := by
          intro v hv
          rcases hv with rfl | rfl | rfl <;> simp
        have hsd := hside _ (P_DivlineSide_range E s.strace.x s.strace.y
          ⟨bsp.x, bsp.y, bsp.dx, bsp.dy⟩)
        obtain ⟨side, hsdef⟩ : ∃ side : Int, side =
            (if P_DivlineSide E s.strace.x s.strace.y ⟨bsp.x, bsp.y, bsp.dx, bsp.dy⟩ = 2
              then (0 : Int)
              else P_DivlineSide E s.strace.x s.strace.y ⟨bsp.x, bsp.y, bsp.dx, bsp.dy⟩) :=
          ⟨_, rfl⟩
        rw [← hsdef] at hsd ⊢
        obtain ⟨t0, t1⟩ := hchild side hsd
        obtain ⟨v, s1, e1⟩ := ih s _ t0
        rw [e1]
        cases v
        · exact ⟨_, _, rfl⟩
        · simp only
          by_cases hq : side = P_DivlineSide E s1.t2x s1.t2y ⟨bsp.x, bsp.y, bsp.dx, bsp.dy⟩
          · rw [if_pos hq]
            exact ⟨_, _, rfl⟩
          · rw [if_neg hq]
            exact ih s1 _ t1

theorem P_SightUnobstructed_returns (E : SightEnv) (lv : Level) (fuel : Nat)
    (s : SightState) (t1 t2 : mobj_t) (hok : segsTwoSidedOK E lv = true)
    (htree : treeOK lv fuel (lv.numnodes - 1) = true) :
    ∃ res s', P_SightUnobstructed E lv fuel s t1 t2 = .ok (res, s') := by
  unfold P_SightUnobstructed
  exact P_CrossBSPNode_returns E lv hok fuel _ _ htree

theorem crossSegs_reach_blocked (E : SightEnv) (lv : Level) (j m : Nat) (idx : Int)
    (s s1 s2 : SightState) (seg : seg_t) (hpre : crossSegs E lv j idx s = .ok (true, s1))
    (hseg : readAt lv.segs (idx + j) = .ok seg)
    (hm : s1.linevalid seg.linedef ≠ s1.validcount)
    (hb : P_BlocksStrace E lv (markLine s1 seg) seg = .ok (true, s2)) :
    crossSegs E lv (j + (m + 1)) idx s = .ok (false, logSeg s2 (idx + j) true) := by
  rw [crossSegs_after E lv j (m + 1) idx s s1 hpre]
  exact crossSegs_blocked E lv m (idx + j) s1 s2 seg hseg hm hb

theorem P_CrossSubsector_reach_blocked (E : SightEnv) (lv : Level) (j m : Nat) (num : Int)
    (sub : subsector_t) (s s1 s2 : SightState) (seg : seg_t)
    (hnum : num < lv.numsubsectors) (hsub : readAt lv.subsectors num = .ok sub)
    (hcount : sub.numlines.toNat = j + (m + 1))
    (hpre : crossSegs E lv j sub.firstline s = .ok (true, s1))
    (hseg : readAt lv.segs (sub.firstline + j) = .ok seg)
    (hm : s1.linevalid seg.linedef ≠ s1.validcount)
    (hb : P_BlocksStrace E lv (markLine s1 seg) seg = .ok (true, s2)) :
    P_CrossSubsector E lv s num = .ok (false, logSeg s2 (sub.firstline + j) true) := by
  unfold P_CrossSubsector
  rw [if_neg (by omega), hsub]
  simp only
  rw [hcount]
  exact crossSegs_reach_blocked E lv j m sub.firstline s s1 s2 seg hpre hseg hm hb

theorem sight_false_propagates (E : SightEnv) (lv : Level) (fuel : Nat) (s : SightState)
    (bspnum : Int) (s1 : SightState) :
    (cand bspnum lv.NF_SUBSECTOR ≠ 0 →
      P_CrossSubsector E lv s (if bspnum = -1 then 0 else cand bspnum (cnot lv.NF_SUBSECTOR))
        = .ok (false, s1) →
      P_CrossBSPNode E lv (fuel + 1) s bspnum = .ok (false, s1)) ∧
    (∀ bsp, cand bspnum lv.NF_SUBSECTOR = 0 → readAt lv.nodes bspnum = .ok bsp →
      (P_CrossBSPNode E lv fuel s (bsp.children (startSide E s bsp).toNat) = .ok (false, s1) →
        P_CrossBSPNode E lv (fuel + 1) s bspnum = .ok (false, s1)) ∧
      (∀ s0, P_CrossBSPNode E lv fuel s (bsp.children (startSide E s bsp).toNat)
          = .ok (true, s0) →
        startSide E s bsp ≠ P_DivlineSide E s0.t2x s0.t2y (nodeDivline bsp) →
        P_CrossBSPNode E lv fuel s0 (bsp.children ((startSide E s bsp).toNat ^^^ 1))
          = .ok (false, s1) →
        P_CrossBSPNode E lv (fuel + 1) s bspnum = .ok (false, s1))) ∧
    (∀ t1 t2, P_CrossBSPNode E lv fuel (sightStart s t1 t2) (lv.numnodes - 1)
        = .ok (false, s1) →
      P_SightUnobstructed E lv fuel s t1 t2 = .ok (false, s1)) := by
  refine ⟨?_, ?_, ?_⟩
  · intro hleaf h
    rw [P_CrossBSPNode, if_pos hleaf]
    by_cases hm : bspnum = -1
    · rw [if_pos hm] at h ⊢
      exact h
    · rw [if_neg hm] at h ⊢
      exact h
  · intro bsp hnode hbsp
    constructor
    · intro h
      rw [P_CrossBSPNode_node E lv fuel s bspnum bsp hnode hbsp, h]
    · intro s0 h0 hside h
      rw [P_CrossBSPNode_node E lv fuel s bspnum bsp hnode hbsp, h0]
      simp only
      rw [if_neg hside]
      exact h
  · intro t1 t2 h
    exact h

/-! ### One-sided lines and collapsed cones end the query -/

/-- C5 (a one-sided line always blocks): for a seg whose linedef has no back
sector, `P_BlocksStrace` returns true whenever the seg crosses the trace,
whatever the flags and the cone are, leaving the cone as it was; the loop of
`P_CrossSubsector`, once it has passed `j` segs and reaches such a crossing
seg with its linedef not yet marked, returns false there without looking at
the `m` segs behind it, and so does `P_CrossSubsector`; a false verdict of
`P_CrossSubsector` is handed up unchanged by the leaf and by every node of
`P_CrossBSPNode` above it, from the near child and from the far child, and by
`P_SightUnobstructed`; a query run by `P_SightUnobstructed` on a well-formed
tree returns, and in every returned query such a seg, once handed to
`P_BlocksStrace`, is the last seg examined and the query returns false. -/
theorem C5_one_sided_line_blocks (E : SightEnv) (lv : Level) (seg : seg_t)
    (hone : (lv.lines seg.linedef).backsector = none) :
    (∀ s, P_CrossesStrace E lv s seg = true → P_BlocksStrace E lv s seg = .ok (true, s)) ∧
    (∀ j m idx s s1, crossSegs E lv j idx s = .ok (true, s1) →
      readAt lv.segs (idx + j) = .ok seg → s1.linevalid seg.linedef ≠ s1.validcount →
      P_CrossesStrace E lv s1 seg = true →
      crossSegs E lv (j + (m + 1)) idx s
        = .ok (false, logSeg (markLine s1 seg) (idx + j) true)) ∧
    (∀ j m num sub s s1, num < lv.numsubsectors → readAt lv.subsectors num = .ok sub →
      sub.numlines.toNat = j + (m + 1) →
      crossSegs E lv j sub.firstline s = .ok (true, s1) →
      readAt lv.segs (sub.firstline + j) = .ok seg →
      s1.linevalid seg.linedef ≠ s1.validcount → P_CrossesStrace E lv s1 seg = true →
      P_CrossSubsector E lv s num
        = .ok (false, logSeg (markLine s1 seg) (sub.firstline + j) true)) ∧
    (∀ fuel s t1 t2, segsTwoSidedOK E lv = true → treeOK lv fuel (lv.numnodes - 1) = true →
      ∃ res s', P_SightUnobstructed E lv fuel s t1 t2 = .ok (res, s')) ∧
    (∀ fuel s bspnum s1,
      (cand bspnum lv.NF_SUBSECTOR ≠ 0 →
        P_CrossSubsector E lv s
            (if bspnum = -1 then 0 else cand bspnum (cnot lv.NF_SUBSECTOR))
          = .ok (false, s1) →
        P_CrossBSPNode E lv (fuel + 1) s bspnum = .ok (false, s1)) ∧
      (∀ bsp, cand bspnum lv.NF_SUBSECTOR = 0 → readAt lv.nodes bspnum = .ok bsp →
        (P_CrossBSPNode E lv fuel s (bsp.children (startSide E s bsp).toNat)
            = .ok (false, s1) →
          P_CrossBSPNode E lv (fuel + 1) s bspnum = .ok (false, s1)) ∧
        (∀ s0, P_CrossBSPNode E lv fuel s (bsp.children (startSide E s bsp).toNat)
            = .ok (true, s0) →
          startSide E s bsp ≠ P_DivlineSide E s0.t2x s0.t2y (nodeDivline bsp) →
          P_CrossBSPNode E lv fuel s0 (bsp.children ((startSide E s bsp).toNat ^^^ 1))
            = .ok (false, s1) →
          P_CrossBSPNode E lv (fuel + 1) s bspnum = .ok (false, s1))) ∧
      (∀ t1 t2, P_CrossBSPNode E lv fuel (sightStart s t1 t2) (lv.numnodes - 1)
          = .ok (false, s1) →
        P_SightUnobstructed E lv fuel s t1 t2 = .ok (false, s1))) ∧
    (∀ fuel s t1 t2 res s', P_SightUnobstructed E lv fuel s t1 t2 = .ok (res, s') →
      ∃ new, s'.examined = s.examined ++ new ∧
        ∀ r ∈ new, readAt lv.segs r.seg = .ok seg → P_CrossesStrace E lv s' seg = true →
          res = false ∧ ∃ init, new = init ++ [r]) := by
  have ha : ∀ s, P_CrossesStrace E lv s seg = true →
      P_BlocksStrace E lv s seg = .ok (true, s) := by
    intro s hc
    unfold P_BlocksStrace
    simp [hc, hone]
  have hmark : ∀ s1, P_CrossesStrace E lv s1 seg = true →
      P_BlocksStrace E lv (markLine s1 seg) seg = .ok (true, markLine s1 seg) := by
    intro s1 hc
    apply ha
    rw [P_CrossesStrace_congr E lv s1 (markLine s1 seg) seg rfl rfl rfl]
    exact hc
  refine ⟨ha, ?_, ?_, ?_, ?_, ?_⟩
  · intro j m idx s s1 hpre hseg hm hc
    exact crossSegs_reach_blocked E lv j m idx s s1 _ seg hpre hseg hm (hmark s1 hc)
  · intro j m num sub s s1 hnum hsub hcount hpre hseg hm hc
    exact P_CrossSubsector_reach_blocked E lv j m num sub s s1 _ seg hnum hsub hcount hpre
      hseg hm (hmark s1 hc)
  · intro fuel s t1 t2 hok htree
    exact P_SightUnobstructed_returns E lv fuel s t1 t2 hok htree
  · intro fuel s bspnum s1
    exact sight_false_propagates E lv fuel s bspnum s1
  · intro fuel s t1 t2 res s' hq
    obtain ⟨new, h4, h5, h6, h7⟩ := P_SightUnobstructed_run E lv fuel s t1 t2 res s' hq
    refine ⟨new, h4, ?_⟩
    intro r hr hseg hc
    obtain ⟨seg', sa, sb, c1, c2, c3, c4, c5, _, _⟩ := h5 r hr
    rw [hseg] at c1
    cases c1
    have hc' : P_CrossesStrace E lv sa seg = true := by
      rw [P_CrossesStrace_congr E lv s' sa seg c2 c3 c4]; exact hc
    rw [ha sa hc'] at c5
    have hb : r.blocked = true := (Prod.mk.inj (Except.ok.inj c5)).1.symm
    exact blocked_record_last res new r hr hb h6 h7

/-- Instance of C5: the one-sided example line 0, crossed by the trace from
`exLooker` to a target 56 units tall; the loop returns false at the seg and
the query returns false with that seg as its only log entry. -/
theorem C5_one_sided_line_blocks_witness :
    (verdict (P_SightUnobstructed exEnv (exLevel 0) 3 exSight exLooker (exTarget 3670016))
        = some false ∧
      examinedBy (P_SightUnobstructed exEnv (exLevel 0) 3 exSight exLooker (exTarget 3670016))
        = some [⟨0, true, 917504, -2752512⟩]) ∧
    crossSegs exEnv (exLevel 0) (0 + (0 + 1)) 0 (exSightTraced 3670016)
      = .ok (false, logSeg (markLine (exSightTraced 3670016) (exSeg 0)) (0 + (0 : Nat)) true) ∧
    (∃ res s', P_SightUnobstructed exEnv (exLevel 0) 3 exSight exLooker (exTarget 3670016)
      = .ok (res, s')) ∧
    ((∀ s, P_CrossesStrace exEnv (exLevel 0) s (exSeg 0) = true →
      P_BlocksStrace exEnv (exLevel 0) s (exSeg 0) = .ok (true, s)) ∧
    (∀ j m idx s s1, crossSegs exEnv (exLevel 0) j idx s = .ok (true, s1) →
      readAt (exLevel 0).segs (idx + j) = .ok (exSeg 0) →
      s1.linevalid (exSeg 0).linedef ≠ s1.validcount →
      P_CrossesStrace exEnv (exLevel 0) s1 (exSeg 0) = true →
      crossSegs exEnv (exLevel 0) (j + (m + 1)) idx s
        = .ok (false, logSeg (markLine s1 (exSeg 0)) (idx + j) true)) ∧
    (∀ j m num sub s s1, num < (exLevel 0).numsubsectors →
      readAt (exLevel 0).subsectors num = .ok sub →
      sub.numlines.toNat = j + (m + 1) →
      crossSegs exEnv (exLevel 0) j sub.firstline s = .ok (true, s1) →
      readAt (exLevel 0).segs (sub.firstline + j) = .ok (exSeg 0) →
      s1.linevalid (exSeg 0).linedef ≠ s1.validcount →
      P_CrossesStrace exEnv (exLevel 0) s1 (exSeg 0) = true →
      P_CrossSubsector exEnv (exLevel 0) s num
        = .ok (false, logSeg (markLine s1 (exSeg 0)) (sub.firstline + j) true)) ∧
    (∀ fuel s t1 t2, segsTwoSidedOK exEnv (exLevel 0) = true →
      treeOK (exLevel 0) fuel ((exLevel 0).numnodes - 1) = true →
      ∃ res s', P_SightUnobstructed exEnv (exLevel 0) fuel s t1 t2 = .ok (res, s')) ∧
    (∀ fuel s bspnum s1,
      (cand bspnum (exLevel 0).NF_SUBSECTOR ≠ 0 →
        P_CrossSubsector exEnv (exLevel 0) s
            (if bspnum = -1 then 0 else cand bspnum (cnot (exLevel 0).NF_SUBSECTOR))
          = .ok (false, s1) →
        P_CrossBSPNode exEnv (exLevel 0) (fuel + 1) s bspnum = .ok (false, s1)) ∧
      (∀ bsp, cand bspnum (exLevel 0).NF_SUBSECTOR = 0 → readAt (exLevel 0).nodes bspnum = .ok bsp →
        (P_CrossBSPNode exEnv (exLevel 0) fuel s (bsp.children (startSide exEnv s bsp).toNat)
            = .ok (false, s1) →
          P_CrossBSPNode exEnv (exLevel 0) (fuel + 1) s bspnum = .ok (false, s1)) ∧
        (∀ s0, P_CrossBSPNode exEnv (exLevel 0) fuel s (bsp.children (startSide exEnv s bsp).toNat)
            = .ok (true, s0) →
          startSide exEnv s bsp ≠ P_DivlineSide exEnv s0.t2x s0.t2y (nodeDivline bsp) →
          P_CrossBSPNode exEnv (exLevel 0) fuel s0 (bsp.children ((startSide exEnv s bsp).toNat ^^^ 1))
            = .ok (false, s1) →
          P_CrossBSPNode exEnv (exLevel 0) (fuel + 1) s bspnum = .ok (false, s1))) ∧
      (∀ t1 t2, P_CrossBSPNode exEnv (exLevel 0) fuel (sightStart s t1 t2) ((exLevel 0).numnodes - 1)
          = .ok (false, s1) →
        P_SightUnobstructed exEnv (exLevel 0) fuel s t1 t2 = .ok (false, s1))) ∧
    (∀ fuel s t1 t2 res s',
      P_SightUnobstructed exEnv (exLevel 0) fuel s t1 t2 = .ok (res, s') →
      ∃ new, s'.examined = s.examined ++ new ∧
        ∀ r ∈ new, readAt (exLevel 0).segs r.seg = .ok (exSeg 0) →
          P_CrossesStrace exEnv (exLevel 0) s' (exSeg 0) = true →
          res = false ∧ ∃ init, new = init ++ [r])) :=
  ⟨by decide,
    (C5_one_sided_line_blocks exEnv (exLevel 0) (exSeg 0) (by decide)).2.1 0 0 0
      (exSightTraced 3670016) (exSightTraced 3670016) rfl rfl (by decide) (by decide),
    (C5_one_sided_line_blocks exEnv (exLevel 0) (exSeg 0) (by decide)).2.2.2.1 3 exSight
      exLooker (exTarget 3670016) (by decide) (by decide),
    C5_one_sided_line_blocks exEnv (exLevel 0) (exSeg 0) (by decide)⟩

/-- C6 as the code has it (cone collapse termination): for a two-sided seg
whose front and back sectors differ in floor or ceiling height,
`P_BlocksStrace` returns, and it returns true whenever the seg crosses the
trace and `topslope <= bottomslope` holds before or after the seg has narrowed
the cone; the loop of `P_CrossSubsector`, once it has passed `j` segs and
reaches such a crossing seg (linedef not yet marked) with the cone collapsed,
returns false there without looking at the `m` segs behind it, and so does
`P_CrossSubsector`; a false verdict of `P_CrossSubsector` is handed up
unchanged by the leaf and by every node of `P_CrossBSPNode` above it and by
`P_SightUnobstructed`; a query run by `P_SightUnobstructed` on a well-formed
tree returns, and in every returned query such a seg examined with
`topslope <= bottomslope` is the last seg examined and the query returns
false. A two-sided seg of a linedef with a back sector whose front and back
sectors have the same floor and ceiling heights never blocks:
`P_BlocksStrace` returns false with the cone untouched, whatever the cone is,
and the loop goes on with the next seg. -/
theorem C6_cone_collapse_termination (E : SightEnv) (lv : Level) (seg : seg_t) (b : Nat)
    (htwo : P_IsTwoSided E lv seg = true) (hb : seg.backsector = some b)
    (hdiff : (lv.sectors seg.frontsector).floorheight ≠ (lv.sectors b).floorheight
      ∨ (lv.sectors seg.frontsector).ceilingheight ≠ (lv.sectors b).ceilingheight) :
    (∀ s, P_CrossesStrace E lv s seg = true →
      ∃ v s', P_BlocksStrace E lv s seg = .ok (v, s') ∧
        ((s.topslope ≤ s.bottomslope ∨ s'.topslope ≤ s'.bottomslope) → v = true)) ∧
    (∀ j m idx s s1, crossSegs E lv j idx s = .ok (true, s1) →
      readAt lv.segs (idx + j) = .ok seg → s1.linevalid seg.linedef ≠ s1.validcount →
      P_CrossesStrace E lv s1 seg = true →
      ∃ v s2, P_BlocksStrace E lv (markLine s1 seg) seg = .ok (v, s2) ∧
        ((s1.topslope ≤ s1.bottomslope ∨ s2.topslope ≤ s2.bottomslope) →
          crossSegs E lv (j + (m + 1)) idx s = .ok (false, logSeg s2 (idx + j) true))) ∧
    (∀ j m num sub s s1, num < lv.numsubsectors → readAt lv.subsectors num = .ok sub →
      sub.numlines.toNat = j + (m + 1) →
      crossSegs E lv j sub.firstline s = .ok (true, s1) →
      readAt lv.segs (sub.firstline + j) = .ok seg →
      s1.linevalid seg.linedef ≠ s1.validcount → P_CrossesStrace E lv s1 seg = true →
      ∃ v s2, P_BlocksStrace E lv (markLine s1 seg) seg = .ok (v, s2) ∧
        ((s1.topslope ≤ s1.bottomslope ∨ s2.topslope ≤ s2.bottomslope) →
          P_CrossSubsector E lv s num
            = .ok (false, logSeg s2 (sub.firstline + j) true))) ∧
    (∀ fuel s t1 t2, segsTwoSidedOK E lv = true → treeOK lv fuel (lv.numnodes - 1) = true →
      ∃ res s', P_SightUnobstructed E lv fuel s t1 t2 = .ok (res, s')) ∧
    (∀ fuel s bspnum s1,
      (cand bspnum lv.NF_SUBSECTOR ≠ 0 →
        P_CrossSubsector E lv s
            (if bspnum = -1 then 0 else cand bspnum (cnot lv.NF_SUBSECTOR))
          = .ok (false, s1) →
        P_CrossBSPNode E lv (fuel + 1) s bspnum = .ok (false, s1)) ∧
      (∀ bsp, cand bspnum lv.NF_SUBSECTOR = 0 → readAt lv.nodes bspnum = .ok bsp →
        (P_CrossBSPNode E lv fuel s (bsp.children (startSide E s bsp).toNat)
            = .ok (false, s1) →
          P_CrossBSPNode E lv (fuel + 1) s bspnum = .ok (false, s1)) ∧
        (∀ s0, P_CrossBSPNode E lv fuel s (bsp.children (startSide E s bsp).toNat)
            = .ok (true, s0) →
          startSide E s bsp ≠ P_DivlineSide E s0.t2x s0.t2y (nodeDivline bsp) →
          P_CrossBSPNode E lv fuel s0 (bsp.children ((startSide E s bsp).toNat ^^^ 1))
            = .ok (false, s1) →
          P_CrossBSPNode E lv (fuel + 1) s bspnum = .ok (false, s1))) ∧
      (∀ t1 t2, P_CrossBSPNode E lv fuel (sightStart s t1 t2) (lv.numnodes - 1)
          = .ok (false, s1) →
        P_SightUnobstructed E lv fuel s t1 t2 = .ok (false, s1))) ∧
    (∀ fuel s t1 t2 res s', P_SightUnobstructed E lv fuel s t1 t2 = .ok (res, s') →
      ∃ new, s'.examined = s.examined ++ new ∧
        ∀ r ∈ new, readAt lv.segs r.seg = .ok seg → P_CrossesStrace E lv s' seg = true →
          r.topslope ≤ r.bottomslope → res = false ∧ ∃ init, new = init ++ [r]) ∧
    (∀ seg2 b2, (lv.lines seg2.linedef).backsector ≠ none → P_IsTwoSided E lv seg2 = true →
      seg2.backsector = some b2 →
      (lv.sectors seg2.frontsector).floorheight = (lv.sectors b2).floorheight →
      (lv.sectors seg2.frontsector).ceilingheight = (lv.sectors b2).ceilingheight →
      (∀ s, P_BlocksStrace E lv s seg2 = .ok (false, s)) ∧
      (∀ n idx s, readAt lv.segs idx = .ok seg2 → s.linevalid seg2.linedef ≠ s.validcount →
        crossSegs E lv (n + 1) idx s
          = crossSegs E lv n (idx + 1) (logSeg (markLine s seg2) idx false))) := by
  have hwall : P_HasSightBlockingWall (lv.sectors seg.frontsector) (lv.sectors b) = true := by
    unfold P_HasSightBlockingWall
    rcases hdiff with h | h <;> simp [h]
  have hret : ∀ s, ∃ v s', P_BlocksStrace E lv s seg = .ok (v, s') := by
    intro s
    unfold P_BlocksStrace
    split_ifs
    · exact ⟨_, _, rfl⟩
    · exact ⟨_, _, rfl⟩
    · unfold P_TwoSidedBlocksStrace
      simp only [hb]
      split_ifs <;> exact ⟨_, _, rfl⟩
  have ha : ∀ s v s', P_CrossesStrace E lv s seg = true →
      P_BlocksStrace E lv s seg = .ok (v, s') →
      (s.topslope ≤ s.bottomslope ∨ s'.topslope ≤ s'.bottomslope) → v = true := by
    intro s v s' hc h hcone
    unfold P_BlocksStrace at h
    simp only [hc, Bool.not_true, Bool.false_eq_true, if_false, htwo, if_true] at h
    split_ifs at h with c2
    · exact (Prod.mk.inj (Except.ok.inj h)).1.symm
    · unfold P_TwoSidedBlocksStrace at h
      simp only [hb, hwall, Bool.not_true, Bool.false_eq_true, if_false] at h
      split_ifs at h with c3
      · exact (Prod.mk.inj (Except.ok.inj h)).1.symm
      · obtain ⟨g0, _, _, _, _, g5, g6⟩ := P_CheckVerticalObstruction_frame E lv s seg
          (lv.sectors seg.frontsector) (lv.sectors b)
        have e := Except.ok.inj h
        rw [e] at g0 g5 g6
        simp only at g0 g5 g6
        rw [g0]
        simp only [decide_eq_true_eq]
        omega
  have hmark : ∀ s1, P_CrossesStrace E lv s1 seg = true →
      ∃ v s2, P_BlocksStrace E lv (markLine s1 seg) seg = .ok (v, s2) ∧
        ((s1.topslope ≤ s1.bottomslope ∨ s2.topslope ≤ s2.bottomslope) → v = true) := by
    intro s1 hc
    obtain ⟨v, s2, hv⟩ := hret (markLine s1 seg)
    refine ⟨v, s2, hv, fun hcone => ?_⟩
    have hc' : P_CrossesStrace E lv (markLine s1 seg) seg = true := by
      rw [P_CrossesStrace_congr E lv s1 (markLine s1 seg) seg rfl rfl rfl]
      exact hc
    exact ha (markLine s1 seg) v s2 hc' hv hcone
  refine ⟨?_, ?_, ?_, ?_, ?_, ?_, ?_⟩
  · intro s hc
    obtain ⟨v, s', hv⟩ := hret s
    exact ⟨v, s', hv, ha s v s' hc hv⟩
  · intro j m idx s s1 hpre hseg hm hc
    obtain ⟨v, s2, hv, hcone⟩ := hmark s1 hc
    refine ⟨v, s2, hv, fun h => ?_⟩
    have hvt := hcone h
    subst hvt
    exact crossSegs_reach_blocked E lv j m idx s s1 s2 seg hpre hseg hm hv
  · intro j m num sub s s1 hnum hsub hcount hpre hseg hm hc
    obtain ⟨v, s2, hv, hcone⟩ := hmark s1 hc
    refine ⟨v, s2, hv, fun h => ?_⟩
    have hvt := hcone h
    subst hvt
    exact P_CrossSubsector_reach_blocked E lv j m num sub s s1 s2 seg hnum hsub hcount hpre
      hseg hm hv
  · intro fuel s t1 t2 hok htree
    exact P_SightUnobstructed_returns E lv fuel s t1 t2 hok htree
  · intro fuel s bspnum s1
    exact sight_false_propagates E lv fuel s bspnum s1
  · intro fuel s t1 t2 res s' hq
    obtain ⟨new, h4, h5, h6, h7⟩ := P_SightUnobstructed_run E lv fuel s t1 t2 res s' hq
    refine ⟨new, h4, ?_⟩
    intro r hr hseg hc hcone
    obtain ⟨seg', sa, sb, c1, c2, c3, c4, c5, c6, c7⟩ := h5 r hr
    rw [hseg] at c1
    cases c1
    have hc' : P_CrossesStrace E lv sa seg = true := by
      rw [P_CrossesStrace_congr E lv s' sa seg c2 c3 c4]; exact hc
    have hb2 : r.blocked = true := ha sa r.blocked sb hc' c5 (Or.inr (by omega))
    exact blocked_record_last res new r hr hb2 h6 h7
  · intro seg2 b2 hline htwo2 hb2 hfloor hceil
    have hno : P_HasSightBlockingWall (lv.sectors seg2.frontsector) (lv.sectors b2)
        = false := by
      unfold P_HasSightBlockingWall
      simp [hfloor, hceil]
    have hskip : ∀ s, P_BlocksStrace E lv s seg2 = .ok (false, s) := by
      intro s
      unfold P_BlocksStrace
      cases hc : P_CrossesStrace E lv s seg2 with
      | false => rfl
      | true =>
        simp only [Bool.not_true, Bool.false_eq_true, if_false]
        rw [if_neg hline, if_pos htwo2]
        unfold P_TwoSidedBlocksStrace
        simp only [hb2, hno, Bool.not_false, if_true]
    refine ⟨hskip, ?_⟩
    intro n idx s hseg hm
    exact crossSegs_passed E lv n idx s (markLine s seg2) seg2 hseg hm (hskip _)

/-- Instance of C6: the example line between room 0 and the raised room 2,
crossed by the trace from `exLooker` to a target of height 0, whose cone is
collapsed from the start; the loop returns false at the seg and the query
returns false. The equal-height part is taken at example line 1. -/
theorem C6_cone_collapse_termination_witness :
    (verdict (P_SightUnobstructed exEnv (exLevel 3) 3 exSight exLooker (exTarget 0))
        = some false ∧
      verdict (crossSegs exEnv (exLevel 3) 1 0 (exSightTraced 0)) = some false ∧
      (exSightTraced 0).linevalid (exSeg 3).linedef ≠ (exSightTraced 0).validcount ∧
      P_CrossesStrace exEnv (exLevel 3) (exSightTraced 0) (exSeg 3) = true ∧
      (exSightTraced 0).topslope ≤ (exSightTraced 0).bottomslope) ∧
    (∃ res s', P_SightUnobstructed exEnv (exLevel 3) 3 exSight exLooker (exTarget 0)
      = .ok (res, s')) ∧
    ((∀ s, P_BlocksStrace exEnv (exLevel 3) s (exSeg 1) = .ok (false, s)) ∧
      (∀ n idx s, readAt (exLevel 3).segs idx = .ok (exSeg 1) →
        s.linevalid (exSeg 1).linedef ≠ s.validcount →
        crossSegs exEnv (exLevel 3) (n + 1) idx s
          = crossSegs exEnv (exLevel 3) n (idx + 1) (logSeg (markLine s (exSeg 1)) idx false))) ∧
    ((∀ s, P_CrossesStrace exEnv (exLevel 3) s (exSeg 3) = true →
      ∃ v s', P_BlocksStrace exEnv (exLevel 3) s (exSeg 3) = .ok (v, s') ∧
        ((s.topslope ≤ s.bottomslope ∨ s'.topslope ≤ s'.bottomslope) → v = true)) ∧
    (∀ j m idx s s1, crossSegs exEnv (exLevel 3) j idx s = .ok (true, s1) →
      readAt (exLevel 3).segs (idx + j) = .ok (exSeg 3) →
      s1.linevalid (exSeg 3).linedef ≠ s1.validcount →
      P_CrossesStrace exEnv (exLevel 3) s1 (exSeg 3) = true →
      ∃ v s2, P_BlocksStrace exEnv (exLevel 3) (markLine s1 (exSeg 3)) (exSeg 3)
          = .ok (v, s2) ∧
        ((s1.topslope ≤ s1.bottomslope ∨ s2.topslope ≤ s2.bottomslope) →
          crossSegs exEnv (exLevel 3) (j + (m + 1)) idx s
            = .ok (false, logSeg s2 (idx + j) true))) ∧
    (∀ j m num sub s s1, num < (exLevel 3).numsubsectors →
      readAt (exLevel 3).subsectors num = .ok sub →
      sub.numlines.toNat = j + (m + 1) →
      crossSegs exEnv (exLevel 3) j sub.firstline s = .ok (true, s1) →
      readAt (exLevel 3).segs (sub.firstline + j) = .ok (exSeg 3) →
      s1.linevalid (exSeg 3).linedef ≠ s1.validcount →
      P_CrossesStrace exEnv (exLevel 3) s1 (exSeg 3) = true →
      ∃ v s2, P_BlocksStrace exEnv (exLevel 3) (markLine s1 (exSeg 3)) (exSeg 3)
          = .ok (v, s2) ∧
        ((s1.topslope ≤ s1.bottomslope ∨ s2.topslope ≤ s2.bottomslope) →
          P_CrossSubsector exEnv (exLevel 3) s num
            = .ok (false, logSeg s2 (sub.firstline + j) true))) ∧
    (∀ fuel s t1 t2, segsTwoSidedOK exEnv (exLevel 3) = true →
      treeOK (exLevel 3) fuel ((exLevel 3).numnodes - 1) = true →
      ∃ res s', P_SightUnobstructed exEnv (exLevel 3) fuel s t1 t2 = .ok (res, s')) ∧
    (∀ fuel s bspnum s1,
      (cand bspnum (exLevel 3).NF_SUBSECTOR ≠ 0 →
        P_CrossSubsector exEnv (exLevel 3) s
            (if bspnum = -1 then 0 else cand bspnum (cnot (exLevel 3).NF_SUBSECTOR))
          = .ok (false, s1) →
        P_CrossBSPNode exEnv (exLevel 3) (fuel + 1) s bspnum = .ok (false, s1)) ∧
      (∀ bsp, cand bspnum (exLevel 3).NF_SUBSECTOR = 0 → readAt (exLevel 3).nodes bspnum = .ok bsp →
        (P_CrossBSPNode exEnv (exLevel 3) fuel s (bsp.children (startSide exEnv s bsp).toNat)
            = .ok (false, s1) →
          P_CrossBSPNode exEnv (exLevel 3) (fuel + 1) s bspnum = .ok (false, s1)) ∧
        (∀ s0, P_CrossBSPNode exEnv (exLevel 3) fuel s (bsp.children (startSide exEnv s bsp).toNat)
            = .ok (true, s0) →
          startSide exEnv s bsp ≠ P_DivlineSide exEnv s0.t2x s0.t2y (nodeDivline bsp) →
          P_CrossBSPNode exEnv (exLevel 3) fuel s0 (bsp.children ((startSide exEnv s bsp).toNat ^^^ 1))
            = .ok (false, s1) →
          P_CrossBSPNode exEnv (exLevel 3) (fuel + 1) s bspnum = .ok (false, s1))) ∧
      (∀ t1 t2, P_CrossBSPNode exEnv (exLevel 3) fuel (sightStart s t1 t2) ((exLevel 3).numnodes - 1)
          = .ok (false, s1) →
        P_SightUnobstructed exEnv (exLevel 3) fuel s t1 t2 = .ok (false, s1))) ∧
    (∀ fuel s t1 t2 res s',
      P_SightUnobstructed exEnv (exLevel 3) fuel s t1 t2 = .ok (res, s') →
      ∃ new, s'.examined = s.examined ++ new ∧
        ∀ r ∈ new, readAt (exLevel 3).segs r.seg = .ok (exSeg 3) →
          P_CrossesStrace exEnv (exLevel 3) s' (exSeg 3) = true →
          r.topslope ≤ r.bottomslope → res = false ∧ ∃ init, new = init ++ [r]) ∧
    (∀ seg2 b2, ((exLevel 3).lines seg2.linedef).backsector ≠ none →
      P_IsTwoSided exEnv (exLevel 3) seg2 = true → seg2.backsector = some b2 →
      ((exLevel 3).sectors seg2.frontsector).floorheight
        = ((exLevel 3).sectors b2).floorheight →
      ((exLevel 3).sectors seg2.frontsector).ceilingheight
        = ((exLevel 3).sectors b2).ceilingheight →
      (∀ s, P_BlocksStrace exEnv (exLevel 3) s seg2 = .ok (false, s)) ∧
      (∀ n idx s, readAt (exLevel 3).segs idx = .ok seg2 →
        s.linevalid seg2.linedef ≠ s.validcount →
        crossSegs exEnv (exLevel 3) (n + 1) idx s
          = crossSegs exEnv (exLevel 3) n (idx + 1)
              (logSeg (markLine s seg2) idx false)))) :=
  ⟨by decide,
    (C6_cone_collapse_termination exEnv (exLevel 3) (exSeg 3) 2 (by decide) (by decide)
      (by decide)).2.2.2.1 3 exSight exLooker (exTarget 0) (by decide) (by decide),
    (C6_cone_collapse_termination exEnv (exLevel 3) (exSeg 3) 2 (by decide) (by decide)
      (by decide)).2.2.2.2.2.2 (exSeg 1) 1 (by decide) (by decide) (by decide) (by decide)
      (by decide),
    C6_cone_collapse_termination exEnv (exLevel 3) (exSeg 3) 2 (by decide) (by decide)
      (by decide)⟩

/-! ### The BSP walk of the renderer returns -/

theorem clipBudget_cleared (vw : Int) (s0 : ClipState) (hvw : 1 ≤ vw) (hint : vw ≤ INT_MAX) :
    ClipBudget vw (R_ClearClipSegs vw s0) := by
  have hc := slackColumns_cleared vw s0 hvw
  refine ⟨1, by simp [R_ClearClipSegs], cleared_wf vw s0 hvw hint, ?_⟩
  have : ((R_ClearClipSegs vw s0).newend : Int) = 2 := by simp [R_ClearClipSegs]
  omega

theorem clipBudget_newend (vw : Int) (c : ClipState) (h : ClipBudget vw c) :
    (c.newend : Int) ≤ (vw + 3) / 2 := by
  obtain ⟨k, _, _, hpot⟩ := h
  have : (0 : Int) ≤ ((slackColumns vw c.solidsegs k).card : Int) := Int.natCast_nonneg _
  omega

theorem R_SetPlanes_clip (V : View) (lv : Level) (s : RenderState) :
    (R_SetPlanes V lv s).clip = s.clip := by
  unfold R_SetPlanes
  simp only
  split_ifs <;> rfl

theorem R_RenderLine_returns (V : View) (lv : Level) (fuel : Nat) (s : RenderState)
    (line : seg_t) (hvw : V.viewwidth ≤ INT_MAX) (hin : segInView V line = true)
    (hinv : ClipBudget V.viewwidth s.clip) (hfuel : s.clip.newend < fuel) :
    ∃ s', R_RenderLine V lv fuel s line = .ok s' ∧ ClipBudget V.viewwidth s'.clip := by
  obtain ⟨k, hk, hwf, hpot⟩ := hinv
  unfold segInView segColumns at hin
  unfold R_RenderLine
  simp only at hin ⊢
  split
  · exact ⟨_, rfl, k, hk, hwf, hpot⟩
  · rename_i hspan
    rw [if_neg hspan] at hin
    split
    · exact ⟨_, rfl, k, hk, hwf, hpot⟩
    · rename_i a1 a2 hc
      rw [hc] at hin
      simp only [decide_eq_true_eq] at hin
      split
      · exact ⟨_, rfl, k, hk, hwf, hpot⟩
      · rename_i hne
        obtain ⟨b1, b2, b3⟩ := hin.resolve_left hne
        have hsolid := solid_step_slack V.viewwidth s.clip k (angleToColumn V a1)
          (angleToColumn V a2 - 1) fuel hk hwf b1 (by omega) (by omega) hvw hfuel
        have hpass := pass_step V.viewwidth s.clip k (angleToColumn V a1)
          (angleToColumn V a2 - 1) fuel hwf b1 (by omega) (by omega) (by omega)
        obtain ⟨c1, k1, e1, hk1, hwf1, hpot1, _⟩ := hsolid
        obtain ⟨new, e2, _⟩ := hpass
        cases hbs : line.backsector with
        | none =>
          simp only [R_IsWall, Option.isNone_none, if_true, e1]
          exact ⟨_, rfl, k1, hk1, hwf1, Int.le_trans hpot1 hpot⟩
        | some b =>
          simp only [R_IsWall, Option.isNone_some, Bool.false_eq_true, if_false]
          split
          · simp only [e1]
            exact ⟨_, rfl, k1, hk1, hwf1, Int.le_trans hpot1 hpot⟩
          · split
            · simp only [e2]
              exact ⟨_, rfl, k, hk, hwf, hpot⟩
            · exact ⟨_, rfl, k, hk, hwf, hpot⟩

theorem renderLines_returns (V : View) (lv : Level) (fuel : Nat)
    (hvw : V.viewwidth ≤ INT_MAX) (hsegs : ∀ line ∈ lv.segs, segInView V line = true)
    (hfuel : (V.viewwidth + 3) / 2 < (fuel : Int)) :
    ∀ (n : Nat) (i : Int) (s : RenderState),
      (n = 0 ∨ (0 ≤ i ∧ i + (n : Int) ≤ (lv.segs.length : Int))) →
      ClipBudget V.viewwidth s.clip →
      ∃ s', renderLines V lv fuel n i s = .ok s' ∧ ClipBudget V.viewwidth s'.clip := by
  intro n
  induction n with
  | zero => intro i s _ hinv; exact ⟨s, rfl, hinv⟩
  | succ m ih =>
    intro i s hr hinv
    have hr2 : 0 ≤ i ∧ i + ((m + 1 : Nat) : Int) ≤ (lv.segs.length : Int) := by
      rcases hr with h | h
      · omega
      · exact h
    obtain ⟨line, hline, hmem⟩ := readAt_ok_of_range lv.segs i hr2.1 (by omega)
    have hnext : m = 0 ∨ (0 ≤ i + 1 ∧ i + 1 + (m : Int) ≤ (lv.segs.length : Int)) := by
      right
      constructor
      · omega
      · have := hr2.2
        push_cast at this
        omega
    have hne := clipBudget_newend V.viewwidth s.clip hinv
    obtain ⟨s1, e1, hinv1⟩ := R_RenderLine_returns V lv fuel s line hvw (hsegs line hmem) hinv
      (by omega)
    rw [renderLines, hline]
    simp only
    rw [e1]
    exact ih (i + 1) s1 hnext hinv1

theorem R_RenderSubSector_returns (V : View) (lv : Level) (fuel : Nat) (s : RenderState)
    (num : Int) (hvw : V.viewwidth ≤ INT_MAX)
    (hsegs : ∀ line ∈ lv.segs, segInView V line = true)
    (hfuel : (V.viewwidth + 3) / 2 < (fuel : Int)) (hleaf : leafOK lv num = true)
    (hinv : ClipBudget V.viewwidth s.clip) :
    (∃ s', R_RenderSubSector V lv fuel s num = .ok s' ∧ ClipBudget V.viewwidth s'.clip) ∨
      R_RenderSubSector V lv fuel s num = .error solidsegsOverflow := by
  unfold leafOK at hleaf
  simp only [Bool.and_eq_true, decide_eq_true_eq] at hleaf
  obtain ⟨⟨hn0, hn1⟩, hsub⟩ := hleaf
  unfold R_RenderSubSector
  rw [if_neg (by omega)]
  cases hr : readAt lv.subsectors num with
  | error e => rw [hr] at hsub; cases hsub
  | ok sub =>
    rw [hr] at hsub
    simp only [decide_eq_true_eq] at hsub
    simp only
    unfold R_RenderSubSectorLines
    simp only
    have hcount : (sub.firstline + sub.numlines - 1 - sub.firstline + 1).toNat
        = sub.numlines.toNat := by
      congr 1
      omega
    rw [hcount]
    obtain ⟨s1, e1, hinv1⟩ := renderLines_returns V lv fuel hvw hsegs hfuel
      sub.numlines.toNat sub.firstline
      { R_SetPlanes V lv { s with frontsector := sub.sector, visited := s.visited ++ [num] } with
        sprites := (R_SetPlanes V lv
          { s with frontsector := sub.sector, visited := s.visited ++ [num] }).sprites
          ++ [(R_SetPlanes V lv
            { s with frontsector := sub.sector, visited := s.visited ++ [num] }).frontsector] }
      hsub
      (by
        show ClipBudget V.viewwidth (R_SetPlanes V lv _).clip
        rw [R_SetPlanes_clip]
        exact hinv)
    rw [e1]
    simp only
    by_cases h32 : s1.clip.newend > 32
    · rw [if_pos h32]
      exact Or.inr rfl
    · rw [if_neg h32]
      exact Or.inl ⟨s1, rfl, hinv1⟩

theorem R_CheckBBox_returns (V : View) (fuel : Nat) (s : RenderState) (bspcoord : Nat → Int)
    (htab : ∀ i, V.viewangletox i ≤ INT_MAX) (hinv : ClipBudget V.viewwidth s.clip)
    (hfuel : s.clip.newend ≤ fuel) :
    ∃ b, R_CheckBBox V fuel s bspcoord = .ok b := by
  obtain ⟨k, hk, hwf, _⟩ := hinv
  unfold R_CheckBBox
  simp only
  split
  · exact ⟨_, rfl⟩
  · split
    · exact ⟨_, rfl⟩
    · split
      · exact ⟨_, rfl⟩
      · rename_i a1 a2 hc
        split
        · exact ⟨_, rfl⟩
        · have hx : angleToColumn V a2 ≤ INT_MAX := htab _
          have hlast : (s.clip.solidsegs k).last = INT_MAX := hwf.1.1
          obtain ⟨j, hj, _⟩ := solidScanStart_spec s.clip.solidsegs
            (angleToColumn V a2 - 1 + 1) k (by omega) fuel 0 (Nat.zero_le _) (by omega)
          rw [bboxScanStart_eq, hj]
          exact ⟨_, rfl⟩

theorem R_RenderBSPNode_visited_ne (V : View) (lv : Level) :
    ∀ (fuel : Nat) (s s' : RenderState) (bsp_node : Int),
      R_RenderBSPNode V lv fuel s bsp_node = .ok s' →
      ∃ l, l ≠ [] ∧ s'.visited = s.visited ++ l := by
  intro fuel
  induction fuel with
  | zero => intro s s' n h; simp [R_RenderBSPNode] at h
  | succ m ih =>
    intro s s' n h
    simp only [R_RenderBSPNode] at h
    split_ifs at h with c1 c2
    · exact ⟨_, by simp, R_RenderSubSector_visited V lv m _ _ _ h⟩
    · exact ⟨_, by simp, R_RenderSubSector_visited V lv m _ _ _ h⟩
    · split at h
      · cases h
      · split at h
        · cases h
        · rename_i s1 h1
          obtain ⟨l1, n1, e1⟩ := ih _ _ _ h1
          split at h
          · cases h
          · obtain ⟨l2, _, e2⟩ := ih _ _ _ h
            exact ⟨l1 ++ l2, by simp [n1], by rw [e2, e1, List.append_assoc]⟩
          · cases h
            exact ⟨l1, n1, e1⟩

theorem R_RenderBSPNode_returns (V : View) (lv : Level)
    (hside : ∀ x y n, V.R_PointOnSide x y n ≤ 1) (htab : ∀ i, V.viewangletox i ≤ INT_MAX)
    (hvw : V.viewwidth ≤ INT_MAX) (hsegs : ∀ line ∈ lv.segs, segInView V line = true) :
    ∀ (d fuel : Nat) (s : RenderState) (bsp_node : Int), treeOK lv d bsp_node = true →
      (d : Int) + (V.viewwidth + 3) / 2 < (fuel : Int) → ClipBudget V.viewwidth s.clip →
      (∃ s', R_RenderBSPNode V lv fuel s bsp_node = .ok s' ∧ ClipBudget V.viewwidth s'.clip) ∨
        R_RenderBSPNode V lv fuel s bsp_node = .error solidsegsOverflow := by
  intro d
  induction d with
  | zero =>
    intro fuel s n h
    rw [treeOK] at h
    exact Bool.noConfusion h
  | succ d ih =>
    intro fuel s n htree hfuel hinv
    have hne := clipBudget_newend V.viewwidth s.clip hinv
    cases fuel with
    | zero => push_cast at hfuel; omega
    | succ f =>
      push_cast at hfuel
      rw [treeOK] at htree
      rw [R_RenderBSPNode]
      by_cases hleaf : cand n lv.NF_SUBSECTOR ≠ 0
      · rw [if_pos hleaf] at htree ⊢
        exact R_RenderSubSector_returns V lv f s _ hvw hsegs (by omega) htree hinv
      · rw [if_neg hleaf] at htree ⊢
        cases hr : readAt lv.nodes n with
        | error e => rw [hr] at htree; cases htree
        | ok node =>
          rw [hr] at htree
          simp only [Bool.and_eq_true] at htree
          obtain ⟨hc0, hc1⟩ := htree
          simp only
          have hchild : ∀ side : Nat, side ≤ 1 →
              treeOK lv d (node.children side) = true ∧
              treeOK lv d (node.children (side ^^^ 1)) = true := by
            intro side hs
            have h01 : side = 0 ∨ side = 1 := by omega
            rcases h01 with rfl | rfl
            · exact ⟨hc0, hc1⟩
            · exact ⟨hc1, hc0⟩
          obtain ⟨t0, t1⟩ := hchild _ (hside V.viewx V.viewy node)
          rcases ih f s _ t0 (by omega) hinv with ⟨s1, e1, hinv1⟩ | e1
          · rw [e1]
            simp only
            have hne1 := clipBudget_newend V.viewwidth s1.clip hinv1
            obtain ⟨b, eb⟩ := R_CheckBBox_returns V f s1
              (node.bbox (V.R_PointOnSide V.viewx V.viewy node ^^^ 1)) htab hinv1 (by omega)
            rw [eb]
            cases b
            · exact Or.inl ⟨s1, rfl, hinv1⟩
            · exact ih f s1 _ t1 (by omega) hinv1
          · rw [e1]
            exact Or.inr rfl

/-- C4 (front-to-back order): at an internal node, `R_RenderBSPNode` first
traverses the child on the viewpoint's side,
`children[R_PointOnSide(viewx, viewy, node)]`, whatever the occlusion list
holds; a fatal error there ends the walk. Once that traversal has returned, the
other child is traversed if and only if `R_CheckBBox` of its bounding box,
evaluated on the state the near subtree left, returns true; and every
subsector rendered from the near subtree precedes every subsector rendered
from the other subtree in the order of rendering. The walk does return: on a
well-formed tree of depth `d + 1` whose segs map to columns of the view, from
a well-formed clip list and with fuel above `d + (viewwidth + 3) / 2`, the
near traversal either stops with the fatal solidsegs-overflow error, which
is then the result of the node, or returns having rendered at least one
subsector; `R_CheckBBox` then returns a verdict; on false the node returns
the state of the near traversal, on true the far traversal runs from that
state and the node ends as it does, with the subsectors of the near
subtree, then those of the far subtree (at least one), appended to the
order of rendering. -/
theorem C4_front_to_back_order (V : View) (lv : Level) (fuel : Nat) (s : RenderState)
    (bsp_node : Int) (node : node_t) (hnode : cand bsp_node lv.NF_SUBSECTOR = 0)
    (hread : readAt lv.nodes bsp_node = .ok node) :
    (∀ e, R_RenderBSPNode V lv fuel s
        (node.children (V.R_PointOnSide V.viewx V.viewy node)) = .error e →
      R_RenderBSPNode V lv (fuel + 1) s bsp_node = .error e) ∧
    (∀ s1, R_RenderBSPNode V lv fuel s
        (node.children (V.R_PointOnSide V.viewx V.viewy node)) = .ok s1 →
      ∃ near, s1.visited = s.visited ++ near ∧
        (∀ e, R_CheckBBox V fuel s1 (node.bbox (V.R_PointOnSide V.viewx V.viewy node ^^^ 1))
            = .error e → R_RenderBSPNode V lv (fuel + 1) s bsp_node = .error e) ∧
        (R_CheckBBox V fuel s1 (node.bbox (V.R_PointOnSide V.viewx V.viewy node ^^^ 1))
            = .ok false → R_RenderBSPNode V lv (fuel + 1) s bsp_node = .ok s1) ∧
        (R_CheckBBox V fuel s1 (node.bbox (V.R_PointOnSide V.viewx V.viewy node ^^^ 1))
            = .ok true →
          R_RenderBSPNode V lv (fuel + 1) s bsp_node
            = R_RenderBSPNode V lv fuel s1
                (node.children (V.R_PointOnSide V.viewx V.viewy node ^^^ 1)) ∧
          ∀ s', R_RenderBSPNode V lv (fuel + 1) s bsp_node = .ok s' →
            ∃ far, s'.visited = s.visited ++ near ++ far)) ∧
    (∀ d : Nat, (∀ x y n, V.R_PointOnSide x y n ≤ 1) → (∀ i, V.viewangletox i ≤ INT_MAX) →
      V.viewwidth ≤ INT_MAX → (∀ line ∈ lv.segs, segInView V line = true) →
      treeOK lv (d + 1) bsp_node = true →
      (d : Int) + (V.viewwidth + 3) / 2 < (fuel : Int) → ClipBudget V.viewwidth s.clip →
      (R_RenderBSPNode V lv fuel s (node.children (V.R_PointOnSide V.viewx V.viewy node))
          = .error solidsegsOverflow ∧
        R_RenderBSPNode V lv (fuel + 1) s bsp_node = .error solidsegsOverflow) ∨
      ∃ s1 near b,
        R_RenderBSPNode V lv fuel s (node.children (V.R_PointOnSide V.viewx V.viewy node))
          = .ok s1 ∧
        s1.visited = s.visited ++ near ∧ near ≠ [] ∧
        R_CheckBBox V fuel s1 (node.bbox (V.R_PointOnSide V.viewx V.viewy node ^^^ 1))
          = .ok b ∧
        (b = false → R_RenderBSPNode V lv (fuel + 1) s bsp_node = .ok s1) ∧
        (b = true →
          (R_RenderBSPNode V lv fuel s1
              (node.children (V.R_PointOnSide V.viewx V.viewy node ^^^ 1))
              = .error solidsegsOverflow ∧
            R_RenderBSPNode V lv (fuel + 1) s bsp_node = .error solidsegsOverflow) ∨
          ∃ s' far,
            R_RenderBSPNode V lv fuel s1
              (node.children (V.R_PointOnSide V.viewx V.viewy node ^^^ 1)) = .ok s' ∧
            R_RenderBSPNode V lv (fuel + 1) s bsp_node = .ok s' ∧
            s'.visited = s.visited ++ near ++ far ∧ far ≠ [])) := by
  have hnode' : ¬ cand bsp_node lv.NF_SUBSECTOR ≠ 0 := by simp [hnode]
  refine ⟨?_, ?_, ?_⟩
  · intro e he
    simp only [R_RenderBSPNode, hnode', if_false, hread, he]
  · intro s1 h1
    obtain ⟨near, hnear⟩ := R_RenderBSPNode_visited V lv fuel s s1 _ h1
    refine ⟨near, hnear, ?_, ?_, ?_⟩
    · intro e he
      simp only [R_RenderBSPNode, hnode', if_false, hread, h1, he]
    · intro hf
      simp only [R_RenderBSPNode, hnode', if_false, hread, h1, hf]
    · intro ht
      have heq : R_RenderBSPNode V lv (fuel + 1) s bsp_node
          = R_RenderBSPNode V lv fuel s1
              (node.children (V.R_PointOnSide V.viewx V.viewy node ^^^ 1)) := by
        simp only [R_RenderBSPNode, hnode', if_false, hread, h1, ht]
      refine ⟨heq, ?_⟩
      intro s' hs'
      rw [heq] at hs'
      obtain ⟨far, hfar⟩ := R_RenderBSPNode_visited V lv fuel s1 s' _ hs'
      exact ⟨far, by rw [hfar, hnear]⟩
  · intro d hside htab hvw hsegs htree hfuel hinv
    rw [treeOK, if_neg hnode', hread] at htree
    simp only [Bool.and_eq_true] at htree
    obtain ⟨hc0, hc1⟩ := htree
    have hchild : ∀ side : Nat, side ≤ 1 →
        treeOK lv d (node.children side) = true ∧
        treeOK lv d (node.children (side ^^^ 1)) = true := by
      intro side hs
      have h01 : side = 0 ∨ side = 1 := by omega
      rcases h01 with rfl | rfl
      · exact ⟨hc0, hc1⟩
      · exact ⟨hc1, hc0⟩
    obtain ⟨t0, t1⟩ := hchild _ (hside V.viewx V.viewy node)
    rcases R_RenderBSPNode_returns V lv hside htab hvw hsegs d fuel s _ t0 hfuel hinv with
      ⟨s1, e1, hinv1⟩ | e1
    · right
      obtain ⟨near, hn, hv⟩ := R_RenderBSPNode_visited_ne V lv fuel s s1 _ e1
      have hne1 := clipBudget_newend V.viewwidth s1.clip hinv1
      obtain ⟨b, eb⟩ := R_CheckBBox_returns V fuel s1
        (node.bbox (V.R_PointOnSide V.viewx V.viewy node ^^^ 1)) htab hinv1 (by omega)
      refine ⟨s1, near, b, e1, hv, hn, eb, ?_, ?_⟩
      · intro hb
        subst hb
        simp only [R_RenderBSPNode, hnode', if_false, hread, e1, eb]
      · intro hb
        subst hb
        have heq : R_RenderBSPNode V lv (fuel + 1) s bsp_node
            = R_RenderBSPNode V lv fuel s1
                (node.children (V.R_PointOnSide V.viewx V.viewy node ^^^ 1)) := by
          simp only [R_RenderBSPNode, hnode', if_false, hread, e1, eb]
        rcases R_RenderBSPNode_returns V lv hside htab hvw hsegs d fuel s1 _ t1 hfuel hinv1
          with ⟨s', e2, _⟩ | e2
        · right
          obtain ⟨far, hf, hv2⟩ := R_RenderBSPNode_visited_ne V lv fuel s1 s' _ e2
          exact ⟨s', far, e2, by rw [heq]; exact e2, by rw [hv2, hv], hf⟩
        · left
          exact ⟨e2, by rw [heq]; exact e2⟩
    · left
      exact ⟨e1, by simp only [R_RenderBSPNode, hnode', if_false, hread, e1]⟩

/-- Instance of C4: the one-node example level with a window in the near
subsector 0 and a wall in the far subsector 1, from the start of a frame of
the 16-column example view: subsector 0 is rendered first, the bounding box
of the far child is not hidden by what the near child left, and subsector 1
follows. -/
theorem C4_front_to_back_order_witness :
    (visitedOf (R_RenderBSPNode exView exLevelWindow (11 + 1) (exRender 0) 0) = some [0, 1] ∧
      visitedOf (R_RenderBSPNode exView exLevelWindow 11 (exRender 0)
        (exNodeBox.children (exView.R_PointOnSide exView.viewx exView.viewy exNodeBox)))
        = some [0] ∧
      clipcallsOf (R_RenderBSPNode exView exLevelWindow (11 + 1) (exRender 0) 0)
        = some [ClipCall.pass 4 11, ClipCall.solid 4 11]) ∧
    ((R_RenderBSPNode exView exLevelWindow 11 (exRender 0)
          (exNodeBox.children (exView.R_PointOnSide exView.viewx exView.viewy exNodeBox))
          = .error solidsegsOverflow ∧
        R_RenderBSPNode exView exLevelWindow (11 + 1) (exRender 0) 0
          = .error solidsegsOverflow) ∨
      ∃ s1 near b,
        R_RenderBSPNode exView exLevelWindow 11 (exRender 0)
          (exNodeBox.children (exView.R_PointOnSide exView.viewx exView.viewy exNodeBox))
          = .ok s1 ∧
        s1.visited = (exRender 0).visited ++ near ∧ near ≠ [] ∧
        R_CheckBBox exView 11 s1
          (exNodeBox.bbox (exView.R_PointOnSide exView.viewx exView.viewy exNodeBox ^^^ 1))
          = .ok b ∧
        (b = false → R_RenderBSPNode exView exLevelWindow (11 + 1) (exRender 0) 0 = .ok s1) ∧
        (b = true →
          (R_RenderBSPNode exView exLevelWindow 11 s1
              (exNodeBox.children
                (exView.R_PointOnSide exView.viewx exView.viewy exNodeBox ^^^ 1))
              = .error solidsegsOverflow ∧
            R_RenderBSPNode exView exLevelWindow (11 + 1) (exRender 0) 0
              = .error solidsegsOverflow) ∨
          ∃ s' far,
            R_RenderBSPNode exView exLevelWindow 11 s1
              (exNodeBox.children
                (exView.R_PointOnSide exView.viewx exView.viewy exNodeBox ^^^ 1)) = .ok s' ∧
            R_RenderBSPNode exView exLevelWindow (11 + 1) (exRender 0) 0 = .ok s' ∧
            s'.visited = (exRender 0).visited ++ near ++ far ∧ far ≠ [])) ∧
    ((∀ e, R_RenderBSPNode exView exLevelWindow 11 (exRender 0)
        (exNodeBox.children (exView.R_PointOnSide exView.viewx exView.viewy exNodeBox))
        = .error e →
      R_RenderBSPNode exView exLevelWindow (11 + 1) (exRender 0) 0 = .error e) ∧
    (∀ s1, R_RenderBSPNode exView exLevelWindow 11 (exRender 0)
        (exNodeBox.children (exView.R_PointOnSide exView.viewx exView.viewy exNodeBox))
        = .ok s1 →
      ∃ near, s1.visited = (exRender 0).visited ++ near ∧
        (∀ e, R_CheckBBox exView 11 s1
            (exNodeBox.bbox (exView.R_PointOnSide exView.viewx exView.viewy exNodeBox ^^^ 1))
            = .error e →
          R_RenderBSPNode exView exLevelWindow (11 + 1) (exRender 0) 0 = .error e) ∧
        (R_CheckBBox exView 11 s1
            (exNodeBox.bbox (exView.R_PointOnSide exView.viewx exView.viewy exNodeBox ^^^ 1))
            = .ok false →
          R_RenderBSPNode exView exLevelWindow (11 + 1) (exRender 0) 0 = .ok s1) ∧
        (R_CheckBBox exView 11 s1
            (exNodeBox.bbox (exView.R_PointOnSide exView.viewx exView.viewy exNodeBox ^^^ 1))
            = .ok true →
          R_RenderBSPNode exView exLevelWindow (11 + 1) (exRender 0) 0
            = R_RenderBSPNode exView exLevelWindow 11 s1
                (exNodeBox.children
                  (exView.R_PointOnSide exView.viewx exView.viewy exNodeBox ^^^ 1)) ∧
          ∀ s', R_RenderBSPNode exView exLevelWindow (11 + 1) (exRender 0) 0 = .ok s' →
            ∃ far, s'.visited = (exRender 0).visited ++ near ++ far)) ∧
    (∀ d : Nat, (∀ x y n, exView.R_PointOnSide x y n ≤ 1) →
      (∀ i, exView.viewangletox i ≤ INT_MAX) → exView.viewwidth ≤ INT_MAX →
      (∀ line ∈ exLevelWindow.segs, segInView exView line = true) →
      treeOK exLevelWindow (d + 1) 0 = true →
      (d : Int) + (exView.viewwidth + 3) / 2 < ((11 : Nat) : Int) →
      ClipBudget exView.viewwidth (exRender 0).clip →
      (R_RenderBSPNode exView exLevelWindow 11 (exRender 0)
          (exNodeBox.children (exView.R_PointOnSide exView.viewx exView.viewy exNodeBox))
          = .error solidsegsOverflow ∧
        R_RenderBSPNode exView exLevelWindow (11 + 1) (exRender 0) 0
          = .error solidsegsOverflow) ∨
      ∃ s1 near b,
        R_RenderBSPNode exView exLevelWindow 11 (exRender 0)
          (exNodeBox.children (exView.R_PointOnSide exView.viewx exView.viewy exNodeBox))
          = .ok s1 ∧
        s1.visited = (exRender 0).visited ++ near ∧ near ≠ [] ∧
        R_CheckBBox exView 11 s1
          (exNodeBox.bbox (exView.R_PointOnSide exView.viewx exView.viewy exNodeBox ^^^ 1))
          = .ok b ∧
        (b = false → R_RenderBSPNode exView exLevelWindow (11 + 1) (exRender 0) 0 = .ok s1) ∧
        (b = true →
          (R_RenderBSPNode exView exLevelWindow 11 s1
              (exNodeBox.children
                (exView.R_PointOnSide exView.viewx exView.viewy exNodeBox ^^^ 1))
              = .error solidsegsOverflow ∧
            R_RenderBSPNode exView exLevelWindow (11 + 1) (exRender 0) 0
              = .error solidsegsOverflow) ∨
          ∃ s' far,
            R_RenderBSPNode exView exLevelWindow 11 s1
              (exNodeBox.children
                (exView.R_PointOnSide exView.viewx exView.viewy exNodeBox ^^^ 1)) = .ok s' ∧
            R_RenderBSPNode exView exLevelWindow (11 + 1) (exRender 0) 0 = .ok s' ∧
            s'.visited = (exRender 0).visited ++ near ++ far ∧ far ≠ []))) :=
  ⟨by decide,
    (C4_front_to_back_order exView exLevelWindow 11 (exRender 0) 0 exNodeBox (by decide)
      rfl).2.2 1 (fun _ _ _ => Nat.zero_le 1)
      (by
        intro i
        have hmaxv : INT_MAX = 2147483647 := rfl
        show (if i ≤ 3072 then ((3072 - i : Nat) : Int) / 128 else 0) ≤ INT_MAX
        split_ifs <;> omega)
      (by decide) (by decide) (by decide) (by decide)
      (clipBudget_cleared 16 _ (by decide) (by decide)),
    C4_front_to_back_order exView exLevelWindow 11 (exRender 0) 0 exNodeBox (by decide) rfl⟩


end Broom
